import Mathlib

/-! A shallow embedding of the logging core of grolog.

The development follows the Go sources of the repository:

* `config.go`   : levels, styles, the configuration record;
* `storage.go`  : the rotating file sink `groStorage`;
* `msg.go`      : the message envelope and the object pools;
* `pusher.go`   : the fan-out point `groPusher`;
* `handler_sync.go`, `handler_asyn.go` : the two dispatch handlers.

Byte slices are lists of characters (one character per byte).  Go `int` and
`int64` values are integers; no quantity below comes near the machine range.
Code that can panic or loop returns an `Outcome`.
-/

namespace Grolog

/-! ## Outcomes of Go calls -/

/-- Result of running a piece of Go code: it returns, it panics, or the
bounded evaluation ran out of loop iterations. -/
inductive Outcome (α : Type) where
  | ok (a : α)
  | panicked
  | outOfFuel
  deriving DecidableEq, Repr

/-- Sequencing of two calls: a panic or an exhausted loop aborts the rest. -/
def Outcome.bind {α β : Type} (x : Outcome α) (f : α → Outcome β) : Outcome β :=
  match x with
  | .ok a => f a
  | .panicked => .panicked
  | .outOfFuel => .outOfFuel

instance : Monad Outcome where
  pure := Outcome.ok
  bind := Outcome.bind

/-- Byte slices and buffer contents. -/
abbrev Bytes := List Char

/-! ## config.go -/

def LevelVerBose : Int := 0
def LevelDebug : Int := 1
def LevelTrace : Int := 2
def LevelWarning : Int := 3
def LevelError : Int := 4
def LevelFatal : Int := 5

def levelStrings : List String :=
  ["VBOSE", "DEBUG", "TRACE", "WARNG", "ERROR", "FATAL"]

def levelStyleStarts : List String :=
  ["\x1b[32;2m", "\x1b[32;2m", "\x1b[36;2m", "\x1b[33;2m", "\x1b[31;2m", "\x1b[31;2m"]

def levelStyleEnd : String := "\x1b[0m"

def StyleBasic : Int := 0
def StyleBrief : Int := 1
def StyleDetail : Int := 2

/-- Indexing a Go slice of strings with an `int`: out of range panics. -/
def indexString (xs : List String) (i : Int) : Outcome Bytes :=
  if i < 0 then .panicked
  else
    match xs.get? i.toNat with
    | some s => .ok s.toList
    | none => .panicked

/-- The ways a `GoExec` launch strategy can schedule the closure it is given.
`inline` runs it before `GoExec` returns (`func(f func()) \x7b f() \x7d`);
`deferred` runs it at some point after the caller has gone on, which is what
the default `go f()` and any worker pool may do. -/
inductive GoExecStrategy where
  | inline
  | deferred
  deriving DecidableEq, Repr

/-- The configuration record of `config.go`.  The two duration strings are
kept as the result of `time.ParseDuration` on them (`none` when parsing
fails, nanoseconds otherwise); `startTime` is kept as formatted by
`Format("060102150405")`; `pid` is what `os.Getpid()` returns.  The message
callback is kept as whether it is non-nil: what it is called with is recorded
by the pusher.  `FatalHandling` and `logger` are never nil once `init` has
run; the launches of `FatalHandling` are recorded by the pusher too. -/
structure Config where
  startTime : String
  pid : Nat
  MsgCallback : Bool
  GoExec : GoExecStrategy
  Level : Int
  Style : Int
  EnableAsyn : Bool
  EnableFileTime : Bool
  DisableSave : Bool
  DisablePrint : Bool
  MaxAsynExec : Int
  MaxAsynBuffer : Int
  MaxWriteBuffer : Int
  MaxFileCount : Int
  MaxFileSize : Int
  FileDir : String
  FileName : String
  FlashInterval : Option Int
  ExpireTime : Option Int
  deriving DecidableEq, Repr

/-! ## The operating system as seen by storage.go

Files are addressed by path.  A storage has at most one file open and closes
it before it removes or reopens anything, so a handle can name its file by
path. -/

/-- One entry of the file system. -/
structure FileInfo where
  path : String
  isDir : Bool
  modTime : Int
  data : Bytes
  deriving DecidableEq, Repr

/-- The world outside the process: the file system, the wall clock
(nanoseconds), the paths on which `open(2)` fails, and a count of the file
handles released so far. -/
structure World where
  files : List FileInfo
  now : Int
  unopenable : List String
  released : Nat
  deriving DecidableEq, Repr

def O_RDONLY : Nat := 0
def O_WRONLY : Nat := 1
def O_RDWR : Nat := 2
def O_CREATE : Nat := 64
def O_TRUNC : Nat := 512
def O_APPEND : Nat := 1024

/-- An open `*os.File`. -/
structure OsFile where
  path : String
  flag : Nat
  offset : Nat
  deriving DecidableEq, Repr

def World.lookup (w : World) (path : String) : Option FileInfo :=
  w.files.find? (fun e => e.path == path)

/-- Result of `os.Stat(path)`: does the path exist. -/
def World.exists (w : World) (path : String) : Bool :=
  (w.lookup path).isSome

/-- Replace the content of `path` (creating the entry when absent). -/
def World.store (w : World) (path : String) (data : Bytes) : World :=
  if w.exists path then
    { w with files := w.files.map (fun e =>
        if e.path == path then { e with data := data, modTime := w.now } else e) }
  else
    { w with files := w.files ++ [{ path := path, isDir := false, modTime := w.now, data := data }] }

/-- The call `os.Create(name)` followed by closing the handle it returns:
creates or truncates the file; `none` when the call fails. -/
def osCreate (w : World) (name : String) : Option World :=
  if name ∈ w.unopenable then none
  else some (w.store name [])

/-- The call `os.OpenFile(name, flag, 0644)`: `none` stands for a nil file
with an error. -/
def osOpenFile (w : World) (name : String) (flag : Nat) : Option (World × OsFile) :=
  if name ∈ w.unopenable then none
  else
    match w.lookup name with
    | none =>
      if flag &&& O_CREATE ≠ 0 then
        some (w.store name [], { path := name, flag := flag, offset := 0 })
      else none
    | some e =>
      if e.isDir && (flag &&& 3 ≠ O_RDONLY) then none
      else if flag &&& O_TRUNC ≠ 0 ∧ flag &&& 3 ≠ O_RDONLY then
        some (w.store name [], { path := name, flag := flag, offset := 0 })
      else some (w, { path := name, flag := flag, offset := 0 })

/-- Size reported by `file.Stat()`. -/
def osFileSize (w : World) (f : OsFile) : Int :=
  match w.lookup f.path with
  | some e => (e.data.length : Int)
  | none => 0

/-- Bytes `old` after `data` has been written at `offset`. -/
def overwriteAt (old : Bytes) (offset : Nat) (data : Bytes) : Bytes :=
  old.take offset ++ List.replicate (offset - old.length) (Char.ofNat 0) ++ data
    ++ old.drop (offset + data.length)

/-- The call `file.Write(b)` on an open file.  A handle whose access mode is
`O_RDONLY` rejects the write (`EBADF`) and the file is untouched; with
`O_APPEND` the bytes go to the end of the file; otherwise they go to the
handle's offset.  The boolean is `err != nil`. -/
def osWrite (w : World) (f : OsFile) (b : Bytes) : World × OsFile × Bool :=
  if f.flag &&& 3 = O_RDONLY then (w, f, true)
  else
    match w.lookup f.path with
    | none => (w, f, true)
    | some e =>
      if f.flag &&& O_APPEND ≠ 0 then
        (w.store f.path (e.data ++ b), { f with offset := e.data.length + b.length }, false)
      else
        (w.store f.path (overwriteAt e.data f.offset b),
          { f with offset := f.offset + b.length }, false)

/-- The call `file.Close()`: the handle is released. -/
def osClose (w : World) : World :=
  { w with released := w.released + 1 }

/-! ## bufio.Writer

The writer keeps the bytes not yet handed to the file and a sticky error.
The buffer's capacity only decides how early bytes are handed over, never
which bytes or in which order, so the model hands them over at `Flush`. -/

structure BufWriter where
  buf : Bytes
  size : Int
  err : Bool
  deriving DecidableEq, Repr

/-- The constructor `bufio.NewWriterSize(file, size)`. -/
def newWriterSize (size : Int) : BufWriter :=
  { buf := [], size := if size ≤ 0 then 4096 else size, err := false }

/-- The method `(*bufio.Writer).Write`: after an error nothing is accepted. -/
def BufWriter.write (o : BufWriter) (b : Bytes) : BufWriter :=
  if o.err then o else { o with buf := o.buf ++ b }

/-- The method `(*bufio.Writer).Flush` on the file `f`. -/
def BufWriter.flush (o : BufWriter) (w : World) (f : OsFile) : BufWriter × World × OsFile :=
  if o.err then (o, w, f)
  else if o.buf = [] then (o, w, f)
  else
    match osWrite w f o.buf with
    | (w1, f1, true) => ({ o with err := true }, w1, f1)
    | (w1, f1, false) => ({ o with buf := [] }, w1, f1)

/-! ## storage.go -/

/-- The rotating file sink.  The fields are those of the Go struct (the mutex
apart); `world` is the file system the storage acts on. -/
structure groStorage where
  config : Config
  file : Option OsFile
  out : Option BufWriter
  err : Bool
  currFileNum : Int
  currFileSize : Int
  world : World
  deriving DecidableEq, Repr

/-- The call `filepath.Join(dir, name)` for an already clean `dir`. -/
def filepathJoin (dir name : String) : String :=
  if dir = "" then name else dir ++ "/" ++ name

/-- The name `info.Name()` of a path: what follows its last separator. -/
def baseName (path : String) : String :=
  String.mk ((path.toList.reverse.takeWhile (fun c => c != '/')).reverse)

/-- Does `filepath.Walk(dir, ...)` visit `path`. -/
def walked (dir path : String) : Bool :=
  path == dir || (dir ++ "/").toList.isPrefixOf path.toList

/-- The characters with a meaning of their own in a regular expression of
package regexp, those that `regexp.QuoteMeta` escapes. -/
def regexpMeta : List Char := "\\.+*?()|[]\x7b\x7d^$".toList

/-- The name has no character of `regexpMeta`: spliced into a pattern it
stands for itself. -/
def plainName (name : String) : Bool :=
  name.toList.all (fun c => !regexpMeta.contains c)

/-- Does the regular expression `^name.+\.log$` match `base`, for a `name`
with `plainName name`: the name, then at least one character other than a
newline, then `.log`.  The code splices the name into the pattern unquoted
(`fmt.Sprintf` at storage.go:161), so a name with a character of `regexpMeta`
gives another expression, or one that `regexp.MustCompile` rejects with a
panic; for such names this function does not describe the code, and what is
proved of it is stated for plain names or for the name `app`. -/
def matchLogName (name base : String) : Bool :=
  let n := name.toList
  let b := base.toList
  let ext := ".log".toList
  n.isPrefixOf b && ext.isSuffixOf b && decide (n.length + 1 + ext.length ≤ b.length)
    && ((b.drop n.length).take (b.length - n.length - ext.length)).all (fun c => c != '\n')

/-- What the walk callback of `cleanExpireFiles` decides for one entry: is
it removed.  `expired` is `time.Now().Add(-expireTime)`. -/
def removedByClean (dir name : String) (expired : Int) (e : FileInfo) : Bool :=
  walked dir e.path && !e.isDir && matchLogName name (baseName e.path)
    && decide (expired < e.modTime)

/-- The function `cleanExpireFiles(dir, name, expireTime)`. -/
def cleanExpireFiles (w : World) (dir name : String) (expireTime : Int) : World :=
  if expireTime ≤ 0 then w
  else
    let expired := w.now - expireTime
    { w with files := w.files.filter (fun e => !removedByClean dir name expired e) }

/-- The retention pass run by `newStorage` and `nextFile`: only when the
expiry duration parses and is positive. -/
def groStorage.retention (s : groStorage) : groStorage :=
  match s.config.ExpireTime with
  | some duration =>
    if duration > 0 then
      { s with world := cleanExpireFiles s.world s.config.FileDir s.config.FileName duration }
    else s
  | none => s

/-- The file name computed at the head of `open`. -/
def groStorage.logName (s : groStorage) : String :=
  let num := if s.currFileNum > 0 then "(" ++ toString s.currFileNum.toNat ++ ")" else ""
  if s.config.EnableFileTime then
    filepathJoin s.config.FileDir
      (s.config.FileName ++ "_" ++ s.config.startTime ++ "_" ++ toString s.config.pid ++ num ++ ".log")
  else
    filepathJoin s.config.FileDir (s.config.FileName ++ num ++ ".log")

/-- The method `open(clear)`; the boolean is `err != nil`.  Directories are
not part of the model: the directory of the log files is taken to exist or to
be created with success, and `os.Chmod` has no effect on the content. -/
def groStorage.open (s : groStorage) (clear : Bool) : groStorage × Bool :=
  let flag := if clear then O_CREATE ||| O_WRONLY else O_APPEND
  let name := s.logName
  let created : Option World :=
    if s.world.exists name then some s.world else osCreate s.world name
  match created with
  | none => (s, true)
  | some w1 =>
    match osOpenFile w1 name flag with
    | none => ({ s with world := w1 }, true)
    | some (w2, file) =>
      let size := osFileSize w2 file
      ({ s with world := w2, file := some file,
                out := some (newWriterSize s.config.MaxWriteBuffer),
                currFileSize := size }, false)

/-- The function `newStorage(config)`, on the world `w`. -/
def newStorage (config : Config) (w : World) : groStorage :=
  let s : groStorage :=
    { config := config, file := none, out := none, err := false,
      currFileNum := 0, currFileSize := 0, world := w }
  let s := s.retention
  match s.open false with
  | (s1, true) => { s1 with err := true }
  | (s1, false) => s1

/-- The calls `s.out.Flush()` then `s.file.Sync()` or `s.file.Close()` share
this step: flush the writer into the file.  A nil writer panics; a nil file
makes the write fail. -/
def groStorage.flushOut (s : groStorage) : Outcome groStorage :=
  match s.out with
  | none => .panicked
  | some o =>
    match s.file with
    | none => .ok { s with out := some (if o.err ∨ o.buf = [] then o else { o with err := true }) }
    | some f =>
      match o.flush s.world f with
      | (o1, w1, f1) => .ok { s with out := some o1, world := w1, file := some f1 }

/-- The method `closeFile`. -/
def groStorage.closeFile (s : groStorage) : Outcome groStorage :=
  match s.flushOut with
  | .ok s1 =>
    .ok { s1 with world := if s1.file.isSome then osClose s1.world else s1.world,
                  out := none, file := none }
  | .panicked => .panicked
  | .outOfFuel => .outOfFuel

/-- The method `Close`. -/
def groStorage.Close (s : groStorage) : Outcome groStorage :=
  if s.out.isNone then .ok s else s.closeFile

/-- The method `Flush`. -/
def groStorage.Flush (s : groStorage) : Outcome groStorage :=
  if s.out.isNone then .ok s else s.flushOut

/-- The method `Error`, as whether the error is non-nil. -/
def groStorage.Error (s : groStorage) : Bool := s.err

/-- The method `IsValid`. -/
def groStorage.IsValid (s : groStorage) : Bool := s.out.isSome

/-- The method `nextFileNum`. -/
def groStorage.nextFileNum (s : groStorage) : groStorage :=
  let n := s.currFileNum + 1
  { s with currFileNum := if n ≥ s.config.MaxFileCount then 0 else n }

/-- The method `nextFile`; the boolean is `err != nil`. -/
def groStorage.nextFile (s : groStorage) : Outcome (groStorage × Bool) :=
  match s.closeFile with
  | .ok s1 =>
    let s2 := s1.nextFileNum.retention
    match s2.open true with
    | (s3, true) => .ok ({ s3 with err := true }, true)
    | (s3, false) => .ok (s3, false)
  | .panicked => .panicked
  | .outOfFuel => .outOfFuel

/-- The call `s.out.Write(b)`. -/
def groStorage.outWrite (s : groStorage) (b : Bytes) : Outcome groStorage :=
  match s.out with
  | none => .panicked
  | some o => .ok { s with out := some (o.write b) }

/-- The loop of `Write`, one unit of fuel per iteration.  The boolean of the
result tells whether the loop left through `return` (a failed rotation)
rather than through its end or `break`.  The slice expression
`b[:available]` panics when `available` is negative or beyond the slice. -/
def groStorage.writeLoop : Nat → groStorage → Bytes → Int → Outcome (groStorage × Bool)
  | 0, s, _, size => if size > 0 then .outOfFuel else .ok (s, false)
  | fuel + 1, s, b, size =>
    if size > 0 then
      let available := s.config.MaxFileSize - s.currFileSize
      if size < available then
        match s.outWrite b with
        | .ok s1 => .ok ({ s1 with currFileSize := s1.currFileSize + size }, false)
        | .panicked => .panicked
        | .outOfFuel => .outOfFuel
      else if available < 0 ∨ (b.length : Int) < available then .panicked
      else
        match s.outWrite (b.take available.toNat) with
        | .ok s1 =>
          let s2 := { s1 with currFileSize := s1.currFileSize + size }
          match s2.nextFile with
          | .ok (s3, true) => .ok (s3, true)
          | .ok (s3, false) => groStorage.writeLoop fuel s3 (b.drop available.toNat) (size - available)
          | .panicked => .panicked
          | .outOfFuel => .outOfFuel
        | .panicked => .panicked
        | .outOfFuel => .outOfFuel
    else .ok (s, false)

/-- The method `Write(b)`, with `fuel` bounding the iterations of its loop. -/
def groStorage.Write (fuel : Nat) (s : groStorage) (b : Bytes) : Outcome groStorage :=
  if s.out.isNone then .ok s
  else
    match s.writeLoop fuel b (b.length : Int) with
    | .ok (s1, true) => .ok s1
    | .ok (s1, false) => if s1.config.MaxWriteBuffer = 0 then s1.flushOut else .ok s1
    | .panicked => .panicked
    | .outOfFuel => .outOfFuel

/-- The method `WriteString(text)`. -/
def groStorage.WriteString (fuel : Nat) (s : groStorage) (text : String) : Outcome groStorage :=
  s.Write fuel text.toList

/-! ## msg.go -/

/-- The message envelope: a level and three buffer pointers (`none` is nil,
`some a` the address of a buffer cell). -/
structure groMsg where
  level : Int
  tips : Option Nat
  stack : Option Nat
  text : Option Nat
  deriving DecidableEq, Repr

/-- The zero value of the envelope: what `new(groMsg)` and `var m groMsg`
give. -/
def groMsg.zero : groMsg :=
  { level := 0, tips := none, stack := none, text := none }

/-- What the runtime hands to one log call: the formatted result of
`time.Now()`, the call stack as `runtime.Caller(skip)` reports it (entry
`skip` is the file and line of that frame), and the value of the panic in
flight in the calling goroutine, if any. -/
structure Site where
  stamp : String
  frames : List (String × Int)
  panicking : Option String
  deriving DecidableEq, Repr

/-- The call `filepath.Ext(file)`: from the last dot of the last element. -/
def fileExt (file : String) : String :=
  let b := (baseName file).toList
  if '.' ∈ b then String.mk ('.' :: (b.reverse.takeWhile (fun c => c != '.')).reverse) else ""

/-- The expression `strings.TrimSuffix(filepath.Base(file), filepath.Ext(file))`. -/
def trimmedBase (file : String) : String :=
  let b := (baseName file).toList
  String.mk (b.take (b.length - (fileExt file).length))

/-- The builtin `recover()`: it yields the panic value only when the
goroutine is panicking and the call is made directly by a deferred function;
everywhere else it yields nil. -/
def goRecover (panicking : Option String) (calledByDeferred : Bool) : Option String :=
  if calledByDeferred then panicking else none

/-! ## pusher.go -/

/-- The pusher.  `out` tells whether the console handle is non-nil.  The two
pools hold pointers; `msgs` and `bufs` are the heap cells the pointers refer
to.  The remaining fields record what the pusher has done to the outside:
`stdout` the bytes written to the console, `stored` the bytes passed to
`storage.Write`, `launched` the closures handed to `GoExec` (each is the
message pointer it captured), `pending` those of them that have not run yet,
`callbacks` the completed calls of `MsgCallback`, `fatals` the launches of
`FatalHandling` with the recovered value each received. -/
structure groPusher where
  config : Config
  out : Bool
  storage : Option groStorage
  closed : Bool
  msgPool : List (Option Nat)
  bufferPool : List (Option Nat)
  msgs : List groMsg
  bufs : List Bytes
  stdout : Bytes
  stored : Bytes
  launched : List Nat
  pending : List Nat
  callbacks : List (Int × Bytes)
  fatals : List (Option String)
  deriving DecidableEq, Repr

/-- The function `newPusher(config)`, on the world `w`. -/
def newPusher (config : Config) (w : World) : groPusher :=
  { config := config,
    out := !config.DisablePrint,
    storage := if !config.DisableSave then some (newStorage config w) else none,
    closed := false,
    msgPool := [], bufferPool := [], msgs := [], bufs := [],
    stdout := [], stored := [], launched := [], pending := [], callbacks := [], fatals := [] }

/-- The method `Flush`. -/
def groPusher.Flush (p : groPusher) : Outcome groPusher :=
  if p.closed then .ok p
  else
    match p.storage with
    | none => .ok p
    | some st =>
      match st.Flush with
      | .ok st1 => .ok { p with storage := some st1 }
      | .panicked => .panicked
      | .outOfFuel => .outOfFuel

/-- The method `Close`. -/
def groPusher.Close (p : groPusher) : Outcome groPusher :=
  if p.closed then .ok p
  else
    match p.storage with
    | none => .ok { p with closed := true }
    | some st =>
      match st.Close with
      | .ok st1 => .ok { p with storage := some st1, closed := true }
      | .panicked => .panicked
      | .outOfFuel => .outOfFuel

/-- The method `groBufferPool.Get`: a pooled pointer when there is one, a
fresh empty buffer otherwise. -/
def groPusher.bufferGet (p : groPusher) : groPusher × Option Nat :=
  match p.bufferPool with
  | b :: rest => ({ p with bufferPool := rest }, b)
  | [] => ({ p with bufs := p.bufs ++ [[]] }, some p.bufs.length)

/-- The method `groBufferPool.Put`. -/
def groPusher.bufferPut (p : groPusher) (b : Option Nat) : groPusher :=
  { p with bufferPool := b :: p.bufferPool }

/-- The method `get`: a pooled message when there is one, `new(groMsg)`
otherwise. -/
def groPusher.get (p : groPusher) : groPusher × Option Nat :=
  match p.msgPool with
  | m :: rest => ({ p with msgPool := rest }, m)
  | [] =>
    ({ p with msgs := p.msgs ++ [groMsg.zero] }, some p.msgs.length)

/-- The method `put`. -/
def groPusher.put (p : groPusher) (m : Option Nat) : groPusher :=
  { p with msgPool := m :: p.msgPool }

/-- Dereference of a message pointer. -/
def groPusher.msg (p : groPusher) (m : Option Nat) : Outcome groMsg :=
  match m with
  | none => .panicked
  | some a =>
    match p.msgs.get? a with
    | some x => .ok x
    | none => .panicked

/-- The method `(*bytes.Buffer).Bytes`. -/
def groPusher.bufBytes (p : groPusher) (b : Option Nat) : Outcome Bytes :=
  match b with
  | none => .panicked
  | some a =>
    match p.bufs.get? a with
    | some x => .ok x
    | none => .panicked

/-- The method `(*bytes.Buffer).String`, which answers `<nil>` on a nil
pointer. -/
def groPusher.bufString (p : groPusher) (b : Option Nat) : Bytes :=
  match b with
  | none => "<nil>".toList
  | some a => (p.bufs.get? a).getD []

/-- The method `(*bytes.Buffer).Write` and `WriteString`. -/
def groPusher.bufWrite (p : groPusher) (b : Option Nat) (x : Bytes) : Outcome groPusher :=
  match b with
  | none => .panicked
  | some a =>
    match p.bufs.get? a with
    | some old => .ok { p with bufs := p.bufs.set a (old ++ x) }
    | none => .panicked

/-- The method `(*bytes.Buffer).Reset`. -/
def groPusher.bufReset (p : groPusher) (b : Option Nat) : Outcome groPusher :=
  match b with
  | none => .panicked
  | some a => if a < p.bufs.length then .ok { p with bufs := p.bufs.set a [] } else .panicked

/-- Assignment through a message pointer. -/
def groPusher.setMsg (p : groPusher) (m : Option Nat) (f : groMsg → groMsg) : Outcome groPusher :=
  match m with
  | none => .panicked
  | some a =>
    match p.msgs.get? a with
    | some x => .ok { p with msgs := p.msgs.set a (f x) }
    | none => .panicked

/-- The method `initBrief`. -/
def groPusher.initBrief (p : groPusher) (site : Site) (m : Option Nat) : Outcome groPusher := do
  let msg ← p.msg m
  let name ← indexString levelStrings msg.level
  let p ← p.bufWrite msg.tips name
  let p ← p.bufWrite msg.tips "|".toList
  p.bufWrite msg.tips site.stamp.toList

/-- The method `initDetailed`. -/
def groPusher.initDetailed (p : groPusher) (site : Site) (m : Option Nat) (layer : Int) :
    Outcome groPusher := do
  let msg ← p.msg m
  let name ← indexString levelStrings msg.level
  let p ← p.bufWrite msg.tips name
  let p ← p.bufWrite msg.tips "|".toList
  let p ← p.bufWrite msg.tips site.stamp.toList
  let p ← p.bufWrite msg.stack "[".toList
  let skip := 4 + layer
  let frame := if skip < 0 then none else site.frames.get? skip.toNat
  let p ← match frame with
    | none => p.bufWrite msg.stack "???#?".toList
    | some (file, line) => do
      let p ← p.bufWrite msg.stack (trimmedBase file).toList
      let p ← p.bufWrite msg.stack ":".toList
      p.bufWrite msg.stack (toString line).toList
  p.bufWrite msg.stack "]".toList

/-- The method `assign`. -/
def groPusher.assign (p : groPusher) (site : Site) (m : Option Nat) (level layer : Int) :
    Outcome groPusher := do
  let p ← p.setMsg m (fun x => { x with level := level })
  if p.config.Style = StyleBasic then
    let (p, text) := p.bufferGet
    let p ← p.setMsg m (fun x => { x with text := text })
    p.bufReset text
  else if p.config.Style = StyleBrief then
    let (p, text) := p.bufferGet
    let p ← p.setMsg m (fun x => { x with text := text })
    let (p, tips) := p.bufferGet
    let p ← p.setMsg m (fun x => { x with tips := tips })
    let p ← p.bufReset text
    let p ← p.bufReset tips
    p.initBrief site m
  else if p.config.Style = StyleDetail then
    let (p, text) := p.bufferGet
    let p ← p.setMsg m (fun x => { x with text := text })
    let (p, tips) := p.bufferGet
    let p ← p.setMsg m (fun x => { x with tips := tips })
    let (p, stack) := p.bufferGet
    let p ← p.setMsg m (fun x => { x with stack := stack })
    let p ← p.bufReset text
    let p ← p.bufReset tips
    let p ← p.bufReset stack
    p.initDetailed site m layer
  else .ok p

/-- The call `p.out.Write(b)` or `p.out.WriteString(b)` on the console. -/
def groPusher.conWrite (p : groPusher) (b : Bytes) : groPusher :=
  { p with stdout := p.stdout ++ b }

/-- The call `p.storage.Write(b)` or `p.storage.WriteString(b)`. -/
def groPusher.fileWrite (fuel : Nat) (p : groPusher) (b : Bytes) : Outcome groPusher :=
  match p.storage with
  | none => .panicked
  | some st =>
    match st.Write fuel b with
    | .ok st1 => .ok { p with storage := some st1, stored := p.stored ++ b }
    | .panicked => .panicked
    | .outOfFuel => .outOfFuel

/-- The console block of `push`. -/
def groPusher.pushConsole (p : groPusher) (msg : groMsg) : Outcome groPusher :=
  if p.out then
    if p.config.Style = StyleBasic then do
      let text ← p.bufBytes msg.text
      pure (p.conWrite text)
    else if p.config.Style = StyleBrief then do
      let start ← indexString levelStyleStarts msg.level
      let p := p.conWrite start
      let tips ← p.bufBytes msg.tips
      let p := p.conWrite tips
      let p := p.conWrite levelStyleEnd.toList
      let p := p.conWrite " ".toList
      let text ← p.bufBytes msg.text
      pure (p.conWrite text)
    else if p.config.Style = StyleDetail then do
      let start ← indexString levelStyleStarts msg.level
      let p := p.conWrite start
      let tips ← p.bufBytes msg.tips
      let p := p.conWrite tips
      let p := p.conWrite levelStyleEnd.toList
      let p := p.conWrite " ".toList
      let stack ← p.bufBytes msg.stack
      let p := p.conWrite stack
      let p := p.conWrite " ".toList
      let text ← p.bufBytes msg.text
      pure (p.conWrite text)
    else .ok p
  else .ok p

/-- The storage block of `push`. -/
def groPusher.pushStorage (fuel : Nat) (p : groPusher) (msg : groMsg) : Outcome groPusher :=
  if p.storage.isSome then
    if p.config.Style = StyleBasic then do
      let text ← p.bufBytes msg.text
      p.fileWrite fuel text
    else if p.config.Style = StyleBrief then do
      let tips ← p.bufBytes msg.tips
      let p ← p.fileWrite fuel tips
      let p ← p.fileWrite fuel " ".toList
      let text ← p.bufBytes msg.text
      p.fileWrite fuel text
    else if p.config.Style = StyleDetail then do
      let tips ← p.bufBytes msg.tips
      let p ← p.fileWrite fuel tips
      let p ← p.fileWrite fuel " ".toList
      let text ← p.bufBytes msg.text
      p.fileWrite fuel text
    else .ok p
  else .ok p

/-- The body of the closure that `push` hands to `GoExec`:
`p.config.MsgCallback(m.level, m.text.String())`, evaluated on the heap as
it is when the closure runs. -/
def groPusher.callbackBody (p : groPusher) (m : Option Nat) : Outcome groPusher :=
  match p.msg m with
  | .ok msg => .ok { p with callbacks := p.callbacks ++ [(msg.level, p.bufString msg.text)] }
  | .panicked => .panicked
  | .outOfFuel => .outOfFuel

/-- The callback block of `push`: the closure is handed to `GoExec`, which
runs it at once or leaves it pending, by its strategy. -/
def groPusher.pushCallback (p : groPusher) (m : Nat) : Outcome groPusher :=
  if p.config.MsgCallback then
    let p := { p with launched := p.launched ++ [m] }
    match p.config.GoExec with
    | .inline => p.callbackBody (some m)
    | .deferred => .ok { p with pending := p.pending ++ [m] }
  else .ok p

/-- Run the closures that `GoExec` has left pending, oldest first. -/
def groPusher.runPending (p : groPusher) : Outcome groPusher :=
  p.pending.foldl (fun acc m => acc.bind (fun q => q.callbackBody (some m)))
    (.ok { p with pending := [] })

/-- The recycling block of `push`. -/
def groPusher.recycle (p : groPusher) (msg : groMsg) : Outcome groPusher :=
  if p.config.Style = StyleBasic then do
    let p ← p.bufReset msg.text
    pure (p.bufferPut msg.text)
  else if p.config.Style = StyleBrief then do
    let p ← p.bufReset msg.tips
    let p ← p.bufReset msg.text
    let p := p.bufferPut msg.tips
    pure (p.bufferPut msg.text)
  else if p.config.Style = StyleDetail then do
    let p ← p.bufReset msg.tips
    let p ← p.bufReset msg.text
    let p ← p.bufReset msg.stack
    let p := p.bufferPut msg.tips
    let p := p.bufferPut msg.text
    pure (p.bufferPut msg.stack)
  else .ok p

/-- The last statement of `push`: on a Fatal message `FatalHandling` is
launched with the configured logger and with what `recover()` yields.  The
call of `recover` is made by `push` itself, and `push` is only ever called
from `Log`, `Logln`, `Logf` and the worker loop, never by a `defer`.  Only
the launch is recorded: what the handler does when it runs is the caller's
code and not part of the model (the default handler of config.go:133-137
logs one more Error record through the same logger, closes it and exits the
process). -/
def groPusher.pushFatal (p : groPusher) (panicking : Option String) (msg : groMsg) : groPusher :=
  if msg.level = LevelFatal then
    { p with fatals := p.fatals ++ [goRecover panicking false] }
  else p

/-- The method `push(m)`, called in a goroutine whose panic in flight (if
any) is `panicking`. -/
def groPusher.push (fuel : Nat) (panicking : Option String) (p : groPusher) (m : Nat) :
    Outcome groPusher :=
  if p.closed then .ok p
  else do
    let msg ← p.msg (some m)
    let p ← p.pushConsole msg
    let p ← p.pushStorage fuel msg
    let p ← p.pushCallback m
    let p ← p.recycle msg
    pure (p.pushFatal panicking msg)

/-! ## Package fmt, for string operands -/

/-- What `fmt.Fprint(w, a...)` writes when every operand is a string. -/
def Fprint (a : List String) : Bytes :=
  a.foldr (fun x acc => x.toList ++ acc) []

/-- What `fmt.Fprintln(w, a...)` writes. -/
def Fprintln (a : List String) : Bytes :=
  (String.intercalate " " a).toList ++ ['\n']

/-- What `fmt.Fprintf(w, format, args...)` writes, for verbs without flags
applied to string operands (surplus operands are not reported). -/
def FprintfAux : List Char → List String → Bytes
  | [], _ => []
  | '%' :: '%' :: rest, args => '%' :: FprintfAux rest args
  | '%' :: c :: rest, [] => "%!".toList ++ [c] ++ "(MISSING)".toList ++ FprintfAux rest []
  | '%' :: _ :: rest, x :: args => x.toList ++ FprintfAux rest args
  | c :: rest, args => c :: FprintfAux rest args

def Fprintf (format : String) (args : List String) : Bytes :=
  FprintfAux format.toList args

/-! ## handler_sync.go -/

/-- The synchronous handler (its timer goroutine apart). -/
structure groHandlerSync where
  config : Config
  pusher : groPusher
  deriving DecidableEq, Repr

/-- The function `newHandlerSync(config)`, on the world `w`. -/
def newHandlerSync (config : Config) (w : World) : groHandlerSync :=
  { config := config, pusher := newPusher config w }

/-- The declaration `var m groMsg`, whose address is then taken: a fresh
zero message cell. -/
def groPusher.newMsg (p : groPusher) : groPusher × Nat :=
  ({ p with msgs := p.msgs ++ [groMsg.zero] }, p.msgs.length)

/-- What `Log`, `Logln` and `Logf` do once past the level filter, `text`
being what the `fmt` call writes into `m.text`. -/
def groHandlerSync.emit (fuel : Nat) (h : groHandlerSync) (site : Site) (level layer : Int)
    (text : Bytes) : Outcome groHandlerSync := do
  let (p, m) := h.pusher.newMsg
  let p ← p.assign site (some m) level layer
  let msg ← p.msg (some m)
  let p ← p.bufWrite msg.text text
  let p ← p.push fuel site.panicking m
  pure { h with pusher := p }

/-- The method `Log`. -/
def groHandlerSync.Log (fuel : Nat) (h : groHandlerSync) (site : Site) (level layer : Int)
    (a : List String) : Outcome groHandlerSync :=
  if h.config.Level > level then .ok h
  else h.emit fuel site level layer (Fprint a)

/-- The method `Logln`. -/
def groHandlerSync.Logln (fuel : Nat) (h : groHandlerSync) (site : Site) (level layer : Int)
    (a : List String) : Outcome groHandlerSync :=
  if h.config.Level > level then .ok h
  else h.emit fuel site level layer (Fprintln a)

/-- The method `Logf`. -/
def groHandlerSync.Logf (fuel : Nat) (h : groHandlerSync) (site : Site) (level layer : Int)
    (format : String) (args : List String) : Outcome groHandlerSync :=
  if h.config.Level > level then .ok h
  else h.emit fuel site level layer (Fprintf format args)

/-- The method `Close` (the timer goroutine apart). -/
def groHandlerSync.Close (h : groHandlerSync) : Outcome groHandlerSync :=
  match h.pusher.Close with
  | .ok p => .ok { h with pusher := p }
  | .panicked => .panicked
  | .outOfFuel => .outOfFuel

/-! ## handler_asyn.go

The asynchronous handler is a transition system.  Every goroutine is a
thread with a program counter; one step of a thread performs at most one
access to the shared atomics or to the channel.  The channel is buffered
(capacity `MaxAsynBuffer`): a send needs room, a receive needs an element. -/

/-- The asynchronous handler: the fields of the Go struct.  `msgs` is the
content of the channel, oldest first, `none` being the nil message;
`msgsClosed` tells whether `close(h.msgs)` has run; `stop` is the counter of
the wait group; `flashCancelled` tells whether `flashCancel()` has run. -/
structure groHandlerAsyn where
  config : Config
  pusher : groPusher
  execCount : Int
  closed : Bool
  msgs : List (Option Nat)
  msgsClosed : Bool
  stop : Int
  flashCancelled : Bool
  deriving DecidableEq, Repr

/-- Room in the channel for one more element. -/
def groHandlerAsyn.room (h : groHandlerAsyn) : Bool :=
  decide ((h.msgs.length : Int) < h.config.MaxAsynBuffer)

/-- What `Log`, `Logln` and `Logf` do between the filter and the call of
`msgHanding`: take a message from the pool, fill it, write the text. -/
def groHandlerAsyn.build (h : groHandlerAsyn) (site : Site) (level layer : Int) (text : Bytes) :
    Outcome (groHandlerAsyn × Option (Option Nat)) := do
  let (p, m) := h.pusher.get
  let p ← p.assign site m level layer
  let msg ← p.msg m
  let p ← p.bufWrite msg.text text
  pure ({ h with pusher := p }, some m)

/-- The method `Log` up to its call of `msgHanding`: the handler, and the
message handed to `msgHanding` (`none` when `Log` returned at its filter). -/
def groHandlerAsyn.Log (h : groHandlerAsyn) (site : Site) (level layer : Int) (a : List String) :
    Outcome (groHandlerAsyn × Option (Option Nat)) :=
  if h.config.Level > level ∨ h.closed then .ok (h, none)
  else h.build site level layer (Fprint a)

/-- The method `Logln` up to its call of `msgHanding`. -/
def groHandlerAsyn.Logln (h : groHandlerAsyn) (site : Site) (level layer : Int) (a : List String) :
    Outcome (groHandlerAsyn × Option (Option Nat)) :=
  if h.config.Level > level ∨ h.closed then .ok (h, none)
  else h.build site level layer (Fprintln a)

/-- The method `Logf` up to its call of `msgHanding`. -/
def groHandlerAsyn.Logf (h : groHandlerAsyn) (site : Site) (level layer : Int) (format : String)
    (args : List String) : Outcome (groHandlerAsyn × Option (Option Nat)) :=
  if h.config.Level > level ∨ h.closed then .ok (h, none)
  else h.build site level layer (Fprintf format args)

/-- Which of the three logging methods a call uses. -/
inductive LogKind where
  | log
  | logln
  | logf
  deriving DecidableEq, Repr

/-- One call of `Log`, `Logln` or `Logf` made by a producer. -/
structure Call where
  kind : LogKind
  site : Site
  level : Int
  layer : Int
  format : String
  args : List String
  deriving DecidableEq, Repr

/-- Entry of a call into the handler. -/
def groHandlerAsyn.enter (h : groHandlerAsyn) (c : Call) :
    Outcome (groHandlerAsyn × Option (Option Nat)) :=
  match c.kind with
  | .log => h.Log c.site c.level c.layer c.args
  | .logln => h.Logln c.site c.level c.layer c.args
  | .logf => h.Logf c.site c.level c.layer c.format c.args

/-- Program points of a producer (a goroutine calling the logger); `m` and
`retry` are the locals of `msgHanding`. -/
inductive ProducerPc where
  | ready
  | send (m : Option Nat) (retry : Int)
  | sentLoad
  | sentAdd
  | sentSpawn
  | fullClosed (m : Option Nat) (retry : Int)
  | fullLoad (m : Option Nat) (retry : Int)
  | fullAdd (m : Option Nat) (retry : Int)
  | fullSpawn (m : Option Nat) (retry : Int)
  | yield (m : Option Nat) (retry : Int)
  deriving DecidableEq, Repr

/-- Program points of the goroutine started by `goHanding`. -/
inductive WorkerPc where
  | poll
  | handle (m : Nat)
  | nilClosed
  | flush
  | idleLoad
  | idleAdd
  | closedCheck
  | drain
  | drainHandle (m : Nat)
  | drainSend
  | exited
  deriving DecidableEq, Repr

/-- Program points of a goroutine calling `Close`. -/
inductive CloserPc where
  | cas
  | cancel
  | sendNil
  | wait
  | closePusher
  | closeChan
  | lateWait
  | lateClose
  | returned
  deriving DecidableEq, Repr

/-- Program points of the goroutine started by `goFlash`. -/
inductive FlusherPc where
  | waiting
  | flushLoad
  | flushSend
  | exited
  deriving DecidableEq, Repr

/-- A goroutine: its kind, program point and locals. -/
inductive Thread where
  | producer (pc : ProducerPc) (calls : List Call)
  | worker (pc : WorkerPc) (idle retry : Int)
  | closer (pc : CloserPc)
  | flusher (pc : FlusherPc)
  deriving DecidableEq, Repr

/-- What one step of a thread does: the handler after it, the thread after
it, the goroutines it started, the messages whose send it completed. -/
structure Effect where
  handler : groHandlerAsyn
  thread : Thread
  spawned : List Thread
  sent : List (Option Nat)
  deriving DecidableEq, Repr

/-- The method `goHanding`: the wait group is incremented and a worker is
started. -/
def groHandlerAsyn.goHanding (h : groHandlerAsyn) : groHandlerAsyn × Thread :=
  ({ h with stop := h.stop + 1 }, .worker .poll 0 0)

/-- The worker's `h.pusher.push(m); h.pusher.put(m)`. -/
def groHandlerAsyn.handle (fuel : Nat) (h : groHandlerAsyn) (m : Nat) : Outcome groHandlerAsyn :=
  match h.pusher.push fuel none m with
  | .ok p => .ok { h with pusher := p.put (some m) }
  | .panicked => .panicked
  | .outOfFuel => .outOfFuel

/-- One step of a producer: `Log`, `Logln`, `Logf` and `msgHanding`. -/
def stepProducer (h : groHandlerAsyn) (pc : ProducerPc) (calls : List Call) : Outcome Effect :=
  match pc with
  | .ready =>
    match calls with
    | [] => .ok { handler := h, thread := .producer .ready [], spawned := [], sent := [] }
    | c :: rest =>
      match h.enter c with
      | .ok (h1, none) =>
        .ok { handler := h1, thread := .producer .ready rest, spawned := [], sent := [] }
      | .ok (h1, some m) =>
        .ok { handler := h1, thread := .producer (.send m 0) rest, spawned := [], sent := [] }
      | .panicked => .panicked
      | .outOfFuel => .outOfFuel
  | .send m retry =>
    if h.msgsClosed then .panicked
    else if h.room then
      .ok { handler := { h with msgs := h.msgs ++ [m] }, thread := .producer .sentLoad calls,
            spawned := [], sent := [m] }
    else .ok { handler := h, thread := .producer (.fullClosed m retry) calls, spawned := [], sent := [] }
  | .sentLoad =>
    if h.execCount = 0 then
      .ok { handler := h, thread := .producer .sentAdd calls, spawned := [], sent := [] }
    else .ok { handler := h, thread := .producer .ready calls, spawned := [], sent := [] }
  | .sentAdd =>
    .ok { handler := { h with execCount := h.execCount + 1 }, thread := .producer .sentSpawn calls,
          spawned := [], sent := [] }
  | .sentSpawn =>
    let (h1, w) := h.goHanding
    .ok { handler := h1, thread := .producer .ready calls, spawned := [w], sent := [] }
  | .fullClosed m retry =>
    if h.closed then
      .ok { handler := h, thread := .producer .ready calls, spawned := [], sent := [] }
    else
      .ok { handler := h, thread := .producer (.fullLoad m (retry + 1)) calls, spawned := [], sent := [] }
  | .fullLoad m retry =>
    if retry > 3 ∧ h.execCount < h.config.MaxAsynExec then
      .ok { handler := h, thread := .producer (.fullAdd m retry) calls, spawned := [], sent := [] }
    else .ok { handler := h, thread := .producer (.yield m retry) calls, spawned := [], sent := [] }
  | .fullAdd m retry =>
    .ok { handler := { h with execCount := h.execCount + 1 },
          thread := .producer (.fullSpawn m retry) calls, spawned := [], sent := [] }
  | .fullSpawn m retry =>
    let (h1, w) := h.goHanding
    .ok { handler := h1, thread := .producer (.yield m retry) calls, spawned := [w], sent := [] }
  | .yield m retry =>
    .ok { handler := h, thread := .producer (.send m retry) calls, spawned := [], sent := [] }

/-- One step of a worker: the goroutine of `goHanding`.  A thread that
cannot move (a blocked send, a finished goroutine) keeps its state. -/
def stepWorker (fuel : Nat) (h : groHandlerAsyn) (pc : WorkerPc) (idle retry : Int) :
    Outcome Effect :=
  match pc with
  | .poll =>
    match h.msgs with
    | some m :: rest =>
      .ok { handler := { h with msgs := rest }, thread := .worker (.handle m) 0 (retry + 1),
            spawned := [], sent := [] }
    | none :: rest =>
      .ok { handler := { h with msgs := rest }, thread := .worker .nilClosed 0 (retry + 1),
            spawned := [], sent := [] }
    | [] =>
      if h.msgsClosed then
        .ok { handler := h, thread := .worker .nilClosed 0 (retry + 1), spawned := [], sent := [] }
      else if idle + 1 > 100 then
        .ok { handler := h, thread := .worker .idleLoad (idle + 1) 0, spawned := [], sent := [] }
      else .ok { handler := h, thread := .worker .poll (idle + 1) 0, spawned := [], sent := [] }
  | .handle m =>
    match h.handle fuel m with
    | .ok h1 => .ok { handler := h1, thread := .worker .poll idle retry, spawned := [], sent := [] }
    | .panicked => .panicked
    | .outOfFuel => .outOfFuel
  | .nilClosed =>
    if h.closed then
      .ok { handler := h, thread := .worker .closedCheck idle retry, spawned := [], sent := [] }
    else .ok { handler := h, thread := .worker .flush idle retry, spawned := [], sent := [] }
  | .flush =>
    match h.pusher.Flush with
    | .ok p =>
      .ok { handler := { h with pusher := p }, thread := .worker .poll idle retry,
            spawned := [], sent := [] }
    | .panicked => .panicked
    | .outOfFuel => .outOfFuel
  | .idleLoad =>
    if h.execCount > 0 then
      .ok { handler := h, thread := .worker .idleAdd idle retry, spawned := [], sent := [] }
    else .ok { handler := h, thread := .worker .poll idle retry, spawned := [], sent := [] }
  | .idleAdd =>
    .ok { handler := { h with execCount := h.execCount - 1 },
          thread := .worker .closedCheck idle retry, spawned := [], sent := [] }
  | .closedCheck =>
    if !h.closed then
      .ok { handler := { h with stop := h.stop - 1 }, thread := .worker .exited idle retry,
            spawned := [], sent := [] }
    else .ok { handler := h, thread := .worker .drain idle retry, spawned := [], sent := [] }
  | .drain =>
    match h.msgs with
    | some m :: rest =>
      .ok { handler := { h with msgs := rest }, thread := .worker (.drainHandle m) idle retry,
            spawned := [], sent := [] }
    | none :: rest =>
      .ok { handler := { h with msgs := rest }, thread := .worker .drain idle retry,
            spawned := [], sent := [] }
    | [] =>
      if h.msgsClosed then
        .ok { handler := h, thread := .worker .drain idle retry, spawned := [], sent := [] }
      else .ok { handler := h, thread := .worker .drainSend idle retry, spawned := [], sent := [] }
  | .drainHandle m =>
    match h.handle fuel m with
    | .ok h1 => .ok { handler := h1, thread := .worker .drain idle retry, spawned := [], sent := [] }
    | .panicked => .panicked
    | .outOfFuel => .outOfFuel
  | .drainSend =>
    if h.msgsClosed then .panicked
    else if h.room then
      .ok { handler := { h with msgs := h.msgs ++ [none], stop := h.stop - 1 },
            thread := .worker .exited idle retry, spawned := [], sent := [] }
    else .ok { handler := h, thread := .worker .drainSend idle retry, spawned := [], sent := [] }
  | .exited => .ok { handler := h, thread := .worker .exited idle retry, spawned := [], sent := [] }

/-- One step of a goroutine that calls `Close`. -/
def stepCloser (h : groHandlerAsyn) (pc : CloserPc) : Outcome Effect :=
  match pc with
  | .cas =>
    if h.closed then .ok { handler := h, thread := .closer .lateWait, spawned := [], sent := [] }
    else
      .ok { handler := { h with closed := true }, thread := .closer .cancel, spawned := [], sent := [] }
  | .cancel =>
    .ok { handler := { h with flashCancelled := true }, thread := .closer .sendNil,
          spawned := [], sent := [] }
  | .sendNil =>
    if h.msgsClosed then .panicked
    else if h.room then
      .ok { handler := { h with msgs := h.msgs ++ [none] }, thread := .closer .wait,
            spawned := [], sent := [] }
    else .ok { handler := h, thread := .closer .sendNil, spawned := [], sent := [] }
  | .wait =>
    if h.stop = 0 then
      .ok { handler := h, thread := .closer .closePusher, spawned := [], sent := [] }
    else .ok { handler := h, thread := .closer .wait, spawned := [], sent := [] }
  | .closePusher =>
    match h.pusher.Close with
    | .ok p =>
      .ok { handler := { h with pusher := p }, thread := .closer .closeChan, spawned := [], sent := [] }
    | .panicked => .panicked
    | .outOfFuel => .outOfFuel
  | .closeChan =>
    if h.msgsClosed then .panicked
    else
      .ok { handler := { h with msgsClosed := true }, thread := .closer .returned,
            spawned := [], sent := [] }
  | .lateWait =>
    if h.stop = 0 then
      .ok { handler := h, thread := .closer .lateClose, spawned := [], sent := [] }
    else .ok { handler := h, thread := .closer .lateWait, spawned := [], sent := [] }
  | .lateClose =>
    match h.pusher.Close with
    | .ok p =>
      .ok { handler := { h with pusher := p }, thread := .closer .returned, spawned := [], sent := [] }
    | .panicked => .panicked
    | .outOfFuel => .outOfFuel
  | .returned => .ok { handler := h, thread := .closer .returned, spawned := [], sent := [] }

/-- One step of the goroutine of `goFlash`: at its `select` it leaves when
the context is cancelled and otherwise goes on to `Flush` (the timer has
fired); `Flush` returns at once on a closed handler and sends the nil
message otherwise. -/
def stepFlusher (h : groHandlerAsyn) (pc : FlusherPc) : Outcome Effect :=
  match pc with
  | .waiting =>
    if h.flashCancelled then
      .ok { handler := { h with stop := h.stop - 1 }, thread := .flusher .exited,
            spawned := [], sent := [] }
    else .ok { handler := h, thread := .flusher .flushLoad, spawned := [], sent := [] }
  | .flushLoad =>
    if h.closed then
      .ok { handler := { h with stop := h.stop - 1 }, thread := .flusher .exited,
            spawned := [], sent := [] }
    else .ok { handler := h, thread := .flusher .flushSend, spawned := [], sent := [] }
  | .flushSend =>
    if h.msgsClosed then .panicked
    else if h.room then
      .ok { handler := { h with msgs := h.msgs ++ [none], stop := h.stop - 1 },
            thread := .flusher .exited, spawned := [], sent := [] }
    else .ok { handler := h, thread := .flusher .flushSend, spawned := [], sent := [] }
  | .exited => .ok { handler := h, thread := .flusher .exited, spawned := [], sent := [] }

/-- One step of a thread. -/
def stepThread (fuel : Nat) (h : groHandlerAsyn) (t : Thread) : Outcome Effect :=
  match t with
  | .producer pc calls => stepProducer h pc calls
  | .worker pc idle retry => stepWorker fuel h pc idle retry
  | .closer pc => stepCloser h pc
  | .flusher pc => stepFlusher h pc

/-- The running program: the handler, its goroutines, and the messages
whose send into the channel has completed so far, oldest first. -/
structure Program where
  handler : groHandlerAsyn
  threads : List Thread
  accepted : List (Option Nat)
  deriving DecidableEq, Repr

/-- The scheduler lets thread `tid` make one step. -/
def Program.step (fuel : Nat) (sys : Program) (tid : Nat) : Outcome Program :=
  match sys.threads.get? tid with
  | none => .ok sys
  | some t =>
    match stepThread fuel sys.handler t with
    | .ok e =>
      .ok { handler := e.handler, threads := sys.threads.set tid e.thread ++ e.spawned,
            accepted := sys.accepted ++ e.sent }
    | .panicked => .panicked
    | .outOfFuel => .outOfFuel

/-- The scheduler follows a schedule: the list of the threads that step. -/
def Program.run (fuel : Nat) (sys : Program) : List Nat → Outcome Program
  | [] => .ok sys
  | tid :: rest =>
    match sys.step fuel tid with
    | .ok sys1 => Program.run fuel sys1 rest
    | .panicked => .panicked
    | .outOfFuel => .outOfFuel

/-- The preallocation loop of `newHandlerAsyn`: `n` messages are taken from
the pool, then all are put back. -/
def groPusher.preallocate (p : groPusher) (n : Nat) : groPusher :=
  let taken := (List.range n).foldl
    (fun (acc : groPusher × List (Option Nat)) _ =>
      let (q, m) := acc.1.get
      (q, acc.2 ++ [m]))
    (p, [])
  taken.2.foldl (fun q m => q.put m) taken.1

/-- The function `newHandlerAsyn(config)`, on the world `w`. -/
def newHandlerAsyn (config : Config) (w : World) : groHandlerAsyn :=
  let p := newPusher config w
  let p := if config.MaxAsynBuffer > 0 then p.preallocate config.MaxAsynBuffer.toNat else p
  let flash := match config.FlashInterval with
    | some d => decide (d > 0)
    | none => false
  { config := config, pusher := p, execCount := 0, closed := false, msgs := [],
    msgsClosed := false, stop := if flash then 1 else 0, flashCancelled := false }

/-- The goroutines present when `newHandlerAsyn` returns: the flush timer,
when the interval is positive. -/
def initialThreads (config : Config) : List Thread :=
  match config.FlashInterval with
  | some d => if d > 0 then [.flusher .waiting] else []
  | none => []

/-- A program that creates an asynchronous logger and then runs the given
goroutines next to those of the handler. -/
def Program.start (config : Config) (w : World) (user : List Thread) : Program :=
  { handler := newHandlerAsyn config w, threads := initialThreads config ++ user, accepted := [] }

/-! ## Sequences of calls -/

/-- One call of a logging method on the synchronous handler. -/
def groHandlerSync.call (fuel : Nat) (h : groHandlerSync) (c : Call) : Outcome groHandlerSync :=
  match c.kind with
  | .log => h.Log fuel c.site c.level c.layer c.args
  | .logln => h.Logln fuel c.site c.level c.layer c.args
  | .logf => h.Logf fuel c.site c.level c.layer c.format c.args

/-- A sequence of calls on the synchronous handler, one after the other. -/
def groHandlerSync.run (fuel : Nat) (h : groHandlerSync) : List Call → Outcome groHandlerSync
  | [] => .ok h
  | c :: rest =>
    match h.call fuel c with
    | .ok h1 => groHandlerSync.run fuel h1 rest
    | .panicked => .panicked
    | .outOfFuel => .outOfFuel

/-- A sequence of `Write` calls. -/
def groStorage.writeAll (fuel : Nat) (s : groStorage) : List Bytes → Outcome groStorage
  | [] => .ok s
  | b :: rest =>
    match s.Write fuel b with
    | .ok s1 => groStorage.writeAll fuel s1 rest
    | .panicked => .panicked
    | .outOfFuel => .outOfFuel

/-- Sum of the sizes of the files of the world. -/
def World.totalSize (w : World) : Nat := (w.files.map (fun e => e.data.length)).sum

/-! ## Predicates used by the proofs -/

/-- The pusher `q` has the closed flag, configuration and launch record of `p`. -/
def Ctl (p q : groPusher) : Prop :=
  q.closed = p.closed ∧ q.config = p.config ∧ q.launched = p.launched

/-- The pusher `p` with its heap cells and buffer pool replaced. -/
def groPusher.withCells (p : groPusher) (ms : List groMsg) (bs : List Bytes)
    (bp : List (Option Nat)) : groPusher :=
  { p with msgs := ms, bufs := bs, bufferPool := bp }

/-- The pointer `b` refers to a cell of the buffer heap `bs`. -/
def PtrOk (bs : List Bytes) (b : Option Nat) : Prop :=
  ∃ a, b = some a ∧ a < bs.length

/-- Every pointer of the pool `bp` refers to a cell of `bs`. -/
def PoolOk (bs : List Bytes) (bp : List (Option Nat)) : Prop :=
  ∀ b ∈ bp, PtrOk bs b

/-- The pusher `q1` has the control state of `q`. -/
def Same (q q1 : groPusher) : Prop :=
  q1.closed = q.closed ∧ q1.config = q.config ∧ q1.storage = q.storage ∧ q1.out = q.out

/-- A synchronous handler whose pusher is open, has no file sink, a valid
style and a sound buffer pool. -/
structure groHandlerSync.Sound (h : groHandlerSync) : Prop where
  isOpen : h.pusher.closed = false
  sink : h.pusher.storage = none
  pool : PoolOk h.pusher.bufs h.pusher.bufferPool
  style : h.pusher.config.Style = StyleBasic ∨ h.pusher.config.Style = StyleBrief
    ∨ h.pusher.config.Style = StyleDetail

/-! ## Concrete inputs -/

/-- An empty file system at time 0. -/
def emptyWorld : World := { files := [], now := 0, unopenable := [], released := 0 }

/-- A configuration with a file sink of two files of four bytes, retention
off, and every write flushed. -/
def rotConfig : Config :=
  { startTime := "250101000000", pid := 7, MsgCallback := false, GoExec := .deferred,
    Level := 3, Style := 1, EnableAsyn := false, EnableFileTime := false, DisableSave := false,
    DisablePrint := false, MaxAsynExec := 100, MaxAsynBuffer := 128, MaxWriteBuffer := 0,
    MaxFileCount := 2, MaxFileSize := 4, FileDir := "log", FileName := "app",
    FlashInterval := some 0, ExpireTime := some 0 }

/-- The two rotation files of `rotConfig`, both at the size limit. -/
def fullFiles : List FileInfo :=
  [{ path := "log/app.log", isDir := false, modTime := 0, data := "ijAB".toList },
   { path := "log/app(1).log", isDir := false, modTime := 0, data := "efgh".toList }]

/-- The path of the rotation file of index 0 or 1 under `rotConfig`. -/
def rotPath (num : Int) : String :=
  if num = 0 then "log/app.log" else "log/app(1).log"

/-- The storage of `rotConfig` once both files are full: all that differs
between two rotations is the index of the current file, the accounted size
and the number of handles released. -/
def spinState (released : Nat) (num : Int) (size : Int) : groStorage :=
  { config := rotConfig,
    file := some { path := rotPath num, flag := O_CREATE ||| O_WRONLY, offset := 0 },
    out := some { buf := [], size := 4096, err := false },
    err := false, currFileNum := num, currFileSize := size,
    world := { files := fullFiles, now := 0, unopenable := [], released := released } }

/-- The storage of `rotConfig` after `Write("abcdefghij")` on an empty
directory. -/
def wrappedState : groStorage :=
  { config := rotConfig,
    file := some { path := "log/app.log", flag := O_CREATE ||| O_WRONLY, offset := 2 },
    out := some { buf := [], size := 4096, err := false },
    err := false, currFileNum := 0, currFileSize := 2,
    world := { files := [{ path := "log/app.log", isDir := false, modTime := 0, data := "ij".toList },
                         { path := "log/app(1).log", isDir := false, modTime := 0,
                           data := "efgh".toList }],
               now := 0, unopenable := [], released := 2 } }

/-- A log directory in which the file of index 1 is left over from a run
with a larger size limit. -/
def staleWorld : World :=
  { files := [{ path := "log/app(1).log", isDir := false, modTime := 0,
                data := "0123456789".toList }],
    now := 0, unopenable := [], released := 0 }

/-- A log directory in which the file of index 1 cannot be opened. -/
def lockedWorld : World :=
  { files := [], now := 0, unopenable := ["log/app(1).log"], released := 0 }

/-- A log directory one hour after time 0, holding a log file written at
time 0 and one written a second ago (times in nanoseconds). -/
def agedWorld : World :=
  { files := [{ path := "log/app_old.log", isDir := false, modTime := 0, data := [] },
              { path := "log/app_new.log", isDir := false, modTime := 3599000000000, data := [] }],
    now := 3600000000000, unopenable := [], released := 0 }

/-- The configuration of the repository's `TestSyncOutBasic`: every level,
style Basic, console on, file sink off, a message callback, the default
`GoExec` (a `go` statement). -/
def sinkConfig : Config :=
  { startTime := "250101000000", pid := 7, MsgCallback := true, GoExec := .deferred,
    Level := 0, Style := 0, EnableAsyn := false, EnableFileTime := false, DisableSave := true,
    DisablePrint := false, MaxAsynExec := 100, MaxAsynBuffer := 128, MaxWriteBuffer := 4096,
    MaxFileCount := 5, MaxFileSize := 5242880, FileDir := "log", FileName := "app",
    FlashInterval := some 0, ExpireTime := some 0 }

/-- A call site in `main.go`, line 42, with no panic in flight. -/
def quietSite : Site :=
  { stamp := "25.01.01-00:00:00.000",
    frames := [("msg.go", 1), ("pusher.go", 2), ("handler_sync.go", 3), ("logger.go", 4),
      ("/src/app/main.go", 42)],
    panicking := none }

/-- The configuration of the repository's `TestAsynOutBasic`, with the
default flush interval of three hours. -/
def raceConfig : Config :=
  { startTime := "250101000000", pid := 7, MsgCallback := true, GoExec := .deferred,
    Level := 0, Style := 0, EnableAsyn := true, EnableFileTime := false, DisableSave := true,
    DisablePrint := false, MaxAsynExec := 100, MaxAsynBuffer := 128, MaxWriteBuffer := 4096,
    MaxFileCount := 5, MaxFileSize := 5242880, FileDir := "log", FileName := "app",
    FlashInterval := some 10800000000000, ExpireTime := some 0 }

/-- The call `logger.Trace("Hello World!\n")` of the repository's tests. -/
def helloCall : Call :=
  { kind := .log, site := quietSite, level := LevelTrace, layer := 0, format := "",
    args := ["Hello World!\n"] }

/-- A program with an asynchronous logger: one goroutine logs twice, then
another calls `Close`.  Its threads are 0 the flush timer, 1 the producer,
2 the closer, and 3 the worker once it is started. -/
def raceProgram : Program :=
  Program.start raceConfig emptyWorld [.producer .ready [helloCall, helloCall], .closer .cas]

/-- A schedule of `raceProgram`.  The producer makes its first call and
starts the worker; the worker pushes that message, polls the empty channel
101 times and loads `execCount` (1) for its idle exit; the producer makes
its second call, whose send succeeds and whose load of `execCount` still
reads 1; the worker decrements `execCount` and leaves; `Close` then runs to
its end, the timer goroutine leaving once cancelled. -/
def raceSchedule : List Nat :=
  [1, 1, 1, 1, 1] ++ [3, 3] ++ List.replicate 101 3 ++ [3] ++ [1, 1, 1] ++ [3, 3]
    ++ [2, 2, 2, 0, 2, 2, 2]

/-- A synchronous handler with threshold Warning, and an asynchronous one. -/
def warnSync : groHandlerSync :=
  newHandlerSync { sinkConfig with Level := LevelWarning } emptyWorld

def warnAsyn : groHandlerAsyn :=
  newHandlerAsyn { raceConfig with Level := LevelWarning } emptyWorld

/-- Bytes `b` without the first occurrence of `pat`. -/
def dropFirst (pat : Bytes) : Bytes → Bytes
  | [] => []
  | c :: rest =>
    if pat.isPrefixOf (c :: rest) then (c :: rest).drop pat.length else c :: dropFirst pat rest

/-- A console record without the colour sequences of its level: the start
sequence of the level and the end sequence removed. -/
def stripColour (level : Nat) (b : Bytes) : Bytes :=
  dropFirst levelStyleEnd.toList (dropFirst (levelStyleStarts.getD level "").toList b)

/-! ## config.go: the method `init` -/

/-- The default values of config.go. -/
def defaultLevel : Int := LevelWarning

def defaultStyle : Int := StyleBrief
def defaultMaxAsynExec : Int := 100
def defaultMaxAsynBuffer : Int := 128
def defaultMaxWriteBuffer : Int := 4096
def defaultMaxFileCount : Int := 5
def defaultMaxFileSize : Int := 5 * 1048576
def defaultFileDir : String := "log"

/-- The default flush interval `3h0m0s` and the default expiry `0s`, as
`time.ParseDuration` reads them (nanoseconds). -/
def defaultFlashInterval : Option Int := some 10800000000000
def defaultExpireTime : Option Int := some 0

/-- The call `filepath.Dir(path)` for a clean path: all but the last
element, `.` when there is no separator, the root for a file of the root. -/
def filepathDir (path : String) : String :=
  let b := path.toList
  if '/' ∈ b then
    let d := (b.reverse.dropWhile (fun c => c != '/')).reverse.dropLast
    if d = [] then "/" else String.mk d
  else "."

/-- The expression `filepath.Join(filepath.Dir(path), "log")`, `Join`
cleaning its result. -/
def executableLogDir (path : String) : String :=
  let d := filepathDir path
  if d = "." then "log" else if d = "/" then "/log" else d ++ "/" ++ "log"

/-- The statement `if c.Level < LevelVerBose || c.Level > LevelFatal` of `init`. -/
def Config.initLevel (c : Config) : Config :=
  if c.Level < LevelVerBose ∨ c.Level > LevelFatal then { c with Level := defaultLevel } else c

/-- The statement `if c.Style < StyleBasic || c.Style > StyleDetail` of `init`. -/
def Config.initStyle (c : Config) : Config :=
  if c.Style < StyleBasic ∨ c.Style > StyleDetail then { c with Style := defaultStyle } else c

/-- The statement `if c.MaxAsynExec <= 0` of `init`. -/
def Config.initMaxAsynExec (c : Config) : Config :=
  if c.MaxAsynExec ≤ 0 then { c with MaxAsynExec := defaultMaxAsynExec } else c

/-- The statement `if c.MaxAsynBuffer < 0` of `init`. -/
def Config.initMaxAsynBuffer (c : Config) : Config :=
  if c.MaxAsynBuffer < 0 then { c with MaxAsynBuffer := defaultMaxAsynBuffer } else c

/-- The statement `if c.MaxWriteBuffer < 0` of `init`. -/
def Config.initMaxWriteBuffer (c : Config) : Config :=
  if c.MaxWriteBuffer < 0 then { c with MaxWriteBuffer := defaultMaxWriteBuffer } else c

/-- The statement `if c.MaxFileCount <= 0` of `init`. -/
def Config.initMaxFileCount (c : Config) : Config :=
  if c.MaxFileCount ≤ 0 then { c with MaxFileCount := defaultMaxFileCount } else c

/-- The statement `if c.MaxFileSize <= 0` of `init`. -/
def Config.initMaxFileSize (c : Config) : Config :=
  if c.MaxFileSize ≤ 0 then { c with MaxFileSize := defaultMaxFileSize } else c

/-- The statement `if c.FileDir == ""` of `init`; `exe` is what
`os.Executable()` returns, `none` when it fails (the path is then empty). -/
def Config.initFileDir (c : Config) (exe : Option String) : Config :=
  if c.FileDir = "" then { c with FileDir := executableLogDir (exe.getD "") } else c

/-- The statement `if c.FileName == ""` of `init`: a failure of
`os.Executable()` panics. -/
def Config.initFileName (c : Config) (exe : Option String) : Outcome Config :=
  if c.FileName = "" then
    match exe with
    | none => .panicked
    | some path => .ok { c with FileName := trimmedBase path }
  else .ok c

/-- The two statements of `init` on the durations, which are kept as
parsed: a string that does not parse, or parses to a negative duration, is
replaced by the default. -/
def Config.initDurations (c : Config) : Config :=
  let c := match c.FlashInterval with
    | none => { c with FlashInterval := defaultFlashInterval }
    | some d => if d < 0 then { c with FlashInterval := defaultFlashInterval } else c
  match c.ExpireTime with
  | none => { c with ExpireTime := defaultExpireTime }
  | some d => if d < 0 then { c with ExpireTime := defaultExpireTime } else c

/-- The method `init` of the configuration, statement by statement.  The
fields `logger` and `FatalHandling` are not part of the record.  A nil
`GoExec` becomes the closure around `go f()`, which runs its argument at
some later point: the record keeps a launch strategy, and there is no nil
strategy to replace. -/
def Config.init (c : Config) (exe : Option String) : Outcome Config :=
  let c := c.initLevel
  let c := c.initStyle
  let c := c.initMaxAsynExec
  let c := c.initMaxAsynBuffer
  let c := c.initMaxWriteBuffer
  let c := c.initMaxFileCount
  let c := c.initMaxFileSize
  let c := c.initFileDir exe
  match c.initFileName exe with
  | .ok c => .ok c.initDurations
  | .panicked => .panicked
  | .outOfFuel => .outOfFuel

/-! ## handler_sync.go: the flush timer -/

/-- The method `Flush` of the synchronous handler. -/
def groHandlerSync.Flush (h : groHandlerSync) : Outcome groHandlerSync :=
  match h.pusher.Flush with
  | .ok p => .ok { h with pusher := p }
  | .panicked => .panicked
  | .outOfFuel => .outOfFuel

/-- Program points of the goroutine started by `goFlash` of the synchronous
handler: at its `select`, about to call `h.Flush()`, returned. -/
inductive SyncFlusherPc where
  | waiting
  | flush
  | exited
  deriving DecidableEq, Repr

/-- The synchronous handler next to its timer goroutine: `cancelled` tells
whether `flashCancel()` has run, `flushes` counts the calls of `Flush` made
by the goroutine. -/
structure SyncTimer where
  handler : groHandlerSync
  pc : SyncFlusherPc
  cancelled : Bool
  flushes : Nat
  deriving DecidableEq, Repr

/-- The method `goFlash` of the synchronous handler, as called by
`newHandlerSync` with the parsed interval (0 when parsing fails): no
goroutine for an interval that is not positive. -/
def SyncTimer.start (config : Config) (w : World) : SyncTimer :=
  let interval := config.FlashInterval.getD 0
  { handler := newHandlerSync config w,
    pc := if interval ≤ 0 then .exited else .waiting,
    cancelled := false, flushes := 0 }

/-- One step of the timer goroutine of the synchronous handler.  At its
`select` it leaves when the context is cancelled and otherwise goes on to
`h.Flush()`: the interval has elapsed. -/
def stepSyncFlusher (t : SyncTimer) : Outcome SyncTimer :=
  match t.pc with
  | .waiting =>
    if t.cancelled then .ok { t with pc := .exited } else .ok { t with pc := .flush }
  | .flush =>
    match t.handler.Flush with
    | .ok h => .ok { t with handler := h, pc := .exited, flushes := t.flushes + 1 }
    | .panicked => .panicked
    | .outOfFuel => .outOfFuel
  | .exited => .ok t

/-- The timer goroutine makes `n` steps. -/
def SyncTimer.run : Nat → SyncTimer → Outcome SyncTimer
  | 0, t => .ok t
  | n + 1, t =>
    match stepSyncFlusher t with
    | .ok t1 => SyncTimer.run n t1
    | .panicked => .panicked
    | .outOfFuel => .outOfFuel

/-! ## Properties named by the specification -/

/-- The numeric fields of a configuration are in their domains. -/
def Config.InDomain (c : Config) : Prop :=
  LevelVerBose ≤ c.Level ∧ c.Level ≤ LevelFatal ∧ StyleBasic ≤ c.Style ∧ c.Style ≤ StyleDetail
    ∧ c.MaxAsynExec > 0 ∧ c.MaxAsynBuffer ≥ 0 ∧ c.MaxWriteBuffer ≥ 0 ∧ c.MaxFileCount > 0
    ∧ c.MaxFileSize > 0

/-- The numeric fields of `d` are those of `c` where these are in their
domain, and the documented defaults elsewhere. -/
def Config.Defaulted (c d : Config) : Prop :=
  d.Level = (if LevelVerBose ≤ c.Level ∧ c.Level ≤ LevelFatal then c.Level else LevelWarning)
    ∧ d.Style = (if StyleBasic ≤ c.Style ∧ c.Style ≤ StyleDetail then c.Style else StyleBrief)
    ∧ d.MaxAsynExec = (if c.MaxAsynExec > 0 then c.MaxAsynExec else 100)
    ∧ d.MaxAsynBuffer = (if c.MaxAsynBuffer ≥ 0 then c.MaxAsynBuffer else 128)
    ∧ d.MaxWriteBuffer = (if c.MaxWriteBuffer ≥ 0 then c.MaxWriteBuffer else 4096)
    ∧ d.MaxFileCount = (if c.MaxFileCount > 0 then c.MaxFileCount else 5)
    ∧ d.MaxFileSize = (if c.MaxFileSize > 0 then c.MaxFileSize else 5242880)

/-- The numeric fields of `d` are those of `c`. -/
def Config.SameNumbers (c d : Config) : Prop :=
  d.Level = c.Level ∧ d.Style = c.Style ∧ d.MaxAsynExec = c.MaxAsynExec
    ∧ d.MaxAsynBuffer = c.MaxAsynBuffer ∧ d.MaxWriteBuffer = c.MaxWriteBuffer
    ∧ d.MaxFileCount = c.MaxFileCount ∧ d.MaxFileSize = c.MaxFileSize

/-- The index segment of the name of a log file. -/
def seqSegment (seq : Int) : String :=
  if seq > 0 then "(" ++ toString seq.toNat ++ ")" else ""

/-- The time segment of the name of a log file. -/
def timeSegment (c : Config) : String :=
  if c.EnableFileTime then "_" ++ c.startTime ++ "_" ++ toString c.pid else ""

/-- The base name of a log file as the specification writes it: the name,
the time segment when file times are enabled, the index in brackets when it
is positive, and `.log`. -/
def specLogBase (c : Config) (seq : Int) : String :=
  c.FileName ++ timeSegment c ++ seqSegment seq ++ ".log"

/-- The console record of the specification for the message `msg` on the
heap of `p`: the bare text in style Basic; otherwise the colour start of the
level, the tips, the colour end, a space, in style Detail the caller segment
and a space, and the text. -/
def groPusher.specRecord (p : groPusher) (msg : groMsg) : Bytes :=
  let start := (levelStyleStarts.getD msg.level.toNat "").toList
  if p.config.Style = StyleBasic then p.bufString msg.text
  else if p.config.Style = StyleBrief then
    start ++ p.bufString msg.tips ++ levelStyleEnd.toList ++ " ".toList ++ p.bufString msg.text
  else if p.config.Style = StyleDetail then
    start ++ p.bufString msg.tips ++ levelStyleEnd.toList ++ " ".toList
      ++ p.bufString msg.stack ++ " ".toList ++ p.bufString msg.text
  else []

/-! ## Auxiliary definitions of the proofs -/

/-- The message `msg` is ready for `push` on the pusher `p`, as `assign`
leaves it: the style is one of the three, the level one of the six, the
buffers of the style are allocated, and the pool holds allocated buffers. -/
structure groPusher.Ready (p : groPusher) (msg : groMsg) : Prop where
  style : p.config.Style = StyleBasic ∨ p.config.Style = StyleBrief
    ∨ p.config.Style = StyleDetail
  low : LevelVerBose ≤ msg.level
  high : msg.level ≤ LevelFatal
  text : PtrOk p.bufs msg.text
  tips : p.config.Style ≠ StyleBasic → PtrOk p.bufs msg.tips
  stack : p.config.Style = StyleDetail → PtrOk p.bufs msg.stack
  pool : PoolOk p.bufs p.bufferPool

/-- The value an outcome holds, `d` when the call did not return. -/
def Outcome.getD {α : Type} (o : Outcome α) (d : α) : α :=
  match o with
  | .ok a => a
  | .panicked => d
  | .outOfFuel => d

/-- What `Log`, `Logln` and `Logf` do between the level filter and their
call of `push`: the pusher and the message pointer that `push` receives. -/
def groHandlerSync.staged (h : groHandlerSync) (site : Site) (level layer : Int)
    (text : Bytes) : Outcome (groPusher × Nat) := do
  let (p, m) := h.pusher.newMsg
  let p ← p.assign site (some m) level layer
  let msg ← p.msg (some m)
  let p ← p.bufWrite msg.text text
  pure (p, m)

/-- The number a list of decimal digits stands for. -/
def decimalValue (l : List Char) : Nat :=
  l.foldl (fun a c => 10 * a + (c.toNat - 48)) 0

/-- The pusher `p` with another file sink and another record of the bytes
passed to it. -/
def groPusher.withSink (p : groPusher) (s : Option groStorage) (x : Bytes) : groPusher :=
  { p with storage := s, stored := x }

/-- The outcome `o` with the file sink of its pusher replaced. -/
def Outcome.withSink (o : Outcome groPusher) (s : Option groStorage) (x : Bytes) :
    Outcome groPusher :=
  match o with
  | .ok p => .ok (p.withSink s x)
  | .panicked => .panicked
  | .outOfFuel => .outOfFuel

/-- The storage literal that `newStorage` starts from. -/
def groStorage.blank (config : Config) (w : World) : groStorage :=
  { config := config, file := none, out := none, err := false,
    currFileNum := 0, currFileSize := 0, world := w }

/-- The number of workers that have not returned. -/
def countWorkers (ts : List Thread) : Nat :=
  (ts.filter (fun t => match t with
    | .worker pc _ _ => decide (pc ≠ .exited)
    | _ => false)).length

/-! ## More concrete inputs -/

/-- A log directory that already holds the file of index 0 with three bytes. -/
def usedWorld : World :=
  { files := [{ path := "log/app.log", isDir := false, modTime := 0, data := "old".toList }],
    now := 0, unopenable := [], released := 0 }

/-- A log directory whose file of index 0 is larger than the limit of
`rotConfig`. -/
def oversizeWorld : World :=
  { files := [{ path := "log/app.log", isDir := false, modTime := 0,
                data := "0123456789".toList }],
    now := 0, unopenable := [], released := 0 }

/-- A log directory holding an index-0 log file, at a time long after its
last modification and at the time of the modification. -/
def plainWorld (now : Int) : World :=
  { files := [{ path := "log/app.log", isDir := false, modTime := 1000, data := "old".toList }],
    now := now, unopenable := [], released := 0 }

/-- A configuration with room for hundred bytes per file. -/
def roomyConfig : Config := { rotConfig with MaxFileSize := 100 }

/-- The asynchronous configuration of the tests with a cap of one worker
and no flush timer. -/
def capConfig : Config := { raceConfig with MaxAsynExec := 1, FlashInterval := some 0 }

/-- Two goroutines that each make one Trace call. -/
def capProgram : Program :=
  Program.start capConfig emptyWorld [.producer .ready [helloCall], .producer .ready [helloCall]]

/-- One goroutine makes a Trace call, another calls `Close`. -/
def lateProgram : Program :=
  Program.start capConfig emptyWorld [.producer .ready [helloCall], .closer .cas]

/-- A program that creates an asynchronous logger with the default flush
interval of three hours and leaves it open. -/
def flashProgram : Program := Program.start raceConfig emptyWorld []

/-- A synchronous logger with a flush interval of one second. -/
def flashTimer : SyncTimer :=
  SyncTimer.start { sinkConfig with FlashInterval := some 1000000000 } emptyWorld

/-- One goroutine makes one Trace call. -/
def soloProgram : Program :=
  Program.start capConfig emptyWorld [.producer .ready [helloCall]]

/-- An asynchronous handler with its only worker polling an empty channel. -/
def idleProgram : Program :=
  { handler := { newHandlerAsyn capConfig emptyWorld with execCount := 1, stop := 1 },
    threads := [.worker .poll 0 0], accepted := [] }

/-- A log directory in which the file of index 0 cannot be created. -/
def barredWorld : World :=
  { files := [], now := 0, unopenable := ["log/app.log"], released := 0 }

/-- A configuration with every numeric field outside its domain and no
name. -/
def brokenConfig : Config :=
  { startTime := "250101000000", pid := 7, MsgCallback := false, GoExec := .deferred,
    Level := 9, Style := -1, EnableAsyn := false, EnableFileTime := false, DisableSave := false,
    DisablePrint := false, MaxAsynExec := 0, MaxAsynBuffer := -5, MaxWriteBuffer := -1,
    MaxFileCount := 0, MaxFileSize := -4, FileDir := "", FileName := "",
    FlashInterval := none, ExpireTime := some (-1) }

/-- What `init` makes of `brokenConfig` when the executable is
`/usr/bin/app.exe`. -/
def mendedConfig : Config :=
  { startTime := "250101000000", pid := 7, MsgCallback := false, GoExec := .deferred,
    Level := 3, Style := 1, EnableAsyn := false, EnableFileTime := false, DisableSave := false,
    DisablePrint := false, MaxAsynExec := 100, MaxAsynBuffer := 128, MaxWriteBuffer := 4096,
    MaxFileCount := 5, MaxFileSize := 5242880, FileDir := "/usr/bin/log", FileName := "app",
    FlashInterval := some 10800000000000, ExpireTime := some 0 }

/-- A pusher of `rotConfig` whose file sink could not be opened, holding a
Warning message as `assign` and `Log` leave it in style Brief. -/
def barredPusher : groPusher :=
  { newPusher rotConfig barredWorld with
    msgs := [{ level := LevelWarning, tips := some 0, stack := none, text := some 1 }],
    bufs := ["WARNG|25.01.01-00:00:00.000".toList, "hello\n".toList] }

/-- The configuration of `TestSyncOutBasic` with the file sink on, two files
of four bytes and every write flushed. -/
def savingConfig : Config :=
  { sinkConfig with DisableSave := false, MaxFileSize := 4, MaxFileCount := 2,
                    MaxWriteBuffer := 0 }

/-- The pusher at the call of `push` made by `logger.Trace("Hello World!\n")`
on a logger of `savingConfig` whose log file already holds ten bytes. -/
def stuckPusher : groPusher :=
  (((newHandlerSync savingConfig oversizeWorld).staged quietSite LevelTrace 0
    "Hello World!\n".toList).getD ((newHandlerSync savingConfig oversizeWorld).pusher, 0)).1

/-! ## Lemmas -/

@[simp] theorem Outcome.bind_ok {α β : Type} (a : α) (f : α → Outcome β) :
    (Outcome.ok a >>= f) = f a := rfl

@[simp] theorem Outcome.pure_eq {α : Type} (a : α) : (pure a : Outcome α) = .ok a := rfl

theorem Outcome.bind_eq_ok {α β : Type} {x : Outcome α} {f : α → Outcome β} {b : β} :
    (x >>= f) = .ok b ↔ ∃ a, x = .ok a ∧ f a = .ok b := by
  cases x with
  | ok a => simp
  | panicked =>
    constructor
    · intro h; cases h
    · rintro ⟨a, h, _⟩; cases h
  | outOfFuel =>
    constructor
    · intro h; cases h
    · rintro ⟨a, h, _⟩; cases h

theorem Ctl.ctlRefl (p : groPusher) : Ctl p p := ⟨rfl, rfl, rfl⟩

theorem Ctl.ctlTrans {p q r : groPusher} (h1 : Ctl p q) (h2 : Ctl q r) : Ctl p r :=
  ⟨h2.1.trans h1.1, h2.2.1.trans h1.2.1, h2.2.2.trans h1.2.2⟩

theorem groPusher.setMsg_ctl {p q : groPusher} {m : Option Nat} {f : groMsg → groMsg}
    (h : p.setMsg m f = .ok q) : Ctl p q := by
  unfold groPusher.setMsg at h
  split at h
  · cases h
  · split at h
    · cases h; exact ⟨rfl, rfl, rfl⟩
    · cases h

theorem groPusher.bufWrite_ctl {p q : groPusher} {b : Option Nat} {x : Bytes}
    (h : p.bufWrite b x = .ok q) : Ctl p q := by
  unfold groPusher.bufWrite at h
  split at h
  · cases h
  · split at h
    · cases h; exact ⟨rfl, rfl, rfl⟩
    · cases h

theorem groPusher.bufReset_ctl {p q : groPusher} {b : Option Nat}
    (h : p.bufReset b = .ok q) : Ctl p q := by
  unfold groPusher.bufReset at h
  split at h
  · cases h
  · split at h
    · cases h; exact ⟨rfl, rfl, rfl⟩
    · cases h

theorem groPusher.bufferGet_ctl (p : groPusher) : Ctl p p.bufferGet.1 := by
  unfold groPusher.bufferGet
  split <;> exact ⟨rfl, rfl, rfl⟩

theorem groPusher.fileWrite_ctl {fuel : Nat} {p q : groPusher} {b : Bytes}
    (h : p.fileWrite fuel b = .ok q) : Ctl p q := by
  unfold groPusher.fileWrite at h
  split at h
  · cases h
  · split at h
    · cases h; exact ⟨rfl, rfl, rfl⟩
    · cases h
    · cases h

theorem groPusher.initBrief_ctl {p q : groPusher} {site : Site} {m : Option Nat}
    (h : p.initBrief site m = .ok q) : Ctl p q := by
  simp only [groPusher.initBrief, Outcome.bind_eq_ok] at h
  obtain ⟨_, _, _, _, p1, h1, p2, h2, h3⟩ := h
  exact (bufWrite_ctl h1).ctlTrans ((bufWrite_ctl h2).ctlTrans (bufWrite_ctl h3))

theorem groPusher.initDetailed_ctl {p q : groPusher} {site : Site} {m : Option Nat} {layer : Int}
    (h : p.initDetailed site m layer = .ok q) : Ctl p q := by
  simp only [groPusher.initDetailed, Outcome.bind_eq_ok] at h
  obtain ⟨_, _, _, _, p1, h1, p2, h2, p3, h3, p4, h4, h5⟩ := h
  have h04 : Ctl p p4 :=
    (bufWrite_ctl h1).ctlTrans ((bufWrite_ctl h2).ctlTrans ((bufWrite_ctl h3).ctlTrans (bufWrite_ctl h4)))
  split at h5
  · simp only [Outcome.bind_eq_ok] at h5
    obtain ⟨r1, g1, g2⟩ := h5
    exact h04.ctlTrans ((bufWrite_ctl g1).ctlTrans (bufWrite_ctl g2))
  · simp only [Outcome.bind_eq_ok] at h5
    obtain ⟨r1, g1, r2, g2, r3, g3, g4⟩ := h5
    exact h04.ctlTrans ((bufWrite_ctl g1).ctlTrans ((bufWrite_ctl g2).ctlTrans
      ((bufWrite_ctl g3).ctlTrans (bufWrite_ctl g4))))

theorem groPusher.bufferGet_ctl_of {p q : groPusher} {b : Option Nat}
    (h : p.bufferGet = (q, b)) : Ctl p q := by
  have := bufferGet_ctl p
  rw [h] at this
  exact this

theorem groPusher.assign_ctl {p q : groPusher} {site : Site} {m : Option Nat} {level layer : Int}
    (h : p.assign site m level layer = .ok q) : Ctl p q := by
  simp only [groPusher.assign, Outcome.bind_eq_ok] at h
  obtain ⟨p0, h0, h⟩ := h
  refine (setMsg_ctl h0).ctlTrans ?_
  split at h
  · rcases hg : p0.bufferGet with ⟨p1, text⟩
    simp only [hg, Outcome.bind_eq_ok] at h
    obtain ⟨p2, h2, h3⟩ := h
    exact (bufferGet_ctl_of hg).ctlTrans ((setMsg_ctl h2).ctlTrans (bufReset_ctl h3))
  · split at h
    · rcases hg : p0.bufferGet with ⟨p1, text⟩
      simp only [hg, Outcome.bind_eq_ok] at h
      obtain ⟨p2, h2, h⟩ := h
      rcases hg2 : p2.bufferGet with ⟨p3, tips⟩
      simp only [hg2, Outcome.bind_eq_ok] at h
      obtain ⟨p4, h4, p5, h5, p6, h6, h7⟩ := h
      exact (bufferGet_ctl_of hg).ctlTrans ((setMsg_ctl h2).ctlTrans ((bufferGet_ctl_of hg2).ctlTrans
        ((setMsg_ctl h4).ctlTrans ((bufReset_ctl h5).ctlTrans ((bufReset_ctl h6).ctlTrans
          (initBrief_ctl h7))))))
    · split at h
      · rcases hg : p0.bufferGet with ⟨p1, text⟩
        simp only [hg, Outcome.bind_eq_ok] at h
        obtain ⟨p2, h2, h⟩ := h
        rcases hg2 : p2.bufferGet with ⟨p3, tips⟩
        simp only [hg2, Outcome.bind_eq_ok] at h
        obtain ⟨p4, h4, h⟩ := h
        rcases hg3 : p4.bufferGet with ⟨p5, stack⟩
        simp only [hg3, Outcome.bind_eq_ok] at h
        obtain ⟨p6, h6, p7, h7, p8, h8, p9, h9, h10⟩ := h
        exact (bufferGet_ctl_of hg).ctlTrans ((setMsg_ctl h2).ctlTrans ((bufferGet_ctl_of hg2).ctlTrans
          ((setMsg_ctl h4).ctlTrans ((bufferGet_ctl_of hg3).ctlTrans ((setMsg_ctl h6).ctlTrans
            ((bufReset_ctl h7).ctlTrans ((bufReset_ctl h8).ctlTrans ((bufReset_ctl h9).ctlTrans
              (initDetailed_ctl h10)))))))))
      · cases h; exact Ctl.ctlRefl _

theorem groPusher.conWrite_ctl (p : groPusher) (b : Bytes) : Ctl p (p.conWrite b) :=
  ⟨rfl, rfl, rfl⟩

theorem groPusher.pushConsole_ctl {p q : groPusher} {msg : groMsg}
    (h : p.pushConsole msg = .ok q) : Ctl p q := by
  unfold groPusher.pushConsole at h
  split at h
  · split at h
    · simp only [Outcome.bind_eq_ok, Outcome.pure_eq] at h
      obtain ⟨_, _, h⟩ := h
      cases h; exact ⟨rfl, rfl, rfl⟩
    · split at h
      · simp only [Outcome.bind_eq_ok, Outcome.pure_eq] at h
        obtain ⟨_, _, _, _, _, _, h⟩ := h
        rw [← Outcome.ok.inj h]; simp [Ctl, groPusher.conWrite]
      · split at h
        · simp only [Outcome.bind_eq_ok, Outcome.pure_eq] at h
          obtain ⟨_, _, _, _, _, _, _, _, h⟩ := h
          rw [← Outcome.ok.inj h]; simp [Ctl, groPusher.conWrite]
        · cases h; exact Ctl.ctlRefl _
  · cases h; exact Ctl.ctlRefl _

theorem groPusher.pushStorage_ctl {fuel : Nat} {p q : groPusher} {msg : groMsg}
    (h : p.pushStorage fuel msg = .ok q) : Ctl p q := by
  unfold groPusher.pushStorage at h
  split at h
  · split at h
    · simp only [Outcome.bind_eq_ok] at h
      obtain ⟨_, _, h⟩ := h
      exact fileWrite_ctl h
    · split at h
      · simp only [Outcome.bind_eq_ok] at h
        obtain ⟨_, _, p1, h1, p2, h2, _, _, h3⟩ := h
        exact (fileWrite_ctl h1).ctlTrans ((fileWrite_ctl h2).ctlTrans (fileWrite_ctl h3))
      · split at h
        · simp only [Outcome.bind_eq_ok] at h
          obtain ⟨_, _, p1, h1, p2, h2, _, _, h3⟩ := h
          exact (fileWrite_ctl h1).ctlTrans ((fileWrite_ctl h2).ctlTrans (fileWrite_ctl h3))
        · cases h; exact Ctl.ctlRefl _
  · cases h; exact Ctl.ctlRefl _

theorem groPusher.recycle_ctl {p q : groPusher} {msg : groMsg}
    (h : p.recycle msg = .ok q) : Ctl p q := by
  unfold groPusher.recycle at h
  split at h
  · simp only [Outcome.bind_eq_ok, Outcome.pure_eq] at h
    obtain ⟨p1, h1, h⟩ := h
    cases h; exact (bufReset_ctl h1).ctlTrans ⟨rfl, rfl, rfl⟩
  · split at h
    · simp only [Outcome.bind_eq_ok, Outcome.pure_eq] at h
      obtain ⟨p1, h1, p2, h2, h⟩ := h
      cases h; exact (bufReset_ctl h1).ctlTrans ((bufReset_ctl h2).ctlTrans ⟨rfl, rfl, rfl⟩)
    · split at h
      · simp only [Outcome.bind_eq_ok, Outcome.pure_eq] at h
        obtain ⟨p1, h1, p2, h2, p3, h3, h⟩ := h
        cases h
        exact (bufReset_ctl h1).ctlTrans ((bufReset_ctl h2).ctlTrans
          ((bufReset_ctl h3).ctlTrans ⟨rfl, rfl, rfl⟩))
      · cases h; exact Ctl.ctlRefl _

/-- The callback block launches exactly one closure when a callback is
configured. -/
theorem groPusher.pushCallback_launched {p q : groPusher} {m : Nat}
    (h : p.pushCallback m = .ok q) :
    q.closed = p.closed ∧ q.config = p.config
      ∧ q.launched = p.launched ++ (if p.config.MsgCallback then [m] else []) := by
  unfold groPusher.pushCallback at h
  split at h
  · rename_i hcb
    simp only [hcb, if_true]
    simp only at h
    split at h
    · unfold groPusher.callbackBody at h
      split at h
      · cases h; exact ⟨rfl, rfl, rfl⟩
      · cases h
      · cases h
    · cases h; exact ⟨rfl, rfl, rfl⟩
  · rename_i hcb
    cases h
    simp [hcb]

/-- An open pusher that returns from `push` has launched exactly one more
closure if a callback is configured, and is still open. -/
theorem groPusher.push_launched {fuel : Nat} {panicking : Option String} {p q : groPusher} {m : Nat}
    (hopen : p.closed = false) (h : p.push fuel panicking m = .ok q) :
    q.closed = false ∧ q.config = p.config
      ∧ q.launched = p.launched ++ (if p.config.MsgCallback then [m] else []) := by
  simp only [groPusher.push, hopen, Bool.false_eq_true, if_false, Outcome.bind_eq_ok,
    Outcome.pure_eq] at h
  obtain ⟨msg, _, p1, h1, p2, h2, p3, h3, p4, h4, h5⟩ := h
  have c1 := pushConsole_ctl h1
  have c2 := pushStorage_ctl h2
  have c3 := pushCallback_launched h3
  have c4 := recycle_ctl h4
  have c12 := c1.ctlTrans c2
  cases h5
  refine ⟨?_, ?_, ?_⟩
  · show (p4.pushFatal panicking msg).closed = false
    unfold groPusher.pushFatal
    split <;> simp [c4.1, c3.1, c12.1, hopen]
  · show (p4.pushFatal panicking msg).config = p.config
    unfold groPusher.pushFatal
    split <;> simp [c4.2.1, c3.2.1, c12.2.1]
  · show (p4.pushFatal panicking msg).launched = _
    unfold groPusher.pushFatal
    split <;> simp [c4.2.2, c3.2.2, c12.2.2, c12.2.1]

theorem groPusher.newMsg_ctl (p : groPusher) : Ctl p p.newMsg.1 := ⟨rfl, rfl, rfl⟩

theorem groHandlerSync.emit_launched {fuel : Nat} {h h1 : groHandlerSync} {site : Site}
    {level layer : Int} {text : Bytes} (hopen : h.pusher.closed = false)
    (he : h.emit fuel site level layer text = .ok h1) :
    h1.config = h.config ∧ h1.pusher.closed = false ∧ h1.pusher.config = h.pusher.config
      ∧ h1.pusher.launched.length
          = h.pusher.launched.length + (if h.pusher.config.MsgCallback then 1 else 0) := by
  simp only [groHandlerSync.emit, Outcome.bind_eq_ok, Outcome.pure_eq] at he
  rcases hn : h.pusher.newMsg with ⟨p0, m⟩
  simp only [hn] at he
  obtain ⟨p1, h1', msg, _, p2, h2, p3, h3, he⟩ := he
  have c0 : Ctl h.pusher p0 := by
    have := groPusher.newMsg_ctl h.pusher
    rw [hn] at this; exact this
  have c2 : Ctl h.pusher p2 :=
    c0.ctlTrans ((groPusher.assign_ctl h1').ctlTrans (groPusher.bufWrite_ctl h2))
  have hp := groPusher.push_launched (c2.1.trans hopen) h3
  cases he
  refine ⟨rfl, hp.1, hp.2.1.trans c2.2.1, ?_⟩
  show p3.launched.length = _
  rw [hp.2.2, c2.2.2, c2.2.1]
  split <;> simp

theorem groHandlerSync.call_launched {fuel : Nat} {h h1 : groHandlerSync} {c : Call}
    (hopen : h.pusher.closed = false) (hlev : h.config.Level ≤ c.level)
    (hc : h.call fuel c = .ok h1) :
    h1.config = h.config ∧ h1.pusher.closed = false ∧ h1.pusher.config = h.pusher.config
      ∧ h1.pusher.launched.length
          = h.pusher.launched.length + (if h.pusher.config.MsgCallback then 1 else 0) := by
  have hnot : ¬ h.config.Level > c.level := not_lt.mpr hlev
  unfold groHandlerSync.call at hc
  split at hc
  · simp only [groHandlerSync.Log, hnot, if_false] at hc
    exact emit_launched hopen hc
  · simp only [groHandlerSync.Logln, hnot, if_false] at hc
    exact emit_launched hopen hc
  · simp only [groHandlerSync.Logf, hnot, if_false] at hc
    exact emit_launched hopen hc

theorem groHandlerSync.run_launched (fuel : Nat) (calls : List Call) :
    ∀ (h h1 : groHandlerSync), h.pusher.closed = false → h.pusher.config.MsgCallback = true →
      (∀ c ∈ calls, h.config.Level ≤ c.level) → h.run fuel calls = .ok h1 →
      h1.pusher.launched.length = h.pusher.launched.length + calls.length := by
  induction calls with
  | nil =>
    intro h h1 _ _ _ hr
    simp only [groHandlerSync.run] at hr
    cases hr; simp
  | cons c rest ih =>
    intro h h1 hopen hcb hlev hr
    simp only [groHandlerSync.run] at hr
    split at hr
    · rename_i h2 hc
      have hstep := call_launched hopen (hlev c (by simp)) hc
      have hrest := ih h2 h1 hstep.2.1 (by rw [hstep.2.2.1]; exact hcb)
        (fun d hd => by rw [hstep.1]; exact hlev d (by simp [hd])) hr
      rw [hrest, hstep.2.2.2, hcb]
      simp; omega
    · cases hr
    · cases hr

theorem PtrOk.ptrMono {bs bs1 : List Bytes} {b : Option Nat} (h : PtrOk bs b)
    (hle : bs.length ≤ bs1.length) : PtrOk bs1 b := by
  obtain ⟨a, ha, hlt⟩ := h
  exact ⟨a, ha, lt_of_lt_of_le hlt hle⟩

theorem PoolOk.poolMono {bs bs1 : List Bytes} {bp : List (Option Nat)} (h : PoolOk bs bp)
    (hle : bs.length ≤ bs1.length) : PoolOk bs1 bp :=
  fun b hb => (h b hb).ptrMono hle

theorem PoolOk.cons {bs : List Bytes} {bp : List (Option Nat)} {b : Option Nat}
    (hb : PtrOk bs b) (h : PoolOk bs bp) : PoolOk bs (b :: bp) := by
  intro c hc
  rcases List.mem_cons.mp hc with rfl | hc
  · exact hb
  · exact h c hc

theorem groPusher.withCells_self (p : groPusher) :
    p.withCells p.msgs p.bufs p.bufferPool = p := rfl

@[simp] theorem groPusher.withCells_config (p : groPusher) (ms : List groMsg) (bs : List Bytes)
    (bp : List (Option Nat)) : (p.withCells ms bs bp).config = p.config := rfl

theorem groPusher.setMsg_cells (q : groPusher) {ms : List groMsg} (bs : List Bytes)
    (bp : List (Option Nat)) {m : Nat} {c : groMsg} (f : groMsg → groMsg) (hm : ms[m]? = some c) :
    (q.withCells ms bs bp).setMsg (some m) f = .ok (q.withCells (ms.set m (f c)) bs bp) := by
  simp only [groPusher.setMsg, groPusher.withCells, List.get?_eq_getElem?, hm]

theorem groPusher.msg_cells (q : groPusher) {ms : List groMsg} (bs : List Bytes)
    (bp : List (Option Nat)) {m : Nat} {c : groMsg} (hm : ms[m]? = some c) :
    (q.withCells ms bs bp).msg (some m) = .ok c := by
  simp only [groPusher.msg, groPusher.withCells, List.get?_eq_getElem?, hm]

theorem groPusher.bufferGet_cells (q : groPusher) (ms : List groMsg) {bs : List Bytes}
    {bp : List (Option Nat)} (hp : PoolOk bs bp) :
    ∃ bs1 bp1 b, (q.withCells ms bs bp).bufferGet = (q.withCells ms bs1 bp1, b)
      ∧ PtrOk bs1 b ∧ bs.length ≤ bs1.length ∧ PoolOk bs1 bp1 := by
  cases bp with
  | nil =>
    exact ⟨bs ++ [[]], [], some bs.length, rfl, ⟨bs.length, rfl, by simp⟩, by simp,
      fun b hb => by cases hb⟩
  | cons b rest =>
    exact ⟨bs, rest, b, rfl, hp b (by simp), le_refl _, fun c hc => hp c (by simp [hc])⟩

theorem groPusher.bufReset_cells (q : groPusher) (ms : List groMsg) {bs : List Bytes}
    (bp : List (Option Nat)) {b : Option Nat} (hb : PtrOk bs b) :
    ∃ bs1, bs1.length = bs.length
      ∧ (q.withCells ms bs bp).bufReset b = .ok (q.withCells ms bs1 bp) := by
  obtain ⟨a, rfl, hlt⟩ := hb
  exact ⟨bs.set a [], by simp, by simp only [groPusher.bufReset, groPusher.withCells, hlt, if_true]⟩

theorem groPusher.bufWrite_cells (q : groPusher) (ms : List groMsg) {bs : List Bytes}
    (bp : List (Option Nat)) {b : Option Nat} (x : Bytes) (hb : PtrOk bs b) :
    ∃ bs1, bs1.length = bs.length
      ∧ (q.withCells ms bs bp).bufWrite b x = .ok (q.withCells ms bs1 bp) := by
  obtain ⟨a, rfl, hlt⟩ := hb
  have : bs[a]? = some bs[a] := List.getElem?_eq_getElem hlt
  exact ⟨bs.set a (bs[a] ++ x), by simp,
    by simp only [groPusher.bufWrite, groPusher.withCells, List.get?_eq_getElem?, this]⟩

theorem groPusher.bufBytes_cells (q : groPusher) (ms : List groMsg) {bs : List Bytes}
    (bp : List (Option Nat)) {b : Option Nat} (hb : PtrOk bs b) :
    ∃ x, (q.withCells ms bs bp).bufBytes b = .ok x := by
  obtain ⟨a, rfl, hlt⟩ := hb
  have : bs[a]? = some bs[a] := List.getElem?_eq_getElem hlt
  exact ⟨bs[a], by simp only [groPusher.bufBytes, groPusher.withCells, List.get?_eq_getElem?, this]⟩

theorem indexString_ok (xs : List String) (i : Int) (h0 : 0 ≤ i) (h1 : i.toNat < xs.length) :
    ∃ x, indexString xs i = .ok x := by
  have : xs[i.toNat]? = some xs[i.toNat] := List.getElem?_eq_getElem h1
  exact ⟨xs[i.toNat].toList,
    by simp only [indexString, not_lt.mpr h0, if_false, List.get?_eq_getElem?, this]⟩

theorem levelStrings_ok (level : Int) (h0 : LevelVerBose ≤ level) (h1 : level ≤ LevelFatal) :
    ∃ x, indexString levelStrings level = .ok x := by
  apply indexString_ok
  · exact h0
  · simp only [levelStrings, LevelFatal, List.length] at *
    omega

theorem levelStyleStarts_ok (level : Int) (h0 : LevelVerBose ≤ level) (h1 : level ≤ LevelFatal) :
    ∃ x, indexString levelStyleStarts level = .ok x := by
  apply indexString_ok
  · exact h0
  · simp only [levelStyleStarts, LevelFatal, List.length] at *
    omega

theorem groPusher.initBrief_cells (q : groPusher) {ms : List groMsg} {bs : List Bytes}
    (bp : List (Option Nat)) (site : Site) {m : Nat} {c : groMsg} (hm : ms[m]? = some c)
    (htips : PtrOk bs c.tips) (h0 : LevelVerBose ≤ c.level) (h1 : c.level ≤ LevelFatal) :
    ∃ bs1, bs1.length = bs.length
      ∧ (q.withCells ms bs bp).initBrief site (some m) = .ok (q.withCells ms bs1 bp) := by
  obtain ⟨name, hname⟩ := levelStrings_ok c.level h0 h1
  obtain ⟨b1, l1, e1⟩ := bufWrite_cells q ms bp name htips
  obtain ⟨b2, l2, e2⟩ := bufWrite_cells q ms bp "|".toList (htips.ptrMono (le_of_eq l1.symm))
  obtain ⟨b3, l3, e3⟩ := bufWrite_cells q ms bp site.stamp.toList
    (htips.ptrMono (le_of_eq (l2.trans l1).symm))
  refine ⟨b3, l3.trans (l2.trans l1), ?_⟩
  simp only [groPusher.initBrief, msg_cells q bs bp hm, Outcome.bind_ok, hname, e1, e2, e3]

theorem groPusher.initDetailed_cells (q : groPusher) {ms : List groMsg} {bs : List Bytes}
    (bp : List (Option Nat)) (site : Site) (layer : Int) {m : Nat} {c : groMsg}
    (hm : ms[m]? = some c) (htips : PtrOk bs c.tips) (hstack : PtrOk bs c.stack)
    (h0 : LevelVerBose ≤ c.level) (h1 : c.level ≤ LevelFatal) :
    ∃ bs1, bs1.length = bs.length
      ∧ (q.withCells ms bs bp).initDetailed site (some m) layer = .ok (q.withCells ms bs1 bp) := by
  obtain ⟨name, hname⟩ := levelStrings_ok c.level h0 h1
  obtain ⟨b1, l1, e1⟩ := bufWrite_cells q ms bp name htips
  obtain ⟨b2, l2, e2⟩ := bufWrite_cells q ms bp "|".toList (htips.ptrMono (le_of_eq l1.symm))
  have l2' := l2.trans l1
  obtain ⟨b3, l3, e3⟩ := bufWrite_cells q ms bp site.stamp.toList (htips.ptrMono (le_of_eq l2'.symm))
  have l3' := l3.trans l2'
  obtain ⟨b4, l4, e4⟩ := bufWrite_cells q ms bp "[".toList (hstack.ptrMono (le_of_eq l3'.symm))
  have l4' := l4.trans l3'
  simp only [groPusher.initDetailed, msg_cells q bs bp hm, Outcome.bind_ok, hname, e1, e2, e3, e4]
  split
  · obtain ⟨b5, l5, e5⟩ := bufWrite_cells q ms bp "???#?".toList (hstack.ptrMono (le_of_eq l4'.symm))
    have l5' := l5.trans l4'
    obtain ⟨b6, l6, e6⟩ := bufWrite_cells q ms bp "]".toList (hstack.ptrMono (le_of_eq l5'.symm))
    exact ⟨b6, l6.trans l5', by simp only [e5, e6, Outcome.bind_ok]⟩
  · rename_i file line _
    obtain ⟨b5, l5, e5⟩ := bufWrite_cells q ms bp (trimmedBase file).toList
      (hstack.ptrMono (le_of_eq l4'.symm))
    have l5' := l5.trans l4'
    obtain ⟨b6, l6, e6⟩ := bufWrite_cells q ms bp ":".toList (hstack.ptrMono (le_of_eq l5'.symm))
    have l6' := l6.trans l5'
    obtain ⟨b7, l7, e7⟩ := bufWrite_cells q ms bp (toString line).toList
      (hstack.ptrMono (le_of_eq l6'.symm))
    have l7' := l7.trans l6'
    obtain ⟨b8, l8, e8⟩ := bufWrite_cells q ms bp "]".toList (hstack.ptrMono (le_of_eq l7'.symm))
    exact ⟨b8, l8.trans l7', by simp only [e5, e6, e7, e8, Outcome.bind_ok]⟩

theorem getElem?_set_of_some {α : Type} {l : List α} {i : Nat} {a : α} (b : α)
    (h : l[i]? = some a) : (l.set i b)[i]? = some b := by
  obtain ⟨hlt, _⟩ := List.getElem?_eq_some.mp h
  exact List.getElem?_set_self hlt

/-- On a sound heap `assign` returns; it leaves a sound heap in which the
message holds the level and the buffers its style needs. -/
theorem groPusher.assign_cells (q : groPusher) {ms : List groMsg} {bs : List Bytes}
    {bp : List (Option Nat)} (site : Site) (level layer : Int) {m : Nat} {c : groMsg}
    (hm : ms[m]? = some c) (hpool : PoolOk bs bp)
    (h0 : LevelVerBose ≤ level) (h1 : level ≤ LevelFatal)
    (hstyle : q.config.Style = StyleBasic ∨ q.config.Style = StyleBrief
      ∨ q.config.Style = StyleDetail) :
    ∃ ms1 bs1 bp1 c1,
      (q.withCells ms bs bp).assign site (some m) level layer = .ok (q.withCells ms1 bs1 bp1)
        ∧ ms1.length = ms.length ∧ ms1[m]? = some c1 ∧ c1.level = level ∧ PoolOk bs1 bp1
        ∧ PtrOk bs1 c1.text ∧ (q.config.Style ≠ StyleBasic → PtrOk bs1 c1.tips)
        ∧ (q.config.Style = StyleDetail → PtrOk bs1 c1.stack) := by
  have hm0 := getElem?_set_of_some ({ c with level := level }) hm
  obtain ⟨bsA, bpA, text, gA, vtext, leA, poolA⟩ :=
    bufferGet_cells q (ms.set m { c with level := level }) hpool
  have hmA := getElem?_set_of_some ({ c with level := level, text := text }) hm0
  rcases hstyle with hs | hs | hs
  · -- StyleBasic
    obtain ⟨bsB, lB, rB⟩ := bufReset_cells q
      ((ms.set m { c with level := level }).set m { c with level := level, text := text }) bpA vtext
    refine ⟨_, bsB, bpA, { c with level := level, text := text }, ?_, by simp, hmA, rfl,
      poolA.poolMono (le_of_eq lB.symm), vtext.ptrMono (le_of_eq lB.symm), fun h => absurd hs h, ?_⟩
    · simp only [groPusher.assign, setMsg_cells q bs bp _ hm, Outcome.bind_ok, withCells_config, hs,
        if_true, gA, setMsg_cells q bsA bpA _ hm0, rB]
    · intro h; rw [hs] at h; cases h
  · -- StyleBrief
    have hne : ¬ StyleBrief = StyleBasic := by decide
    obtain ⟨bsB, bpB, tips, gB, vtips, leB, poolB⟩ := bufferGet_cells q
      ((ms.set m { c with level := level }).set m { c with level := level, text := text }) poolA
    have hmB := getElem?_set_of_some ({ c with level := level, text := text, tips := tips }) hmA
    obtain ⟨bsC, lC, rC⟩ := bufReset_cells q
      (((ms.set m { c with level := level }).set m { c with level := level, text := text }).set m
        { c with level := level, text := text, tips := tips }) bpB (vtext.ptrMono leB)
    obtain ⟨bsD, lD, rD⟩ := bufReset_cells q
      (((ms.set m { c with level := level }).set m { c with level := level, text := text }).set m
        { c with level := level, text := text, tips := tips }) bpB
      (vtips.ptrMono (le_of_eq lC.symm))
    have lD' := lD.trans lC
    obtain ⟨bsE, lE, rE⟩ := initBrief_cells q bpB site hmB
      (show PtrOk bsD tips from vtips.ptrMono (le_of_eq lD'.symm)) h0 h1
    have lE' := lE.trans lD'
    refine ⟨_, bsE, bpB, { c with level := level, text := text, tips := tips }, ?_, by simp, hmB,
      rfl, poolB.poolMono (le_of_eq lE'.symm), (vtext.ptrMono leB).ptrMono (le_of_eq lE'.symm),
      fun _ => vtips.ptrMono (le_of_eq lE'.symm), ?_⟩
    · simp only [groPusher.assign, setMsg_cells q bs bp _ hm, Outcome.bind_ok, withCells_config, hs,
        hne, if_true, if_false, gA, setMsg_cells q bsA bpA _ hm0, gB, setMsg_cells q bsB bpB _ hmA,
        rC, rD, rE]
    · intro h; rw [hs] at h; cases h
  · -- StyleDetail
    have hne : ¬ StyleDetail = StyleBasic := by decide
    have hne2 : ¬ StyleDetail = StyleBrief := by decide
    obtain ⟨bsB, bpB, tips, gB, vtips, leB, poolB⟩ := bufferGet_cells q
      ((ms.set m { c with level := level }).set m { c with level := level, text := text }) poolA
    have hmB := getElem?_set_of_some ({ c with level := level, text := text, tips := tips }) hmA
    obtain ⟨bsC, bpC, stack, gC, vstack, leC, poolC⟩ := bufferGet_cells q
      (((ms.set m { c with level := level }).set m { c with level := level, text := text }).set m
        { c with level := level, text := text, tips := tips }) poolB
    have hmC := getElem?_set_of_some
      ({ c with level := level, text := text, tips := tips, stack := stack }) hmB
    have vtextC : PtrOk bsC text := (vtext.ptrMono leB).ptrMono leC
    have vtipsC : PtrOk bsC tips := vtips.ptrMono leC
    obtain ⟨bsD, lD, rD⟩ := bufReset_cells q
      ((((ms.set m { c with level := level }).set m { c with level := level, text := text }).set m
        { c with level := level, text := text, tips := tips }).set m
        { c with level := level, text := text, tips := tips, stack := stack }) bpC vtextC
    obtain ⟨bsE, lE, rE⟩ := bufReset_cells q
      ((((ms.set m { c with level := level }).set m { c with level := level, text := text }).set m
        { c with level := level, text := text, tips := tips }).set m
        { c with level := level, text := text, tips := tips, stack := stack }) bpC
      (vtipsC.ptrMono (le_of_eq lD.symm))
    have lE' := lE.trans lD
    obtain ⟨bsF, lF, rF⟩ := bufReset_cells q
      ((((ms.set m { c with level := level }).set m { c with level := level, text := text }).set m
        { c with level := level, text := text, tips := tips }).set m
        { c with level := level, text := text, tips := tips, stack := stack }) bpC
      (vstack.ptrMono (le_of_eq lE'.symm))
    have lF' := lF.trans lE'
    obtain ⟨bsG, lG, rG⟩ := initDetailed_cells q bpC site layer hmC
      (show PtrOk bsF tips from vtipsC.ptrMono (le_of_eq lF'.symm))
      (show PtrOk bsF stack from vstack.ptrMono (le_of_eq lF'.symm)) h0 h1
    have lG' := lG.trans lF'
    refine ⟨_, bsG, bpC, { c with level := level, text := text, tips := tips, stack := stack }, ?_,
      by simp, hmC, rfl, poolC.poolMono (le_of_eq lG'.symm), vtextC.ptrMono (le_of_eq lG'.symm),
      fun _ => vtipsC.ptrMono (le_of_eq lG'.symm), fun _ => vstack.ptrMono (le_of_eq lG'.symm)⟩
    simp only [groPusher.assign, setMsg_cells q bs bp _ hm, Outcome.bind_ok, withCells_config, hs,
      hne, hne2, if_true, if_false, gA, setMsg_cells q bsA bpA _ hm0, gB,
      setMsg_cells q bsB bpB _ hmA, gC, setMsg_cells q bsC bpC _ hmB, rD, rE, rF, rG]

theorem Same.sameRefl (q : groPusher) : Same q q := ⟨rfl, rfl, rfl, rfl⟩

theorem Same.sameTrans {p q r : groPusher} (h1 : Same p q) (h2 : Same q r) : Same p r :=
  ⟨h2.1.trans h1.1, h2.2.1.trans h1.2.1, h2.2.2.1.trans h1.2.2.1, h2.2.2.2.trans h1.2.2.2⟩

theorem groPusher.conWrite_cells (q : groPusher) (ms : List groMsg) (bs : List Bytes)
    (bp : List (Option Nat)) (x : Bytes) :
    (q.withCells ms bs bp).conWrite x = (q.conWrite x).withCells ms bs bp := rfl

theorem groPusher.conWrite_same (q : groPusher) (x : Bytes) : Same q (q.conWrite x) :=
  ⟨rfl, rfl, rfl, rfl⟩

theorem groPusher.bufferPut_cells (q : groPusher) (ms : List groMsg) (bs : List Bytes)
    (bp : List (Option Nat)) (b : Option Nat) :
    (q.withCells ms bs bp).bufferPut b = q.withCells ms bs (b :: bp) := rfl

theorem Same.conWrite {q q1 : groPusher} (h : Same q q1) (x : Bytes) : Same q (q1.conWrite x) :=
  h.sameTrans (groPusher.conWrite_same q1 x)

/-- The console block returns when the buffers of the style are valid. -/
theorem groPusher.pushConsole_cells (q : groPusher) (ms : List groMsg) {bs : List Bytes}
    (bp : List (Option Nat)) {msg : groMsg}
    (h0 : LevelVerBose ≤ msg.level) (h1 : msg.level ≤ LevelFatal) (htext : PtrOk bs msg.text)
    (htips : q.config.Style ≠ StyleBasic → PtrOk bs msg.tips)
    (hstack : q.config.Style = StyleDetail → PtrOk bs msg.stack) :
    ∃ q1, Same q q1 ∧ (q.withCells ms bs bp).pushConsole msg = .ok (q1.withCells ms bs bp) := by
  obtain ⟨start, hstart⟩ := levelStyleStarts_ok msg.level h0 h1
  unfold groPusher.pushConsole
  split
  · split
    · obtain ⟨x, hx⟩ := bufBytes_cells q ms bp htext
      exact ⟨q.conWrite x, conWrite_same q x, by simp only [hx, Outcome.bind_ok, Outcome.pure_eq,
        conWrite_cells]⟩
    · rename_i hnb
      have vt := htips hnb
      split
      · obtain ⟨t, ht⟩ := bufBytes_cells (q.conWrite start) ms bp vt
        obtain ⟨x, hx⟩ := bufBytes_cells
          ((((q.conWrite start).conWrite t).conWrite levelStyleEnd.toList).conWrite " ".toList)
          ms bp htext
        exact ⟨((((q.conWrite start).conWrite t).conWrite levelStyleEnd.toList).conWrite
          " ".toList).conWrite x,
          (((((Same.sameRefl q).conWrite start).conWrite t).conWrite _).conWrite _).conWrite x,
          by simp only [hstart, Outcome.bind_ok, Outcome.pure_eq, conWrite_cells, ht, hx]⟩
      · split
        · rename_i hd
          have vs := hstack hd
          obtain ⟨t, ht⟩ := bufBytes_cells (q.conWrite start) ms bp vt
          obtain ⟨s, hs⟩ := bufBytes_cells
            ((((q.conWrite start).conWrite t).conWrite levelStyleEnd.toList).conWrite " ".toList)
            ms bp vs
          obtain ⟨x, hx⟩ := bufBytes_cells
            ((((((q.conWrite start).conWrite t).conWrite levelStyleEnd.toList).conWrite
              " ".toList).conWrite s).conWrite " ".toList) ms bp htext
          exact ⟨((((((q.conWrite start).conWrite t).conWrite levelStyleEnd.toList).conWrite
            " ".toList).conWrite s).conWrite " ".toList).conWrite x,
            (((((((Same.sameRefl q).conWrite start).conWrite t).conWrite _).conWrite _).conWrite
              s).conWrite _).conWrite x,
            by simp only [hstart, Outcome.bind_ok, Outcome.pure_eq, conWrite_cells, ht, hs, hx]⟩
        · exact ⟨q, Same.sameRefl q, rfl⟩
  · exact ⟨q, Same.sameRefl q, rfl⟩

/-- The callback block returns on a valid message pointer. -/
theorem groPusher.pushCallback_cells (q : groPusher) {ms : List groMsg} (bs : List Bytes)
    (bp : List (Option Nat)) {m : Nat} {c : groMsg} (hm : ms[m]? = some c) :
    ∃ q1, Same q q1 ∧ (q.withCells ms bs bp).pushCallback m = .ok (q1.withCells ms bs bp) := by
  unfold groPusher.pushCallback
  split
  · simp only
    split
    · refine ⟨{ q with launched := q.launched ++ [m],
                       callbacks := q.callbacks ++ [(c.level,
                         (q.withCells ms bs bp).bufString c.text)] }, ⟨rfl, rfl, rfl, rfl⟩, ?_⟩
      have : ({ q.withCells ms bs bp with launched := (q.withCells ms bs bp).launched ++ [m] }
          : groPusher).msg (some m) = .ok c := by
        simp only [groPusher.msg, groPusher.withCells, List.get?_eq_getElem?, hm]
      simp only [groPusher.callbackBody, this]
      rfl
    · exact ⟨{ q with launched := q.launched ++ [m], pending := q.pending ++ [m] },
        ⟨rfl, rfl, rfl, rfl⟩, rfl⟩
  · exact ⟨q, Same.sameRefl q, rfl⟩

/-- The recycling block returns when the buffers of the style are valid,
and leaves a sound pool. -/
theorem groPusher.recycle_cells (q : groPusher) (ms : List groMsg) {bs : List Bytes}
    {bp : List (Option Nat)} {msg : groMsg} (hpool : PoolOk bs bp) (htext : PtrOk bs msg.text)
    (htips : q.config.Style ≠ StyleBasic → PtrOk bs msg.tips)
    (hstack : q.config.Style = StyleDetail → PtrOk bs msg.stack) :
    ∃ bs1 bp1, bs1.length = bs.length ∧ PoolOk bs1 bp1
      ∧ (q.withCells ms bs bp).recycle msg = .ok (q.withCells ms bs1 bp1) := by
  unfold groPusher.recycle
  split
  · obtain ⟨b1, l1, e1⟩ := bufReset_cells q ms bp htext
    refine ⟨b1, msg.text :: bp, l1, ?_, by simp only [e1, Outcome.bind_ok, Outcome.pure_eq,
      bufferPut_cells]⟩
    exact PoolOk.cons (htext.ptrMono (le_of_eq l1.symm)) (hpool.poolMono (le_of_eq l1.symm))
  · rename_i hnb
    have vt := htips hnb
    split
    · obtain ⟨b1, l1, e1⟩ := bufReset_cells q ms bp vt
      obtain ⟨b2, l2, e2⟩ := bufReset_cells q ms bp (htext.ptrMono (le_of_eq l1.symm))
      have l2' := l2.trans l1
      refine ⟨b2, msg.text :: msg.tips :: bp, l2', ?_, by simp only [e1, e2, Outcome.bind_ok,
        Outcome.pure_eq, bufferPut_cells]⟩
      exact PoolOk.cons (htext.ptrMono (le_of_eq l2'.symm))
        (PoolOk.cons (vt.ptrMono (le_of_eq l2'.symm)) (hpool.poolMono (le_of_eq l2'.symm)))
    · split
      · rename_i hd
        have vs := hstack hd
        obtain ⟨b1, l1, e1⟩ := bufReset_cells q ms bp vt
        obtain ⟨b2, l2, e2⟩ := bufReset_cells q ms bp (htext.ptrMono (le_of_eq l1.symm))
        have l2' := l2.trans l1
        obtain ⟨b3, l3, e3⟩ := bufReset_cells q ms bp (vs.ptrMono (le_of_eq l2'.symm))
        have l3' := l3.trans l2'
        refine ⟨b3, msg.stack :: msg.text :: msg.tips :: bp, l3', ?_, by simp only [e1, e2, e3,
          Outcome.bind_ok, Outcome.pure_eq, bufferPut_cells]⟩
        exact PoolOk.cons (vs.ptrMono (le_of_eq l3'.symm))
          (PoolOk.cons (htext.ptrMono (le_of_eq l3'.symm))
            (PoolOk.cons (vt.ptrMono (le_of_eq l3'.symm)) (hpool.poolMono (le_of_eq l3'.symm))))
      · exact ⟨bs, bp, rfl, hpool, rfl⟩

theorem groPusher.pushFatal_cells (q : groPusher) (ms : List groMsg) (bs : List Bytes)
    (bp : List (Option Nat)) (panicking : Option String) (msg : groMsg) :
    ∃ q1, Same q q1
      ∧ (q.withCells ms bs bp).pushFatal panicking msg = q1.withCells ms bs bp := by
  unfold groPusher.pushFatal
  split
  · exact ⟨{ q with fatals := q.fatals ++ [goRecover panicking false] }, ⟨rfl, rfl, rfl, rfl⟩, rfl⟩
  · exact ⟨q, Same.sameRefl q, rfl⟩

/-- With the file sink off, `push` returns on a sound heap, for every fuel. -/
theorem groPusher.push_cells (fuel : Nat) (panicking : Option String) (q : groPusher)
    {ms : List groMsg} {bs : List Bytes} {bp : List (Option Nat)} {m : Nat} {msg : groMsg}
    (hopen : q.closed = false) (hsink : q.storage = none)
    (hm : ms[m]? = some msg) (hpool : PoolOk bs bp)
    (h0 : LevelVerBose ≤ msg.level) (h1 : msg.level ≤ LevelFatal) (htext : PtrOk bs msg.text)
    (htips : q.config.Style ≠ StyleBasic → PtrOk bs msg.tips)
    (hstack : q.config.Style = StyleDetail → PtrOk bs msg.stack) :
    ∃ q1 bs1 bp1, Same q q1 ∧ PoolOk bs1 bp1
      ∧ (q.withCells ms bs bp).push fuel panicking m = .ok (q1.withCells ms bs1 bp1) := by
  obtain ⟨qa, sa, ea⟩ := pushConsole_cells q ms bp h0 h1 htext htips hstack
  have hst : (qa.withCells ms bs bp).pushStorage fuel msg = .ok (qa.withCells ms bs bp) := by
    have : (qa.withCells ms bs bp).storage = none := sa.2.2.1.trans hsink
    simp [groPusher.pushStorage, this]
  obtain ⟨qb, sb, eb⟩ := pushCallback_cells qa bs bp hm
  have sab := sa.sameTrans sb
  obtain ⟨bs1, bp1, l1, pool1, ec⟩ := recycle_cells qb ms hpool htext
    (fun h => htips (by rw [← sab.2.1]; exact h)) (fun h => hstack (by rw [← sab.2.1]; exact h))
  obtain ⟨qc, sc, ed⟩ := pushFatal_cells qb ms bs1 bp1 panicking msg
  refine ⟨qc, bs1, bp1, sab.sameTrans sc, pool1, ?_⟩
  have hclosed : (q.withCells ms bs bp).closed = false := hopen
  simp only [groPusher.push, hclosed, Bool.false_eq_true, if_false, msg_cells q bs bp hm,
    Outcome.bind_ok, ea, hst, eb, ec, Outcome.pure_eq, ed]

theorem getElem?_append_length {α : Type} (l : List α) (a : α) :
    (l ++ [a])[l.length]? = some a := by
  simp

theorem groHandlerSync.emit_total (fuel : Nat) {h : groHandlerSync} (site : Site)
    {level : Int} (layer : Int) (text : Bytes) (hs : h.Sound)
    (h0 : LevelVerBose ≤ level) (h1 : level ≤ LevelFatal) :
    ∃ h2, h.emit fuel site level layer text = .ok h2 ∧ h2.Sound := by
  obtain ⟨ms1, bs1, bp1, c1, ea, _, hm1, hlevel, pool1, vtext, vtips, vstack⟩ :=
    groPusher.assign_cells h.pusher site level layer
      (getElem?_append_length h.pusher.msgs groMsg.zero)
      hs.pool h0 h1 hs.style
  obtain ⟨bs2, l2, eb⟩ := groPusher.bufWrite_cells h.pusher ms1 bp1 text vtext
  have le2 : bs1.length ≤ bs2.length := le_of_eq l2.symm
  obtain ⟨q1, bs3, bp3, same, pool3, ec⟩ := groPusher.push_cells fuel site.panicking h.pusher
    hs.isOpen hs.sink hm1 (pool1.poolMono le2) (by rw [hlevel]; exact h0) (by rw [hlevel]; exact h1)
    (vtext.ptrMono le2) (fun hne => (vtips hne).ptrMono le2) (fun hd => (vstack hd).ptrMono le2)
  refine ⟨{ h with pusher := q1.withCells ms1 bs3 bp3 }, ?_, ?_⟩
  · have hn : h.pusher.newMsg
        = (h.pusher.withCells (h.pusher.msgs ++ [groMsg.zero]) h.pusher.bufs h.pusher.bufferPool,
            h.pusher.msgs.length) := rfl
    simp only [groHandlerSync.emit, hn, ea, Outcome.bind_ok, groPusher.msg_cells h.pusher bs1 bp1 hm1,
      eb, ec, Outcome.pure_eq]
  · exact ⟨same.1.trans hs.isOpen, same.2.2.1.trans hs.sink, pool3, by
      show q1.config.Style = _ ∨ q1.config.Style = _ ∨ q1.config.Style = _
      rw [same.2.1]; exact hs.style⟩

theorem groHandlerSync.call_total (fuel : Nat) {h : groHandlerSync} (c : Call) (hs : h.Sound)
    (h0 : LevelVerBose ≤ c.level) (h1 : c.level ≤ LevelFatal) :
    ∃ h2, h.call fuel c = .ok h2 ∧ h2.Sound := by
  unfold groHandlerSync.call
  split
  · unfold groHandlerSync.Log
    split
    · exact ⟨h, rfl, hs⟩
    · exact emit_total fuel c.site c.layer _ hs h0 h1
  · unfold groHandlerSync.Logln
    split
    · exact ⟨h, rfl, hs⟩
    · exact emit_total fuel c.site c.layer _ hs h0 h1
  · unfold groHandlerSync.Logf
    split
    · exact ⟨h, rfl, hs⟩
    · exact emit_total fuel c.site c.layer _ hs h0 h1

theorem groHandlerSync.run_total (fuel : Nat) (calls : List Call) :
    ∀ h : groHandlerSync, h.Sound →
      (∀ c ∈ calls, LevelVerBose ≤ c.level ∧ c.level ≤ LevelFatal) →
      ∃ h2, h.run fuel calls = .ok h2 := by
  induction calls with
  | nil => intro h _ _; exact ⟨h, rfl⟩
  | cons c rest ih =>
    intro h hs hlev
    obtain ⟨h2, e2, s2⟩ := call_total fuel c hs (hlev c (by simp)).1 (hlev c (by simp)).2
    obtain ⟨h3, e3⟩ := ih h2 s2 (fun d hd => hlev d (by simp [hd]))
    exact ⟨h3, by simp only [groHandlerSync.run, e2, e3]⟩

theorem World.store_released (w : World) (path : String) (data : Bytes) :
    (w.store path data).released = w.released := by
  unfold World.store
  split <;> rfl

theorem osWrite_released (w : World) (f : OsFile) (b : Bytes) :
    (osWrite w f b).1.released = w.released := by
  unfold osWrite
  split
  · rfl
  · split
    · rfl
    · split <;> simp [World.store_released]

theorem BufWriter.flush_released (o : BufWriter) (w : World) (f : OsFile) :
    (o.flush w f).2.1.released = w.released := by
  unfold BufWriter.flush
  split
  · rfl
  · split
    · rfl
    · have h := osWrite_released w f o.buf
      split <;> rename_i heq <;> simp [heq] at h <;> simpa using h

/-- A storage without a writer: `Close`, `Flush` and `Write` return it as it is. -/
theorem groStorage.inert_of_no_writer (s : groStorage) (h : s.out = none) (fuel : Nat) (b : Bytes) :
    s.Close = .ok s ∧ s.Flush = .ok s ∧ s.Write fuel b = .ok s := by
  simp [groStorage.Close, groStorage.Flush, groStorage.Write, h]

/-- The method `Close` of the storage always returns, and leaves no writer. -/
theorem groStorage.storage_Close_spec (s : groStorage) :
    ∃ s1, s.Close = .ok s1 ∧ s1.out = none ∧ (s.out.isSome = s.file.isSome → s1.file = none)
      ∧ s1.world.released ≤ s.world.released + 1 := by
  cases hout : s.out with
  | none =>
    refine ⟨s, by simp [groStorage.Close, hout], hout, ?_, by omega⟩
    intro hwf
    cases hf : s.file with
    | none => rfl
    | some f => rw [hf] at hwf; simp at hwf
  | some o =>
    cases hf : s.file with
    | none =>
      exact ⟨_, by simp [groStorage.Close, groStorage.closeFile, groStorage.flushOut, hout, hf]; rfl,
        rfl, fun _ => rfl, by simp⟩
    | some f =>
      have hrel := BufWriter.flush_released o s.world f
      rcases hfl : o.flush s.world f with ⟨o1, w1, f1⟩
      rw [hfl] at hrel
      refine ⟨_, by simp [groStorage.Close, groStorage.closeFile, groStorage.flushOut, hout, hf, hfl]; rfl,
        rfl, fun _ => rfl, ?_⟩
      simp at hrel
      simp [osClose, hrel]

/-- The method `Close` of the pusher always returns a closed pusher. -/
theorem groPusher.pusher_Close_spec (p : groPusher) :
    ∃ p1, p.Close = .ok p1 ∧ p1.closed = true
      ∧ (p.closed = false → ∀ st1, p1.storage = some st1 → st1.out = none) := by
  cases hc : p.closed with
  | true => exact ⟨p, by simp [groPusher.Close, hc], hc, by simp⟩
  | false =>
    cases hst : p.storage with
    | none => exact ⟨_, by simp [groPusher.Close, hc, hst]; rfl, rfl, by simp⟩
    | some st =>
      obtain ⟨st1, h1, h2, _, _⟩ := groStorage.storage_Close_spec st
      refine ⟨{ p with storage := some st1, closed := true }, by simp [groPusher.Close, hc, hst, h1],
        rfl, ?_⟩
      intro _ st2 h
      simp at h
      rw [← h]; exact h2

theorem rot_logName (s : groStorage) (num : Int) (hc : s.config = rotConfig)
    (hn : s.currFileNum = num) (h01 : num = 0 ∨ num = 1) : s.logName = rotPath num := by
  unfold groStorage.logName
  rw [hc, hn]
  rcases h01 with rfl | rfl <;> decide

theorem full_lookup (w : World) (num : Int) (hf : w.files = fullFiles) (h01 : num = 0 ∨ num = 1) :
    ∃ e, w.lookup (rotPath num) = some e ∧ e.isDir = false ∧ e.data.length = 4 := by
  unfold World.lookup
  rw [hf]
  rcases h01 with rfl | rfl
  · exact ⟨{ path := "log/app.log", isDir := false, modTime := 0, data := "ijAB".toList },
      by decide, rfl, by decide⟩
  · exact ⟨{ path := "log/app(1).log", isDir := false, modTime := 0, data := "efgh".toList },
      by decide, rfl, by decide⟩

theorem full_open (w : World) (num : Int) (hf : w.files = fullFiles) (hu : w.unopenable = [])
    (h01 : num = 0 ∨ num = 1) :
    w.exists (rotPath num) = true
      ∧ osOpenFile w (rotPath num) (O_CREATE ||| O_WRONLY)
          = some (w, { path := rotPath num, flag := O_CREATE ||| O_WRONLY, offset := 0 })
      ∧ osFileSize w { path := rotPath num, flag := O_CREATE ||| O_WRONLY, offset := 0 } = 4 := by
  obtain ⟨e, he, hdir, hlen⟩ := full_lookup w num hf h01
  refine ⟨by simp [World.exists, he], ?_, ?_⟩
  · have hflag : ¬ ((O_CREATE ||| O_WRONLY) &&& O_TRUNC ≠ 0 ∧ (O_CREATE ||| O_WRONLY) &&& 3 ≠ O_RDONLY) := by
      decide
    simp only [osOpenFile, hu, List.not_mem_nil, if_false, he, hdir, Bool.false_and,
      Bool.false_eq_true, hflag]
  · simp only [osFileSize, he, hlen]
    rfl

theorem open_full (s : groStorage) (num : Int) (hc : s.config = rotConfig)
    (hn : s.currFileNum = num) (hf : s.world.files = fullFiles) (hu : s.world.unopenable = [])
    (h01 : num = 0 ∨ num = 1) :
    s.open true
      = ({ s with file := some { path := rotPath num, flag := O_CREATE ||| O_WRONLY, offset := 0 },
                  out := some { buf := [], size := 4096, err := false },
                  currFileSize := 4 }, false) := by
  obtain ⟨hex, hopen, hsize⟩ := full_open s.world num hf hu h01
  have hw : newWriterSize rotConfig.MaxWriteBuffer = { buf := [], size := 4096, err := false } := by
    decide
  unfold groStorage.open
  simp only [rot_logName s num hc hn h01, if_true, hex, hopen, hsize, hc, hw]

theorem spin_next (r : Nat) (num size : Int) (h01 : num = 0 ∨ num = 1) :
    (spinState r num size).nextFile = .ok (spinState (r + 1) (1 - num) 4, false) := by
  have hclose : (spinState r num size).closeFile
      = .ok { spinState (r + 1) num size with out := none, file := none } := rfl
  have h01' : 1 - num = 0 ∨ 1 - num = 1 := by omega
  have hnum : ({ spinState (r + 1) num size with out := none, file := none } :
      groStorage).nextFileNum.retention
      = { spinState (r + 1) (1 - num) size with out := none, file := none } := by
    rcases h01 with rfl | rfl <;> rfl
  have hop := open_full
    ({ spinState (r + 1) (1 - num) size with out := none, file := none } : groStorage) (1 - num)
    rfl rfl rfl rfl h01'
  simp only [groStorage.nextFile, hclose, hnum, hop]
  rfl

/-- Once every rotation file is full, the loop of `Write` never ends. -/
theorem spin_forever (fuel : Nat) :
    ∀ (r : Nat) (num size : Int) (b : Bytes), (num = 0 ∨ num = 1) → 0 < size →
      (spinState r num 4).writeLoop fuel b size = .outOfFuel := by
  induction fuel with
  | zero =>
    intro r num size b _ hsize
    simp only [groStorage.writeLoop, gt_iff_lt, hsize, if_true]
  | succ n ih =>
    intro r num size b h01 hsize
    have hav : ¬ size < rotConfig.MaxFileSize - 4 := by
      have : rotConfig.MaxFileSize - 4 = 0 := by decide
      rw [this]; omega
    have hpanic : ¬ (rotConfig.MaxFileSize - 4 < 0 ∨ (b.length : Int) < rotConfig.MaxFileSize - 4) := by
      have : rotConfig.MaxFileSize - 4 = 0 := by decide
      rw [this]; omega
    have htake : (rotConfig.MaxFileSize - 4).toNat = 0 := by decide
    have hwrite : ∀ x : Bytes, x = [] →
        (spinState r num 4).outWrite x = .ok (spinState r num 4) := by
      intro x hx; subst hx; rfl
    have hnext := spin_next r num (4 + size) h01
    have h01' : 1 - num = 0 ∨ 1 - num = 1 := by omega
    have hrec := ih (r + 1) (1 - num) size b h01' hsize
    rw [groStorage.writeLoop]
    simp only [gt_iff_lt, hsize, if_true]
    show (if size < rotConfig.MaxFileSize - 4 then _ else
      if rotConfig.MaxFileSize - 4 < 0 ∨ (b.length : Int) < rotConfig.MaxFileSize - 4 then _
      else _) = _
    simp only [hav, hpanic, if_false, htake, List.take_zero, List.drop_zero,
      hwrite [] rfl]
    show (match ({ spinState r num 4 with currFileSize := 4 + size } : groStorage).nextFile with
      | .ok (s3, true) => _
      | .ok (s3, false) => _
      | .panicked => _
      | .outOfFuel => _) = _
    have hsame : ({ spinState r num 4 with currFileSize := 4 + size } : groStorage)
        = spinState r num (4 + size) := rfl
    rw [hsame, hnext]
    have hz : (spinState r num 4).config.MaxFileSize - (spinState r num 4).currFileSize = 0 :=
      show rotConfig.MaxFileSize - 4 = 0 by decide
    rw [hz]
    simpa using hrec

/-- One iteration of the loop of `Write` that fills the current file and
rotates with success. -/
theorem groStorage.writeLoop_rotate (fuel : Nat) (s s1 s3 : groStorage) (b : Bytes) (size : Int)
    (hsize : 0 < size) (hav : ¬ size < s.config.MaxFileSize - s.currFileSize)
    (hnp : ¬ (s.config.MaxFileSize - s.currFileSize < 0
      ∨ (b.length : Int) < s.config.MaxFileSize - s.currFileSize))
    (hw : s.outWrite (b.take (s.config.MaxFileSize - s.currFileSize).toNat) = .ok s1)
    (hn : ({ s1 with currFileSize := s1.currFileSize + size } : groStorage).nextFile
      = .ok (s3, false)) :
    s.writeLoop (fuel + 1) b size
      = s3.writeLoop fuel (b.drop (s.config.MaxFileSize - s.currFileSize).toNat)
          (size - (s.config.MaxFileSize - s.currFileSize)) := by
  rw [groStorage.writeLoop]
  simp only [gt_iff_lt, hsize, if_true, hav, hnp, if_false, hw, hn]

theorem wrapped_reached :
    (newStorage rotConfig emptyWorld).Write 3 "abcdefghij".toList = .ok wrappedState := by
  decide

theorem wrapped_spins (fuel : Nat) :
    wrappedState.Write fuel "ABCDEFGHIJ".toList = .outOfFuel := by
  have hloop : wrappedState.writeLoop fuel "ABCDEFGHIJ".toList 10 = .outOfFuel := by
    cases fuel with
    | zero => rfl
    | succ n =>
      rw [groStorage.writeLoop_rotate n wrappedState
        { wrappedState with out := some { buf := "AB".toList, size := 4096, err := false } }
        (spinState 3 1 4) "ABCDEFGHIJ".toList 10 (by decide) (by decide) (by decide) (by decide)
        (by decide)]
      exact spin_forever n 3 1 _ _ (Or.inr rfl) (by decide)
  have hout : wrappedState.out.isNone = false := rfl
  have hlen : (("ABCDEFGHIJ".toList.length : Nat) : Int) = 10 := by decide
  simp only [groStorage.Write, hout, Bool.false_eq_true, if_false, hlen, hloop]

/-! ### Schedules -/

theorem Program.run_append (fuel : Nat) (xs ys : List Nat) :
    ∀ sys : Program, sys.run fuel (xs ++ ys) = (sys.run fuel xs).bind (fun s => s.run fuel ys) := by
  induction xs with
  | nil => intro sys; rfl
  | cons x rest ih =>
    intro sys
    simp only [List.cons_append, Program.run]
    cases h : sys.step fuel x with
    | ok s1 => exact ih s1
    | panicked => rfl
    | outOfFuel => rfl

/-- A step of a thread that changes neither the channel nor the set of
goroutines. -/
theorem Program.step_of (fuel : Nat) (sys : Program) (tid : Nat) (t t1 : Thread)
    (h1 : groHandlerAsyn)
    (hth : sys.threads.get? tid = some t)
    (hst : stepThread fuel sys.handler t
      = .ok { handler := h1, thread := t1, spawned := [], sent := [] }) :
    sys.step fuel tid = .ok { sys with handler := h1, threads := sys.threads.set tid t1 } := by
  simp only [Program.step, hth, hst, List.append_nil]

theorem get?_set_self {α : Type} (l : List α) (i : Nat) (a b : α) (h : l.get? i = some a) :
    (l.set i b).get? i = some b := by
  rw [List.get?_eq_getElem?] at h ⊢
  have hlt : i < l.length := by
    rcases Nat.lt_or_ge i l.length with hlt | hge
    · exact hlt
    · rw [List.getElem?_eq_none hge] at h; cases h
  simp [List.getElem?_set_self hlt]

/-- Empty polls below the idle threshold only count. -/
theorem Program.poll_idle (fuel : Nat) (tid : Nat) (n : Nat) :
    ∀ (sys : Program) (idle retry : Int),
      sys.threads.get? tid = some (.worker .poll idle retry) →
      sys.handler.msgs = [] → sys.handler.msgsClosed = false → idle + (n + 1 : Nat) ≤ 100 →
      sys.run fuel (List.replicate (n + 1) tid)
        = .ok { sys with threads := sys.threads.set tid (.worker .poll (idle + (n + 1 : Nat)) 0) } := by
  induction n with
  | zero =>
    intro sys idle retry hth hm hc hle
    have hlt : ¬ idle + 1 > 100 := by omega
    have hst : stepThread fuel sys.handler (.worker .poll idle retry)
        = .ok { handler := sys.handler, thread := .worker .poll (idle + 1) 0, spawned := [],
                sent := [] } := by
      simp only [stepThread, stepWorker, hm, hc, Bool.false_eq_true, if_false, hlt]
    have := Program.step_of fuel sys tid _ _ _ hth hst
    simp only [List.replicate, Program.run, this]
    simp
  | succ k ih =>
    intro sys idle retry hth hm hc hle
    have hlt : ¬ idle + 1 > 100 := by omega
    have hst : stepThread fuel sys.handler (.worker .poll idle retry)
        = .ok { handler := sys.handler, thread := .worker .poll (idle + 1) 0, spawned := [],
                sent := [] } := by
      simp only [stepThread, stepWorker, hm, hc, Bool.false_eq_true, if_false, hlt]
    have hs := Program.step_of fuel sys tid _ _ _ hth hst
    have hrec := ih { sys with handler := sys.handler,
                               threads := sys.threads.set tid (.worker .poll (idle + 1) 0) }
      (idle + 1) 0 (get?_set_self _ _ _ _ hth) hm hc (by push_cast at hle ⊢; omega)
    rw [List.replicate_succ, Program.run, hs]
    simp only [hrec, List.set_set]
    have : idle + 1 + ((k + 1 : Nat) : Int) = idle + ((k + 1 + 1 : Nat) : Int) := by
      push_cast; omega
    rw [this]

/-- A timer goroutine that has returned never moves again. -/
theorem Program.flusher_exited_stays (fuel : Nat) (n : Nat) (sys : Program)
    (h : sys.threads = [.flusher .exited]) :
    sys.run fuel (List.replicate n 0) = .ok sys := by
  induction n with
  | zero => rfl
  | succ k ih =>
    have hs : sys.step fuel 0 = .ok sys := by
      cases sys with
      | mk hd th acc =>
        simp only at h
        subst h
        simp [Program.step, stepThread, stepFlusher]
    simp only [List.replicate_succ, Program.run, hs, ih]

theorem SyncTimer.exited_stays (n : Nat) (t : SyncTimer) (h : t.pc = .exited) :
    t.run n = .ok t := by
  induction n with
  | zero => rfl
  | succ k ih =>
    have hs : stepSyncFlusher t = .ok t := by simp [stepSyncFlusher, h]
    simp only [SyncTimer.run, hs, ih]

theorem SyncTimer.run_add (n k : Nat) :
    ∀ t : SyncTimer, t.run (n + k) = (t.run n).bind (fun s => s.run k) := by
  induction n with
  | zero => intro t; simp [SyncTimer.run, Outcome.bind]
  | succ m ih =>
    intro t
    have : m + 1 + k = (m + k) + 1 := by omega
    rw [this]
    simp only [SyncTimer.run]
    cases h : stepSyncFlusher t with
    | ok t1 => simp only [ih t1]
    | panicked => rfl
    | outOfFuel => rfl

/-! ### The method `init` -/

theorem Config.initLevel_fields (c : Config) :
    c.initLevel.Level = (if LevelVerBose ≤ c.Level ∧ c.Level ≤ LevelFatal then c.Level else LevelWarning)
      ∧ c.initLevel.Style = c.Style
      ∧ c.initLevel.MaxAsynExec = c.MaxAsynExec
      ∧ c.initLevel.MaxAsynBuffer = c.MaxAsynBuffer
      ∧ c.initLevel.MaxWriteBuffer = c.MaxWriteBuffer
      ∧ c.initLevel.MaxFileCount = c.MaxFileCount
      ∧ c.initLevel.MaxFileSize = c.MaxFileSize
      ∧ c.initLevel.FileName = c.FileName := by
  unfold Config.initLevel
  split
  · rename_i h
    have hn : ¬ (LevelVerBose ≤ c.Level ∧ c.Level ≤ LevelFatal) := by omega
    refine ⟨?_, rfl, rfl, rfl, rfl, rfl, rfl, rfl⟩
    simp only [hn, if_false]; rfl
  · rename_i h
    have hp : LevelVerBose ≤ c.Level ∧ c.Level ≤ LevelFatal := by omega
    refine ⟨?_, rfl, rfl, rfl, rfl, rfl, rfl, rfl⟩
    simp only [hp, and_self, if_true]

theorem Config.initStyle_fields (c : Config) :
    c.initStyle.Level = c.Level
      ∧ c.initStyle.Style = (if StyleBasic ≤ c.Style ∧ c.Style ≤ StyleDetail then c.Style else StyleBrief)
      ∧ c.initStyle.MaxAsynExec = c.MaxAsynExec
      ∧ c.initStyle.MaxAsynBuffer = c.MaxAsynBuffer
      ∧ c.initStyle.MaxWriteBuffer = c.MaxWriteBuffer
      ∧ c.initStyle.MaxFileCount = c.MaxFileCount
      ∧ c.initStyle.MaxFileSize = c.MaxFileSize
      ∧ c.initStyle.FileName = c.FileName := by
  unfold Config.initStyle
  split
  · rename_i h
    have hn : ¬ (StyleBasic ≤ c.Style ∧ c.Style ≤ StyleDetail) := by omega
    refine ⟨rfl, ?_, rfl, rfl, rfl, rfl, rfl, rfl⟩
    simp only [hn, if_false]; rfl
  · rename_i h
    have hp : StyleBasic ≤ c.Style ∧ c.Style ≤ StyleDetail := by omega
    refine ⟨rfl, ?_, rfl, rfl, rfl, rfl, rfl, rfl⟩
    simp only [hp, and_self, if_true]

theorem Config.initMaxAsynExec_fields (c : Config) :
    c.initMaxAsynExec.Level = c.Level
      ∧ c.initMaxAsynExec.Style = c.Style
      ∧ c.initMaxAsynExec.MaxAsynExec = (if c.MaxAsynExec > 0 then c.MaxAsynExec else 100)
      ∧ c.initMaxAsynExec.MaxAsynBuffer = c.MaxAsynBuffer
      ∧ c.initMaxAsynExec.MaxWriteBuffer = c.MaxWriteBuffer
      ∧ c.initMaxAsynExec.MaxFileCount = c.MaxFileCount
      ∧ c.initMaxAsynExec.MaxFileSize = c.MaxFileSize
      ∧ c.initMaxAsynExec.FileName = c.FileName := by
  unfold Config.initMaxAsynExec
  split
  · rename_i h
    have hn : ¬ (c.MaxAsynExec > 0) := by omega
    refine ⟨rfl, rfl, ?_, rfl, rfl, rfl, rfl, rfl⟩
    simp only [hn, if_false]; rfl
  · rename_i h
    have hp : c.MaxAsynExec > 0 := by omega
    refine ⟨rfl, rfl, ?_, rfl, rfl, rfl, rfl, rfl⟩
    simp only [hp, and_self, if_true]

theorem Config.initMaxAsynBuffer_fields (c : Config) :
    c.initMaxAsynBuffer.Level = c.Level
      ∧ c.initMaxAsynBuffer.Style = c.Style
      ∧ c.initMaxAsynBuffer.MaxAsynExec = c.MaxAsynExec
      ∧ c.initMaxAsynBuffer.MaxAsynBuffer = (if c.MaxAsynBuffer ≥ 0 then c.MaxAsynBuffer else 128)
      ∧ c.initMaxAsynBuffer.MaxWriteBuffer = c.MaxWriteBuffer
      ∧ c.initMaxAsynBuffer.MaxFileCount = c.MaxFileCount
      ∧ c.initMaxAsynBuffer.MaxFileSize = c.MaxFileSize
      ∧ c.initMaxAsynBuffer.FileName = c.FileName := by
  unfold Config.initMaxAsynBuffer
  split
  · rename_i h
    have hn : ¬ (c.MaxAsynBuffer ≥ 0) := by omega
    refine ⟨rfl, rfl, rfl, ?_, rfl, rfl, rfl, rfl⟩
    simp only [hn, if_false]; rfl
  · rename_i h
    have hp : c.MaxAsynBuffer ≥ 0 := by omega
    refine ⟨rfl, rfl, rfl, ?_, rfl, rfl, rfl, rfl⟩
    simp only [hp, and_self, if_true]

theorem Config.initMaxWriteBuffer_fields (c : Config) :
    c.initMaxWriteBuffer.Level = c.Level
      ∧ c.initMaxWriteBuffer.Style = c.Style
      ∧ c.initMaxWriteBuffer.MaxAsynExec = c.MaxAsynExec
      ∧ c.initMaxWriteBuffer.MaxAsynBuffer = c.MaxAsynBuffer
      ∧ c.initMaxWriteBuffer.MaxWriteBuffer = (if c.MaxWriteBuffer ≥ 0 then c.MaxWriteBuffer else 4096)
      ∧ c.initMaxWriteBuffer.MaxFileCount = c.MaxFileCount
      ∧ c.initMaxWriteBuffer.MaxFileSize = c.MaxFileSize
      ∧ c.initMaxWriteBuffer.FileName = c.FileName := by
  unfold Config.initMaxWriteBuffer
  split
  · rename_i h
    have hn : ¬ (c.MaxWriteBuffer ≥ 0) := by omega
    refine ⟨rfl, rfl, rfl, rfl, ?_, rfl, rfl, rfl⟩
    simp only [hn, if_false]; rfl
  · rename_i h
    have hp : c.MaxWriteBuffer ≥ 0 := by omega
    refine ⟨rfl, rfl, rfl, rfl, ?_, rfl, rfl, rfl⟩
    simp only [hp, and_self, if_true]

theorem Config.initMaxFileCount_fields (c : Config) :
    c.initMaxFileCount.Level = c.Level
      ∧ c.initMaxFileCount.Style = c.Style
      ∧ c.initMaxFileCount.MaxAsynExec = c.MaxAsynExec
      ∧ c.initMaxFileCount.MaxAsynBuffer = c.MaxAsynBuffer
      ∧ c.initMaxFileCount.MaxWriteBuffer = c.MaxWriteBuffer
      ∧ c.initMaxFileCount.MaxFileCount = (if c.MaxFileCount > 0 then c.MaxFileCount else 5)
      ∧ c.initMaxFileCount.MaxFileSize = c.MaxFileSize
      ∧ c.initMaxFileCount.FileName = c.FileName := by
  unfold Config.initMaxFileCount
  split
  · rename_i h
    have hn : ¬ (c.MaxFileCount > 0) := by omega
    refine ⟨rfl, rfl, rfl, rfl, rfl, ?_, rfl, rfl⟩
    simp only [hn, if_false]; rfl
  · rename_i h
    have hp : c.MaxFileCount > 0 := by omega
    refine ⟨rfl, rfl, rfl, rfl, rfl, ?_, rfl, rfl⟩
    simp only [hp, and_self, if_true]

theorem Config.initMaxFileSize_fields (c : Config) :
    c.initMaxFileSize.Level = c.Level
      ∧ c.initMaxFileSize.Style = c.Style
      ∧ c.initMaxFileSize.MaxAsynExec = c.MaxAsynExec
      ∧ c.initMaxFileSize.MaxAsynBuffer = c.MaxAsynBuffer
      ∧ c.initMaxFileSize.MaxWriteBuffer = c.MaxWriteBuffer
      ∧ c.initMaxFileSize.MaxFileCount = c.MaxFileCount
      ∧ c.initMaxFileSize.MaxFileSize = (if c.MaxFileSize > 0 then c.MaxFileSize else 5242880)
      ∧ c.initMaxFileSize.FileName = c.FileName := by
  unfold Config.initMaxFileSize
  split
  · rename_i h
    have hn : ¬ (c.MaxFileSize > 0) := by omega
    refine ⟨rfl, rfl, rfl, rfl, rfl, rfl, ?_, rfl⟩
    simp only [hn, if_false]; rfl
  · rename_i h
    have hp : c.MaxFileSize > 0 := by omega
    refine ⟨rfl, rfl, rfl, rfl, rfl, rfl, ?_, rfl⟩
    simp only [hp, and_self, if_true]

theorem Config.initFileDir_numbers (c : Config) (exe : Option String) :
    c.SameNumbers (c.initFileDir exe) ∧ (c.initFileDir exe).FileName = c.FileName := by
  unfold Config.initFileDir
  split <;> exact ⟨⟨rfl, rfl, rfl, rfl, rfl, rfl, rfl⟩, rfl⟩

theorem Config.initFileName_numbers (c c1 : Config) (exe : Option String)
    (h : c.initFileName exe = .ok c1) :
    c.SameNumbers c1 ∧ (exe = none → c1.FileName = c.FileName ∧ c.FileName ≠ "") := by
  unfold Config.initFileName at h
  split at h
  · split at h
    · cases h
    · cases h; exact ⟨⟨rfl, rfl, rfl, rfl, rfl, rfl, rfl⟩, fun hn => by cases hn⟩
  · rename_i hne
    cases h; exact ⟨⟨rfl, rfl, rfl, rfl, rfl, rfl, rfl⟩, fun _ => ⟨rfl, hne⟩⟩

theorem Config.initFileName_total (c : Config) (exe : Option String)
    (h : c.FileName ≠ "" ∨ exe.isSome = true) : ∃ c1, c.initFileName exe = .ok c1 := by
  unfold Config.initFileName
  split
  · rename_i he
    cases exe with
    | none =>
      rcases h with h | h
      · exact absurd he h
      · cases h
    | some p => exact ⟨_, rfl⟩
  · exact ⟨_, rfl⟩

theorem Config.initDurations_numbers (c : Config) :
    c.SameNumbers c.initDurations ∧ c.initDurations.FileName = c.FileName := by
  unfold Config.initDurations
  simp only
  split <;> split <;> (try split) <;> (try split) <;>
    exact ⟨⟨rfl, rfl, rfl, rfl, rfl, rfl, rfl⟩, rfl⟩

/-- The numeric fields and the name after the first seven statements of
`init`. -/
theorem Config.init_clamps (c : Config) :
    c.Defaulted
        c.initLevel.initStyle.initMaxAsynExec.initMaxAsynBuffer.initMaxWriteBuffer.initMaxFileCount.initMaxFileSize
      ∧ c.initLevel.initStyle.initMaxAsynExec.initMaxAsynBuffer.initMaxWriteBuffer.initMaxFileCount.initMaxFileSize.FileName
        = c.FileName := by
  simp only [Config.Defaulted, Config.initLevel_fields, Config.initStyle_fields,
    Config.initMaxAsynExec_fields, Config.initMaxAsynBuffer_fields,
    Config.initMaxWriteBuffer_fields, Config.initMaxFileCount_fields,
    Config.initMaxFileSize_fields, and_self]

theorem Config.Defaulted.inDomain {c d : Config} (h : c.Defaulted d) : d.InDomain := by
  obtain ⟨h1, h2, h3, h4, h5, h6, h7⟩ := h
  simp only [Config.InDomain, LevelVerBose, LevelFatal, StyleBasic, StyleDetail, LevelWarning,
    StyleBrief] at *
  refine ⟨?_, ?_, ?_, ?_, ?_, ?_, ?_, ?_, ?_⟩
  · rw [h1]; split <;> omega
  · rw [h1]; split <;> omega
  · rw [h2]; split <;> omega
  · rw [h2]; split <;> omega
  · rw [h3]; split <;> omega
  · rw [h4]; split <;> omega
  · rw [h5]; split <;> omega
  · rw [h6]; split <;> omega
  · rw [h7]; split <;> omega

/-- On a configuration in its domains the defaulting changes no numeric
field. -/
theorem Config.InDomain.defaulted_same {c d : Config} (hc : c.InDomain) (h : c.Defaulted d) :
    c.SameNumbers d := by
  obtain ⟨a1, a2, a3, a4, a5, a6, a7, a8, a9⟩ := hc
  obtain ⟨h1, h2, h3, h4, h5, h6, h7⟩ := h
  refine ⟨?_, ?_, ?_, ?_, ?_, ?_, ?_⟩
  · rw [h1, if_pos ⟨a1, a2⟩]
  · rw [h2, if_pos ⟨a3, a4⟩]
  · rw [h3, if_pos a5]
  · rw [h4, if_pos a6]
  · rw [h5, if_pos a7]
  · rw [h6, if_pos a8]
  · rw [h7, if_pos a9]

theorem Config.SameNumbers.numTrans {c d e : Config} (h1 : c.SameNumbers d)
    (h2 : d.SameNumbers e) : c.SameNumbers e := by
  obtain ⟨a1, a2, a3, a4, a5, a6, a7⟩ := h1
  obtain ⟨b1, b2, b3, b4, b5, b6, b7⟩ := h2
  exact ⟨b1.trans a1, b2.trans a2, b3.trans a3, b4.trans a4, b5.trans a5, b6.trans a6,
    b7.trans a7⟩

theorem Config.Defaulted.of_same {c d e : Config} (h : c.Defaulted d) (hs : d.SameNumbers e) :
    c.Defaulted e := by
  obtain ⟨h1, h2, h3, h4, h5, h6, h7⟩ := h
  obtain ⟨s1, s2, s3, s4, s5, s6, s7⟩ := hs
  exact ⟨s1.trans h1, s2.trans h2, s3.trans h3, s4.trans h4, s5.trans h5, s6.trans h6, s7.trans h7⟩

/-- What `init` returns, when it returns. -/
theorem Config.init_ok (c c1 : Config) (exe : Option String) (h : c.init exe = .ok c1) :
    c.Defaulted c1 ∧ (exe = none → c1.FileName ≠ "") := by
  unfold Config.init at h
  simp only at h
  split at h
  · rename_i c2 hname
    cases h
    obtain ⟨hclamp, hkeep⟩ := Config.init_clamps c
    obtain ⟨hdir, hdirName⟩ := Config.initFileDir_numbers
      c.initLevel.initStyle.initMaxAsynExec.initMaxAsynBuffer.initMaxWriteBuffer.initMaxFileCount.initMaxFileSize
      exe
    obtain ⟨hnum, hnone⟩ := Config.initFileName_numbers _ c2 exe hname
    obtain ⟨hdur, hdurName⟩ := Config.initDurations_numbers c2
    refine ⟨((hclamp.of_same hdir).of_same hnum).of_same hdur, ?_⟩
    intro he
    rw [hdurName, (hnone he).1]
    exact (hnone he).2
  · cases h
  · cases h

/-- The method `init` returns unless the name is empty and the path of the
executable cannot be determined. -/
theorem Config.init_total (c : Config) (exe : Option String)
    (h : c.FileName ≠ "" ∨ exe.isSome = true) : ∃ c1, c.init exe = .ok c1 := by
  obtain ⟨_, hkeep⟩ := Config.init_clamps c
  generalize hd : c.initLevel.initStyle.initMaxAsynExec.initMaxAsynBuffer.initMaxWriteBuffer.initMaxFileCount.initMaxFileSize
    = d at hkeep
  have hinit : c.init exe = (match (d.initFileDir exe).initFileName exe with
      | .ok c => .ok c.initDurations
      | .panicked => .panicked
      | .outOfFuel => .outOfFuel) := by
    rw [← hd]; rfl
  obtain ⟨_, hdirName⟩ := Config.initFileDir_numbers d exe
  have hx : (d.initFileDir exe).FileName ≠ "" ∨ exe.isSome = true := by
    rw [hdirName, hkeep]; exact h
  obtain ⟨c2, h2⟩ := Config.initFileName_total (d.initFileDir exe) exe hx
  exact ⟨c2.initDurations, by rw [hinit, h2]⟩

theorem init_example :
    brokenConfig.init (some "/usr/bin/app.exe") = .ok mendedConfig
    ∧ brokenConfig.init none = .panicked := by
  decide

/-! ### File names -/

theorem toDigitsCore_append (fuel : Nat) :
    ∀ (n : Nat) (ds : List Char),
      Nat.toDigitsCore 10 fuel n ds = Nat.toDigitsCore 10 fuel n [] ++ ds := by
  induction fuel with
  | zero => intro n ds; simp [Nat.toDigitsCore]
  | succ k ih =>
    intro n ds
    simp only [Nat.toDigitsCore]
    split
    · simp
    · rw [ih (n / 10) (Nat.digitChar (n % 10) :: ds), ih (n / 10) [Nat.digitChar (n % 10)]]
      simp

theorem digitChar_value : ∀ k, k < 10 → (Nat.digitChar k).toNat - 48 = k := by
  decide

theorem decimalValue_toDigitsCore (fuel : Nat) :
    ∀ n, n < fuel → decimalValue (Nat.toDigitsCore 10 fuel n []) = n := by
  induction fuel with
  | zero => intro n h; omega
  | succ k ih =>
    intro n h
    have hd := digitChar_value (n % 10) (Nat.mod_lt n (by decide))
    simp only [Nat.toDigitsCore]
    split
    · rename_i h0
      simp only [decimalValue, List.foldl, hd]
      omega
    · rename_i h0
      rw [toDigitsCore_append]
      have hlt : n / 10 < k := by omega
      have := ih (n / 10) hlt
      simp only [decimalValue] at this
      simp only [decimalValue, List.foldl_append, List.foldl, this, hd]
      omega

/-- The decimal representation of a natural number determines it. -/
theorem toString_nat_injective (n m : Nat) (h : toString n = toString m) : n = m := by
  have h1 : Nat.toDigits 10 n = Nat.toDigits 10 m := by
    have := congrArg String.data h
    simpa [toString, Nat.repr, List.asString] using this
  have hn := decimalValue_toDigitsCore (n + 1) n (by omega)
  have hm := decimalValue_toDigitsCore (m + 1) m (by omega)
  unfold Nat.toDigits at h1
  rw [h1] at hn
  omega

theorem String.append_cancel_left (a x y : String) (h : a ++ x = a ++ y) : x = y := by
  have := congrArg String.data h
  simp only [String.data_append, List.append_cancel_left_eq] at this
  exact String.ext this

theorem String.append_cancel_right (a x y : String) (h : x ++ a = y ++ a) : x = y := by
  have := congrArg String.data h
  simp only [String.data_append, List.append_cancel_right_eq] at this
  exact String.ext this

theorem filepathJoin_injective (dir x y : String) (h : filepathJoin dir x = filepathJoin dir y) :
    x = y := by
  unfold filepathJoin at h
  split at h
  · exact h
  · exact String.append_cancel_left _ _ _ h

theorem seqSegment_injective (a b : Int) (ha : 0 ≤ a) (hb : 0 ≤ b)
    (h : seqSegment a = seqSegment b) : a = b := by
  unfold seqSegment at h
  split at h <;> split at h
  · have h1 := String.append_cancel_right _ _ _ h
    have h2 := String.append_cancel_left _ _ _ h1
    have := toString_nat_injective _ _ h2
    omega
  · have := congrArg String.data h
    simp [String.data_append] at this
  · have := congrArg String.data h
    simp [String.data_append] at this
  · omega

theorem groStorage.logName_eq (s : groStorage) :
    s.logName = filepathJoin s.config.FileDir
      (s.config.FileName ++ timeSegment s.config ++ seqSegment s.currFileNum ++ ".log") := by
  unfold groStorage.logName timeSegment seqSegment
  simp only
  split <;> simp [String.append_assoc]

/-! ### A file sink without a writer -/

theorem groPusher.bufBytes_withSink (p : groPusher) (s : Option groStorage) (x : Bytes)
    (b : Option Nat) : (p.withSink s x).bufBytes b = p.bufBytes b := rfl

theorem groPusher.msg_withSink (p : groPusher) (s : Option groStorage) (x : Bytes)
    (m : Option Nat) : (p.withSink s x).msg m = p.msg m := rfl

theorem groPusher.conWrite_withSink (p : groPusher) (s : Option groStorage) (x : Bytes)
    (b : Bytes) : (p.withSink s x).conWrite b = (p.conWrite b).withSink s x := rfl

theorem groPusher.bufBytes_conWrite (p : groPusher) (x : Bytes) (b : Option Nat) :
    (p.conWrite x).bufBytes b = p.bufBytes b := rfl

theorem groPusher.bufReset_withSink (p : groPusher) (s : Option groStorage) (x : Bytes)
    (b : Option Nat) : (p.withSink s x).bufReset b = (p.bufReset b).withSink s x := by
  unfold groPusher.bufReset
  cases b with
  | none => rfl
  | some a =>
    simp only
    show (if a < p.bufs.length then _ else _) = _
    split <;> rfl

theorem groPusher.bufferPut_withSink (p : groPusher) (s : Option groStorage) (x : Bytes)
    (b : Option Nat) : (p.withSink s x).bufferPut b = (p.bufferPut b).withSink s x := rfl

theorem groPusher.pushConsole_withSink (p : groPusher) (s : Option groStorage) (x : Bytes)
    (msg : groMsg) : (p.withSink s x).pushConsole msg = (p.pushConsole msg).withSink s x := by
  unfold groPusher.pushConsole
  show (if p.out = true then
      if p.config.Style = StyleBasic then _
      else if p.config.Style = StyleBrief then _
      else if p.config.Style = StyleDetail then _ else _
    else _) = _
  split
  · split
    · show (((p.withSink s x).bufBytes msg.text) >>= _) = _
      rw [bufBytes_withSink]
      cases p.bufBytes msg.text <;> rfl
    · split
      · show ((indexString levelStyleStarts msg.level) >>= _) = _
        cases indexString levelStyleStarts msg.level with
        | ok start =>
          show ((((p.withSink s x).conWrite start).bufBytes msg.tips) >>= _) = _
          simp only [conWrite_withSink, bufBytes_withSink, bufBytes_conWrite]
          cases p.bufBytes msg.tips with
          | ok tips =>
            simp only [Outcome.bind_ok, conWrite_withSink, bufBytes_withSink, bufBytes_conWrite]
            cases p.bufBytes msg.text <;> rfl
          | panicked => rfl
          | outOfFuel => rfl
        | panicked => rfl
        | outOfFuel => rfl
      · split
        · show ((indexString levelStyleStarts msg.level) >>= _) = _
          cases indexString levelStyleStarts msg.level with
          | ok start =>
            show ((((p.withSink s x).conWrite start).bufBytes msg.tips) >>= _) = _
            simp only [conWrite_withSink, bufBytes_withSink, bufBytes_conWrite]
            cases p.bufBytes msg.tips with
            | ok tips =>
              simp only [Outcome.bind_ok, conWrite_withSink, bufBytes_withSink, bufBytes_conWrite]
              cases p.bufBytes msg.stack with
              | ok stack =>
                simp only [Outcome.bind_ok, conWrite_withSink, bufBytes_withSink,
                  bufBytes_conWrite]
                cases p.bufBytes msg.text <;> rfl
              | panicked => rfl
              | outOfFuel => rfl
            | panicked => rfl
            | outOfFuel => rfl
          | panicked => rfl
          | outOfFuel => rfl
        · rfl
  · rfl

theorem groPusher.pushCallback_withSink (p : groPusher) (s : Option groStorage) (x : Bytes)
    (m : Nat) : (p.withSink s x).pushCallback m = (p.pushCallback m).withSink s x := by
  unfold groPusher.pushCallback
  show (if p.config.MsgCallback = true then _ else _) = _
  split
  · simp only
    show (match p.config.GoExec with
      | .inline => _
      | .deferred => _) = _
    cases p.config.GoExec with
    | inline =>
      simp only [groPusher.callbackBody]
      show (match ({ p with launched := p.launched ++ [m] } : groPusher).msg (some m) with
        | .ok msg => _
        | .panicked => _
        | .outOfFuel => _) = _
      cases ({ p with launched := p.launched ++ [m] } : groPusher).msg (some m) <;> rfl
    | deferred => rfl
  · rfl

theorem Outcome.withSink_ok (p : groPusher) (s : Option groStorage) (x : Bytes) :
    (Outcome.ok p).withSink s x = .ok (p.withSink s x) := rfl

theorem groPusher.recycle_withSink (p : groPusher) (s : Option groStorage) (x : Bytes)
    (msg : groMsg) : (p.withSink s x).recycle msg = (p.recycle msg).withSink s x := by
  unfold groPusher.recycle
  show (if p.config.Style = StyleBasic then _
      else if p.config.Style = StyleBrief then _
      else if p.config.Style = StyleDetail then _ else _) = _
  split
  · show (((p.withSink s x).bufReset msg.text) >>= _) = _
    rw [bufReset_withSink]
    cases p.bufReset msg.text <;> rfl
  · split
    · show (((p.withSink s x).bufReset msg.tips) >>= _) = _
      rw [bufReset_withSink]
      cases p.bufReset msg.tips with
      | ok p1 =>
        simp only [Outcome.bind_ok, Outcome.withSink_ok, bufReset_withSink]
        cases p1.bufReset msg.text <;> rfl
      | panicked => rfl
      | outOfFuel => rfl
    · split
      · show (((p.withSink s x).bufReset msg.tips) >>= _) = _
        rw [bufReset_withSink]
        cases p.bufReset msg.tips with
        | ok p1 =>
          simp only [Outcome.bind_ok, Outcome.withSink_ok, bufReset_withSink]
          cases p1.bufReset msg.text with
          | ok p2 =>
            simp only [Outcome.bind_ok, Outcome.withSink_ok, bufReset_withSink]
            cases p2.bufReset msg.stack <;> rfl
          | panicked => rfl
          | outOfFuel => rfl
        | panicked => rfl
        | outOfFuel => rfl
      · rfl

theorem groPusher.pushFatal_withSink (p : groPusher) (s : Option groStorage) (x : Bytes)
    (panicking : Option String) (msg : groMsg) :
    (p.withSink s x).pushFatal panicking msg = (p.pushFatal panicking msg).withSink s x := by
  unfold groPusher.pushFatal
  split <;> rfl

/-- A write to a file sink without a writer only records the bytes. -/
theorem groPusher.fileWrite_inert (p : groPusher) (st : groStorage) (x : Bytes) (fuel : Nat)
    (b : Bytes) (h : st.out = none) :
    (p.withSink (some st) x).fileWrite fuel b = .ok (p.withSink (some st) (x ++ b)) := by
  have hw := (groStorage.inert_of_no_writer st h fuel b).2.2
  simp only [groPusher.fileWrite, groPusher.withSink, hw]

theorem groPusher.conWrite_bufs (p : groPusher) (x : Bytes) : (p.conWrite x).bufs = p.bufs := rfl

/-- The console block reads the buffers of the style and leaves the heap
as it is. -/
theorem groPusher.pushConsole_reads (p q : groPusher) (msg : groMsg) (hout : p.out = true)
    (h : p.pushConsole msg = .ok q) :
    q.bufs = p.bufs ∧ Same p q
      ∧ (p.config.Style = StyleBasic → ∃ t, p.bufBytes msg.text = .ok t)
      ∧ (p.config.Style ≠ StyleBasic → p.config.Style = StyleBrief ∨ p.config.Style = StyleDetail →
          ∃ t1 t2, p.bufBytes msg.tips = .ok t1 ∧ p.bufBytes msg.text = .ok t2) := by
  unfold groPusher.pushConsole at h
  simp only [hout, if_true] at h
  split at h
  · rename_i hb
    simp only [Outcome.bind_eq_ok, Outcome.pure_eq] at h
    obtain ⟨t, ht, hq⟩ := h
    rw [← Outcome.ok.inj hq]
    exact ⟨rfl, (Same.sameRefl p).conWrite t, fun _ => ⟨t, ht⟩, fun hne => absurd hb hne⟩
  · rename_i hnb
    split at h
    · simp only [Outcome.bind_eq_ok, Outcome.pure_eq] at h
      obtain ⟨start, _, t1, h1, t2, h2, hq⟩ := h
      simp only [bufBytes_conWrite] at h1 h2
      rw [← Outcome.ok.inj hq]
      refine ⟨?_, (((((Same.sameRefl p).conWrite start).conWrite t1).conWrite _).conWrite _).conWrite
        t2, fun hb => absurd hb hnb, fun _ _ => ⟨t1, t2, h1, h2⟩⟩
      simp only [conWrite_bufs]
    · rename_i hnbrief
      split at h
      · simp only [Outcome.bind_eq_ok, Outcome.pure_eq] at h
        obtain ⟨start, _, t1, h1, t3, _, t2, h2, hq⟩ := h
        simp only [bufBytes_conWrite] at h1 h2
        rw [← Outcome.ok.inj hq]
        refine ⟨?_, (((((((Same.sameRefl p).conWrite start).conWrite t1).conWrite _).conWrite
          _).conWrite t3).conWrite _).conWrite t2, fun hb => absurd hb hnb,
          fun _ _ => ⟨t1, t2, h1, h2⟩⟩
        simp only [conWrite_bufs]
      · rename_i hnd
        cases h
        exact ⟨rfl, Same.sameRefl p, fun hb => absurd hb hnb,
          fun _ hor => hor.elim (fun hx => absurd hx hnbrief) (fun hx => absurd hx hnd)⟩

theorem groPusher.bufBytes_of_bufs (p q : groPusher) (h : q.bufs = p.bufs) (b : Option Nat) :
    q.bufBytes b = p.bufBytes b := by
  unfold groPusher.bufBytes
  rw [h]

/-- The storage block on a file sink without a writer: it returns once the
buffers of the style can be read, and changes only the record of the bytes
passed to the sink. -/
theorem groPusher.pushStorage_inert (p : groPusher) (st : groStorage) (x : Bytes) (fuel : Nat)
    (msg : groMsg) (h : st.out = none)
    (hbasic : p.config.Style = StyleBasic → ∃ t, p.bufBytes msg.text = .ok t)
    (hrest : p.config.Style ≠ StyleBasic →
      p.config.Style = StyleBrief ∨ p.config.Style = StyleDetail →
      ∃ t1 t2, p.bufBytes msg.tips = .ok t1 ∧ p.bufBytes msg.text = .ok t2) :
    ∃ y, (p.withSink (some st) x).pushStorage fuel msg = .ok (p.withSink (some st) y) := by
  unfold groPusher.pushStorage
  show ∃ y, (if (some st).isSome = true then
      if p.config.Style = StyleBasic then _
      else if p.config.Style = StyleBrief then _
      else if p.config.Style = StyleDetail then _ else _
    else _) = _
  simp only [Option.isSome_some, if_true]
  split
  · rename_i hb
    obtain ⟨t, ht⟩ := hbasic hb
    refine ⟨x ++ t, ?_⟩
    show (((p.withSink (some st) x).bufBytes msg.text) >>= _) = _
    rw [bufBytes_withSink, ht, Outcome.bind_ok]
    exact fileWrite_inert p st x fuel t h
  · rename_i hnb
    split
    · rename_i hbrief
      obtain ⟨t1, t2, h1, h2⟩ := hrest hnb (Or.inl hbrief)
      refine ⟨x ++ t1 ++ " ".toList ++ t2, ?_⟩
      show (((p.withSink (some st) x).bufBytes msg.tips) >>= _) = _
      rw [bufBytes_withSink, h1, Outcome.bind_ok, fileWrite_inert p st x fuel t1 h,
        Outcome.bind_ok, fileWrite_inert p st _ fuel _ h, Outcome.bind_ok, bufBytes_withSink, h2,
        Outcome.bind_ok]
      exact fileWrite_inert p st _ fuel t2 h
    · split
      · rename_i hd
        obtain ⟨t1, t2, h1, h2⟩ := hrest hnb (Or.inr hd)
        refine ⟨x ++ t1 ++ " ".toList ++ t2, ?_⟩
        show (((p.withSink (some st) x).bufBytes msg.tips) >>= _) = _
        rw [bufBytes_withSink, h1, Outcome.bind_ok, fileWrite_inert p st x fuel t1 h,
          Outcome.bind_ok, fileWrite_inert p st _ fuel _ h, Outcome.bind_ok, bufBytes_withSink,
          h2, Outcome.bind_ok]
        exact fileWrite_inert p st _ fuel t2 h
      · exact ⟨x, rfl⟩

theorem Outcome.withSink_eq_ok (o : Outcome groPusher) (s : Option groStorage) (x : Bytes)
    (q : groPusher) (h : o = .ok q) : o.withSink s x = .ok (q.withSink s x) := by
  subst h; rfl

/-- With a file sink that has no writer, `push` returns whenever it returns
without a file sink, and differs only in the sink and the record of the bytes
passed to it. -/
theorem groPusher.push_inert (fuel : Nat) (panicking : Option String) (p q0 : groPusher)
    (st : groStorage) (m : Nat) (hst : st.out = none) (hsink : p.storage = none)
    (hout : p.out = true) (x : Bytes) (h : p.push fuel panicking m = .ok q0) :
    ∃ y, (p.withSink (some st) x).push fuel panicking m = .ok (q0.withSink (some st) y) := by
  unfold groPusher.push at h ⊢
  show ∃ y, (if p.closed = true then _ else _) = _
  split at h
  · rename_i hc
    cases h
    exact ⟨x, by simp only [hc, if_true]⟩
  · rename_i hc
    simp only [hc, if_false]
    simp only [Outcome.bind_eq_ok, Outcome.pure_eq, Outcome.ok.injEq] at h
    obtain ⟨msg, hmsg, a1, h1, a2, h2, a3, h3, a4, h4, rfl⟩ := h
    obtain ⟨hbufs, hsame, hbasic, hrest⟩ := pushConsole_reads p a1 msg hout h1
    have hcfg : a1.config = p.config := hsame.2.1
    have hs1 : a1.storage = none := hsame.2.2.1.trans hsink
    have ha2 : a2 = a1 := by
      simp only [groPusher.pushStorage, hs1, Option.isSome_none, Bool.false_eq_true, if_false,
        Outcome.ok.injEq] at h2
      exact h2.symm
    subst ha2
    obtain ⟨y, hy⟩ := pushStorage_inert a2 st x fuel msg hst
      (fun hb => by rw [bufBytes_of_bufs p a2 hbufs]; exact hbasic (hcfg ▸ hb))
      (fun hnb hor => by
        rw [bufBytes_of_bufs p a2 hbufs, bufBytes_of_bufs p a2 hbufs]
        exact hrest (hcfg ▸ hnb) (hcfg ▸ hor))
    refine ⟨y, ?_⟩
    show (((p.withSink (some st) x).msg (some m)) >>= _) = _
    rw [msg_withSink, hmsg, Outcome.bind_ok, pushConsole_withSink,
      Outcome.withSink_eq_ok _ _ _ _ h1, Outcome.bind_ok, hy, Outcome.bind_ok,
      pushCallback_withSink, Outcome.withSink_eq_ok _ _ _ _ h3, Outcome.bind_ok,
      recycle_withSink, Outcome.withSink_eq_ok _ _ _ _ h4, Outcome.bind_ok, Outcome.pure_eq,
      pushFatal_withSink]

/-- A failed `open` leaves the writer and the file as they were. -/
theorem groStorage.open_failed (s : groStorage) (clear : Bool) (h : (s.open clear).2 = true) :
    (s.open clear).1.out = s.out ∧ (s.open clear).1.file = s.file := by
  unfold groStorage.open at h ⊢
  simp only at h ⊢
  split
  · exact ⟨rfl, rfl⟩
  · rename_i w1 hw1
    simp only [hw1] at h
    split
    · exact ⟨rfl, rfl⟩
    · rename_i w2 file hopen
      simp only [hopen] at h
      cases h

theorem groStorage.retention_keeps (s : groStorage) :
    s.retention.out = s.out ∧ s.retention.file = s.file := by
  unfold groStorage.retention
  split
  · split <;> exact ⟨rfl, rfl⟩
  · exact ⟨rfl, rfl⟩

/-- When the `open` of `newStorage` fails the storage has no writer, no
file, and the error. -/
theorem newStorage_failed (config : Config) (w : World)
    (h : ((groStorage.blank config w).retention.open false).2 = true) :
    (newStorage config w).out = none ∧ (newStorage config w).file = none
      ∧ (newStorage config w).err = true := by
  obtain ⟨ho, hf⟩ := groStorage.open_failed _ false h
  obtain ⟨ro, rf⟩ := groStorage.retention_keeps (groStorage.blank config w)
  have hnew : newStorage config w
      = { ((groStorage.blank config w).retention.open false).1 with err := true } := by
    show (match (groStorage.blank config w).retention.open false with
      | (s1, true) => { s1 with err := true }
      | (s1, false) => s1) = _
    generalize (groStorage.blank config w).retention.open false = r at h
    obtain ⟨r1, r2⟩ := r
    simp only at h
    subst h
    rfl
  rw [hnew]
  exact ⟨ho.trans ro, hf.trans rf, rfl⟩

/-- When the `open` of `nextFile` fails the storage has no writer, no file,
and the error. -/
theorem groStorage.nextFile_failed (s t : groStorage) (h : s.nextFile = .ok (t, true)) :
    t.out = none ∧ t.file = none ∧ t.err = true := by
  unfold groStorage.nextFile at h
  split at h
  · rename_i s1 hclose
    have hs1 : s1.out = none ∧ s1.file = none := by
      unfold groStorage.closeFile at hclose
      split at hclose
      · cases hclose; exact ⟨rfl, rfl⟩
      · cases hclose
      · cases hclose
    simp only at h
    obtain ⟨ro, rf⟩ := groStorage.retention_keeps s1.nextFileNum
    have hopen := groStorage.open_failed s1.nextFileNum.retention true
    generalize s1.nextFileNum.retention.open true = r at h hopen
    obtain ⟨r1, r2⟩ := r
    cases r2 with
    | true =>
      simp only [Outcome.ok.injEq, Prod.mk.injEq, and_true] at h
      obtain ⟨ho, hf⟩ := hopen rfl
      simp only at ho hf
      rw [← h]
      exact ⟨(ho.trans ro).trans hs1.1, (hf.trans rf).trans hs1.2, rfl⟩
    | false =>
      simp only [Outcome.ok.injEq, Prod.mk.injEq] at h
      cases h.2
  · cases h
  · cases h

theorem groStorage.writeAll_inert (fuel : Nat) (s : groStorage) (h : s.out = none)
    (bs : List Bytes) : s.writeAll fuel bs = .ok s := by
  induction bs with
  | nil => rfl
  | cons b rest ih =>
    simp only [groStorage.writeAll, (groStorage.inert_of_no_writer s h fuel b).2.2, ih]

/-- A failed rotation and a push over the failed sink, evaluated. -/
theorem failed_sink_example :
    ((newStorage rotConfig lockedWorld).Write 3 "abcdefghij".toList).bind
        (fun s => .ok (s.file, s.IsValid, s.Error)) = .ok (none, false, true)
    ∧ ((newHandlerSync { sinkConfig with DisableSave := false } barredWorld).Log 3 quietSite
          LevelWarning 0 ["hello\n"]).bind
        (fun h => .ok (h.pusher.stdout, h.pusher.storage.map (fun s => (s.IsValid, s.Error))))
      = .ok ("hello\n".toList, some (false, true)) := by
  decide

/-! ### The console record and a failing file sink -/

theorem groPusher.bufBytes_of_ptr (p : groPusher) (b : Option Nat) (h : PtrOk p.bufs b) :
    p.bufBytes b = .ok (p.bufString b) := by
  obtain ⟨a, rfl, hlt⟩ := h
  have : p.bufs[a]? = some p.bufs[a] := List.getElem?_eq_getElem hlt
  simp only [groPusher.bufBytes, groPusher.bufString, List.get?_eq_getElem?, this, Option.getD_some]

theorem indexString_getD (xs : List String) (i : Int) (h0 : 0 ≤ i) (h1 : i.toNat < xs.length) :
    indexString xs i = .ok (xs.getD i.toNat "").toList := by
  have : xs[i.toNat]? = some xs[i.toNat] := List.getElem?_eq_getElem h1
  simp only [indexString, not_lt.mpr h0, if_false, List.get?_eq_getElem?, this, List.getD_eq_getElem?_getD,
    Option.getD_some]

theorem groPusher.bufString_conWrite (p : groPusher) (x : Bytes) (b : Option Nat) :
    (p.conWrite x).bufString b = p.bufString b := rfl

/-- With printing enabled the console block appends the record of the
specification to the console. -/
theorem groPusher.pushConsole_writes (p : groPusher) (msg : groMsg) (hout : p.out = true)
    (hr : p.Ready msg) : p.pushConsole msg = .ok (p.conWrite (p.specRecord msg)) := by
  have hstart : indexString levelStyleStarts msg.level
      = .ok (levelStyleStarts.getD msg.level.toNat "").toList := by
    apply indexString_getD _ _ hr.low
    have := hr.high
    simp only [levelStyleStarts, LevelFatal, LevelVerBose, List.length] at *
    have := hr.low
    simp only [LevelVerBose] at this
    omega
  have htext := bufBytes_of_ptr p msg.text hr.text
  unfold groPusher.pushConsole groPusher.specRecord
  simp only [hout, if_true]
  split
  · simp only [htext, Outcome.bind_ok, Outcome.pure_eq]
  · rename_i hnb
    have htips := bufBytes_of_ptr p msg.tips (hr.tips hnb)
    split
    · simp only [hstart, Outcome.bind_ok, Outcome.pure_eq, bufBytes_conWrite, htips, htext]
      simp only [groPusher.conWrite, List.append_assoc]
    · split
      · rename_i hd
        have hstack := bufBytes_of_ptr p msg.stack (hr.stack hd)
        simp only [hstart, Outcome.bind_ok, Outcome.pure_eq, bufBytes_conWrite, htips, htext,
          hstack]
        simp only [groPusher.conWrite, List.append_assoc]
      · rename_i hnbrief hnd
        rcases hr.style with h | h | h
        · exact absurd h hnb
        · exact absurd h hnbrief
        · exact absurd h hnd

theorem groPusher.bufReset_stdout (p q : groPusher) (b : Option Nat)
    (h : p.bufReset b = .ok q) : q.stdout = p.stdout := by
  unfold groPusher.bufReset at h
  cases b with
  | none => cases h
  | some a =>
    simp only at h
    split at h
    · rw [← Outcome.ok.inj h]
    · cases h

theorem groPusher.recycle_stdout (p q : groPusher) (msg : groMsg)
    (h : p.recycle msg = .ok q) : q.stdout = p.stdout := by
  unfold groPusher.recycle at h
  split at h
  · simp only [Outcome.bind_eq_ok, Outcome.pure_eq] at h
    obtain ⟨a, h1, hq⟩ := h
    rw [← Outcome.ok.inj hq]
    exact bufReset_stdout p a _ h1
  · split at h
    · simp only [Outcome.bind_eq_ok, Outcome.pure_eq] at h
      obtain ⟨a, h1, b, h2, hq⟩ := h
      rw [← Outcome.ok.inj hq]
      exact (bufReset_stdout a b _ h2).trans (bufReset_stdout p a _ h1)
    · split at h
      · simp only [Outcome.bind_eq_ok, Outcome.pure_eq] at h
        obtain ⟨a, h1, b, h2, c, h3, hq⟩ := h
        rw [← Outcome.ok.inj hq]
        exact ((bufReset_stdout b c _ h3).trans (bufReset_stdout a b _ h2)).trans
          (bufReset_stdout p a _ h1)
      · rw [← Outcome.ok.inj h]

theorem groPusher.pushCallback_stdout (p q : groPusher) (m : Nat)
    (h : p.pushCallback m = .ok q) : q.stdout = p.stdout := by
  unfold groPusher.pushCallback at h
  split at h
  · simp only at h
    split at h
    · unfold groPusher.callbackBody at h
      split at h
      · rw [← Outcome.ok.inj h]
      · cases h
      · cases h
    · rw [← Outcome.ok.inj h]
  · rw [← Outcome.ok.inj h]

theorem groPusher.pushFatal_stdout (p : groPusher) (panicking : Option String) (msg : groMsg) :
    (p.pushFatal panicking msg).stdout = p.stdout := by
  unfold groPusher.pushFatal
  split <;> rfl

/-- Without a file sink and with printing enabled, what `push` returns has
the record of the message appended to the console. -/
theorem groPusher.push_stdout (fuel : Nat) (panicking : Option String) (p q : groPusher)
    (m : Nat) (msg : groMsg) (hopen : p.closed = false) (hsink : p.storage = none)
    (hout : p.out = true) (hm : p.msg (some m) = .ok msg) (hr : p.Ready msg)
    (h : p.push fuel panicking m = .ok q) : q.stdout = p.stdout ++ p.specRecord msg := by
  unfold groPusher.push at h
  simp only [hopen, Bool.false_eq_true, if_false, hm, Outcome.bind_ok,
    pushConsole_writes p msg hout hr] at h
  have hs : (p.conWrite (p.specRecord msg)).storage = none := hsink
  simp only [groPusher.pushStorage, hs, Option.isSome_none, Bool.false_eq_true, if_false,
    Outcome.bind_ok, Outcome.bind_eq_ok, Outcome.pure_eq] at h
  obtain ⟨a3, h3, a4, h4, hq⟩ := h
  rw [← Outcome.ok.inj hq, pushFatal_stdout, recycle_stdout a3 a4 msg h4,
    pushCallback_stdout _ a3 m h3]
  rfl

theorem groPusher.msg_get (p : groPusher) (m : Nat) (msg : groMsg)
    (h : p.msg (some m) = .ok msg) : p.msgs[m]? = some msg := by
  unfold groPusher.msg at h
  simp only [List.get?_eq_getElem?] at h
  split at h
  · rename_i x hx
    rw [hx, Outcome.ok.inj h]
  · cases h

/-- A pusher whose file sink has no writer: `push` returns, the record of
the message is appended to the console, and the sink is left as it was. -/
theorem groPusher.push_failed_sink (fuel : Nat) (panicking : Option String) (p : groPusher)
    (t : groStorage) (m : Nat) (msg : groMsg) (ht : t.out = none) (hst : p.storage = some t)
    (hout : p.out = true) (hopen : p.closed = false) (hm : p.msg (some m) = .ok msg)
    (hr : p.Ready msg) :
    ∃ q1, p.push fuel panicking m = .ok q1 ∧ q1.stdout = p.stdout ++ p.specRecord msg
      ∧ q1.storage = some t := by
  have hr0 : ({ p with storage := none } : groPusher).Ready msg :=
    ⟨hr.style, hr.low, hr.high, hr.text, hr.tips, hr.stack, hr.pool⟩
  obtain ⟨qa, bs1, bp1, _, _, hpush⟩ := push_cells fuel panicking
    ({ p with storage := none } : groPusher) hopen rfl (msg_get p m msg hm) hr.pool hr.low hr.high
    hr.text hr.tips hr.stack
  have hpush0 : ({ p with storage := none } : groPusher).push fuel panicking m
      = .ok (qa.withCells p.msgs bs1 bp1) := hpush
  have hstd := push_stdout fuel panicking ({ p with storage := none } : groPusher) _ m msg hopen rfl
    hout hm hr0 hpush0
  obtain ⟨y, hy⟩ := push_inert fuel panicking { p with storage := none } _ t m ht rfl hout
    p.stored hpush0
  have hp : ({ p with storage := none } : groPusher).withSink (some t) p.stored = p := by
    cases p
    simp only at hst
    subst hst
    rfl
  rw [hp] at hy
  exact ⟨_, hy, hstd, rfl⟩

theorem barredPusher_ready :
    barredPusher.Ready { level := LevelWarning, tips := some 0, stack := none, text := some 1 } :=
  ⟨by decide, by decide, by decide, ⟨1, rfl, by decide⟩, fun _ => ⟨0, rfl, by decide⟩,
    fun h => absurd h (by decide), fun b hb => by cases hb⟩

theorem groHandlerSync.emit_staged (fuel : Nat) (h : groHandlerSync) (site : Site)
    (level layer : Int) (text : Bytes) (p : groPusher) (m : Nat)
    (hs : h.staged site level layer text = .ok (p, m)) :
    h.emit fuel site level layer text
      = (p.push fuel site.panicking m).bind (fun q => .ok { h with pusher := q }) := by
  unfold groHandlerSync.staged at hs
  simp only [Outcome.bind_eq_ok, Outcome.pure_eq, Outcome.ok.injEq, Prod.mk.injEq] at hs
  obtain ⟨p1, h1, msg, h2, p2, h3, rfl, rfl⟩ := hs
  unfold groHandlerSync.emit
  simp only [h1, h2, h3, Outcome.bind_ok]
  rfl

/-- In style Basic, a `Write` of the file sink that panics or does not
return makes `push` panic or not return. -/
theorem groPusher.push_write_fails (fuel : Nat) (panicking : Option String) (p : groPusher)
    (st : groStorage) (m : Nat) (msg : groMsg) (hst : p.storage = some st)
    (hout : p.out = true) (hopen : p.closed = false) (hm : p.msg (some m) = .ok msg)
    (hr : p.Ready msg) (hbasic : p.config.Style = StyleBasic) :
    (st.Write fuel (p.bufString msg.text) = .panicked → p.push fuel panicking m = .panicked)
      ∧ (st.Write fuel (p.bufString msg.text) = .outOfFuel
          → p.push fuel panicking m = .outOfFuel) := by
  have hcon := pushConsole_writes p msg hout hr
  have hsome : (p.conWrite (p.specRecord msg)).storage.isSome = true := by
    show p.storage.isSome = true
    rw [hst]; rfl
  have hb : (p.conWrite (p.specRecord msg)).config.Style = StyleBasic := hbasic
  have htext : (p.conWrite (p.specRecord msg)).bufBytes msg.text = .ok (p.bufString msg.text) :=
    bufBytes_of_ptr p msg.text hr.text
  have hsink : (p.conWrite (p.specRecord msg)).storage = some st := hst
  constructor
  · intro hw
    simp only [groPusher.push, hopen, Bool.false_eq_true, if_false, hm, Outcome.bind_ok, hcon,
      groPusher.pushStorage, hsome, if_true, hb, htext, groPusher.fileWrite, hsink, hw]
    rfl
  · intro hw
    simp only [groPusher.push, hopen, Bool.false_eq_true, if_false, hm, Outcome.bind_ok, hcon,
      groPusher.pushStorage, hsome, if_true, hb, htext, groPusher.fileWrite, hsink, hw]
    rfl

theorem oversize_write (fuel : Nat) :
    (newStorage savingConfig oversizeWorld).Write (fuel + 1) "Hello World!\n".toList
      = .panicked := by
  have h1 : (newStorage savingConfig oversizeWorld).out.isNone = false := by decide
  have h2 : (newStorage savingConfig oversizeWorld).writeLoop (fuel + 1) "Hello World!\n".toList 13
      = .panicked := by
    rw [groStorage.writeLoop]
    have ha : (newStorage savingConfig oversizeWorld).config.MaxFileSize
      - (newStorage savingConfig oversizeWorld).currFileSize = -6 := by decide
    simp only [ha]
    simp
  have hlen : (("Hello World!\n".toList.length : Nat) : Int) = 13 := by decide
  simp only [groStorage.Write, h1, Bool.false_eq_true, if_false, hlen, h2]

set_option maxRecDepth 100000 in
theorem stuck_staged :
    (newHandlerSync savingConfig oversizeWorld).staged quietSite LevelTrace 0
        "Hello World!\n".toList = .ok (stuckPusher, 0)
      ∧ stuckPusher.storage = some (newStorage savingConfig oversizeWorld)
      ∧ stuckPusher.out = true ∧ stuckPusher.closed = false
      ∧ stuckPusher.msg (some 0) = .ok { level := LevelTrace, tips := none, stack := none, text := some 0 }
      ∧ stuckPusher.config.Style = StyleBasic
      ∧ stuckPusher.bufs = ["Hello World!\n".toList] ∧ stuckPusher.bufferPool = [] := by
  decide

/-! ## The claims -/

/-- C1 (level filter).  For every threshold and every level strictly below
it, `Log`, `Logln` and `Logf` of the synchronous handler return the handler
as it was (so nothing reached the console, the storage, `GoExec` or the
callback), and `Log`, `Logln` and `Logf` of the asynchronous handler return
at the filter with the handler as it was and no message for `msgHanding`: the
producer's step leaves the channel untouched, starts no goroutine and
completes no send. -/
theorem level_filter_is_noop (fuel : Nat) (hs : groHandlerSync) (ha : groHandlerAsyn) (site : Site)
    (level layer : Int) (format : String) (a : List String) (kind : LogKind) (rest : List Call)
    (hsync : level < hs.config.Level) (hasyn : level < ha.config.Level) :
    hs.Log fuel site level layer a = .ok hs
      ∧ hs.Logln fuel site level layer a = .ok hs
      ∧ hs.Logf fuel site level layer format a = .ok hs
      ∧ ha.Log site level layer a = .ok (ha, none)
      ∧ ha.Logln site level layer a = .ok (ha, none)
      ∧ ha.Logf site level layer format a = .ok (ha, none)
      ∧ stepProducer ha .ready
          ({ kind := kind, site := site, level := level, layer := layer, format := format,
             args := a } :: rest)
        = .ok { handler := ha, thread := .producer .ready rest, spawned := [], sent := [] } := by
  have hs' : hs.config.Level > level := hsync
  have ha' : ha.config.Level > level := hasyn
  refine ⟨?_, ?_, ?_, ?_, ?_, ?_, ?_⟩
  · simp [groHandlerSync.Log, hs']
  · simp [groHandlerSync.Logln, hs']
  · simp [groHandlerSync.Logf, hs']
  · simp [groHandlerAsyn.Log, ha']
  · simp [groHandlerAsyn.Logln, ha']
  · simp [groHandlerAsyn.Logf, ha']
  · cases kind <;>
      simp [stepProducer, groHandlerAsyn.enter, groHandlerAsyn.Log, groHandlerAsyn.Logln,
        groHandlerAsyn.Logf, ha']

/-- The level filter at a Debug call on handlers with threshold Warning. -/
theorem level_filter_is_noop_witness :
    LevelDebug < warnSync.config.Level ∧ LevelDebug < warnAsyn.config.Level
      ∧ warnSync.Log 0 quietSite LevelDebug 0 ["x"] = .ok warnSync
      ∧ warnAsyn.Log quietSite LevelDebug 0 ["x"] = .ok (warnAsyn, none) :=
  ⟨by decide, by decide,
    (level_filter_is_noop 0 warnSync warnAsyn quietSite LevelDebug 0 "" ["x"] .log []
      (by decide) (by decide)).1,
    (level_filter_is_noop 0 warnSync warnAsyn quietSite LevelDebug 0 "" ["x"] .log []
      (by decide) (by decide)).2.2.2.1⟩

set_option maxRecDepth 100000 in
/-- C2 (synchronous delivery, defect of the code).  On the handler of
`TestSyncOutBasic`, whose file sink is off, one Trace call hands one closure
to `GoExec`, and once the closure has run the callback was invoked once.
With the file sink on, under a size limit of four bytes, on a directory whose
log file already holds ten bytes, the handler is open, has a message callback
and a threshold at or below Trace, and the same call never returns: `Write`
slices its argument with the negative available space `4 - 10` and panics, in
the storage block of `push`, before the callback block is reached.  One call,
no callback. -/
theorem sync_call_panics_before_callback :
    ((newHandlerSync sinkConfig emptyWorld).run 0 [helloCall]).bind
        (fun h => h.pusher.runPending.bind
          (fun p => .ok (p.launched.length, p.callbacks.length))) = .ok (1, 1)
      ∧ (newHandlerSync savingConfig oversizeWorld).pusher.closed = false
      ∧ (newHandlerSync savingConfig oversizeWorld).pusher.config.MsgCallback = true
      ∧ (newHandlerSync savingConfig oversizeWorld).config.Level ≤ helloCall.level
      ∧ ∀ fuel, (newHandlerSync savingConfig oversizeWorld).run (fuel + 1) [helloCall]
          = .panicked := by
  refine ⟨by decide, by decide, by decide, by decide, ?_⟩
  intro fuel
  obtain ⟨hs, hst, hout, hopen, hm, hbasic, hbufs, hpool⟩ := stuck_staged
  have hr : stuckPusher.Ready { level := LevelTrace, tips := none, stack := none, text := some 0 } :=
    ⟨Or.inl hbasic, by decide, by decide, ⟨0, rfl, by rw [hbufs]; decide⟩,
      fun h => absurd hbasic h, fun h => by rw [hbasic] at h; exact absurd h (by decide),
      by rw [hpool]; intro b hb; cases hb⟩
  have htext : stuckPusher.bufString (some 0) = "Hello World!\n".toList := by
    simp only [groPusher.bufString, hbufs]; rfl
  have hw := (groPusher.push_write_fails (fuel + 1) none stuckPusher _ 0 _ hst hout hopen hm hr
    hbasic).1 (by rw [htext]; exact oversize_write fuel)
  have he := groHandlerSync.emit_staged (fuel + 1) (newHandlerSync savingConfig oversizeWorld)
    quietSite LevelTrace 0 "Hello World!\n".toList stuckPusher 0 hs
  have hpan : quietSite.panicking = none := rfl
  rw [hpan, hw] at he
  have hlev : ¬ (newHandlerSync savingConfig oversizeWorld).config.Level > LevelTrace := by decide
  have hcall : (newHandlerSync savingConfig oversizeWorld).call (fuel + 1) helloCall
      = (newHandlerSync savingConfig oversizeWorld).emit (fuel + 1) quietSite LevelTrace 0
          "Hello World!\n".toList := by
    simp only [groHandlerSync.call, helloCall, groHandlerSync.Log, hlev, if_false]
    rfl
  simp only [groHandlerSync.run, hcall, he]
  rfl

set_option maxRecDepth 100000 in
/-- C3 (asynchronous mode, defect of the code).  On the configuration of
`TestAsynOutBasic` one goroutine makes two Trace calls and, after both have
returned, another calls `Close`.  Under the schedule `raceSchedule` both
messages are accepted into the channel, `Close` returns, and only one of
them was pushed: one closure was launched, one record reached the console,
and the second message is still in the channel behind which `Close` put its
nil message. -/
theorem async_close_strands_accepted_message :
    (raceProgram.run 0 raceSchedule).bind (fun s =>
        .ok (s.threads.get? 1, s.threads.get? 2, s.accepted.length, s.handler.msgs))
      = .ok (some (.producer .ready []), some (.closer .returned), 2, [some 127, none])
    ∧ (raceProgram.run 0 raceSchedule).bind (fun s =>
        .ok (s.handler.pusher.launched.length, s.handler.pusher.stdout, s.handler.pusher.closed))
      = .ok (1, "Hello World!\n".toList, true) := by
  decide

/-- C4 (rotation, defect of the code).  On an empty directory, with two files
of four bytes and retention off: (1) after `Write("abc")` and `Close` the
files hold 0 bytes of the 3 written, because the first file is opened with
the flag `O_APPEND` alone, which is read-only; (2) `Write("abcdefghij")`
returns with the files holding 6 bytes of the 10 written; (3) from there the
file index has wrapped, the files are reopened without truncation, and a
further `Write("ABCDEFGHIJ")` never returns, whatever the fuel. -/
theorem rotation_loses_bytes :
    ((newStorage rotConfig emptyWorld).Write 3 "abc".toList).bind
        (fun s => s.Close.bind (fun s1 => .ok s1.world.totalSize)) = .ok 0
      ∧ (newStorage rotConfig emptyWorld).Write 3 "abcdefghij".toList = .ok wrappedState
      ∧ wrappedState.world.totalSize = 6
      ∧ ∀ fuel, wrappedState.Write fuel "ABCDEFGHIJ".toList = .outOfFuel :=
  ⟨by decide, wrapped_reached, by decide, wrapped_spins⟩

/-- C5 (size invariant, defect of the code).  Both storages below have an
open file and an accounted size of 0, under a limit of 4.  (1) When the next
rotation file already holds 10 bytes, `Write("abcd")` returns with an open
file and an accounted size of 10.  (2) When the next rotation file cannot be
opened, `Write("abcdefghij")` returns with an accounted size of 10: the
loop added the whole remaining length, not the part that fitted. -/
theorem write_leaves_size_above_limit :
    (newStorage rotConfig staleWorld).out.isSome = true
      ∧ (newStorage rotConfig staleWorld).currFileSize = 0
      ∧ ((newStorage rotConfig staleWorld).Write 3 "abcd".toList).bind
          (fun s => .ok (s.out.isSome, s.currFileSize, s.config.MaxFileSize)) = .ok (true, 10, 4)
      ∧ (newStorage rotConfig lockedWorld).out.isSome = true
      ∧ (newStorage rotConfig lockedWorld).currFileSize = 0
      ∧ ((newStorage rotConfig lockedWorld).Write 3 "abcdefghij".toList).bind
          (fun s => .ok (s.out.isSome, s.currFileSize, s.config.MaxFileSize))
        = .ok (false, 10, 4) := by
  decide

/-- C6 (retention, defect of the code).  With an expiry of 30 minutes, in a
directory holding a log file one hour old and a log file one second old,
`cleanExpireFiles` removes the file that is one second old and keeps the
file that is one hour old: the comparison with the cutoff is inverted. -/
theorem clean_removes_fresh_keeps_expired :
    (cleanExpireFiles agedWorld "log" "app" 1800000000000).files.map (fun e => e.path)
      = ["log/app_old.log"] := by
  decide

/-- C7 (callback text, defect of the code).  On the handler of
`TestSyncOutBasic`, whose `GoExec` runs the closure after `push` has gone
on, a Warning call with text `hello` writes `hello` to the console and
launches one closure; when the closure runs, the callback receives the empty
text of the buffer that `push` has reset and returned to the pool. -/
theorem deferred_callback_reads_reset_buffer :
    ((newHandlerSync sinkConfig emptyWorld).Log 0 quietSite LevelWarning 0 ["hello\n"]).bind
        (fun h => h.pusher.runPending.bind
          (fun p => .ok (p.stdout, p.launched.length, p.callbacks)))
      = .ok ("hello\n".toList, 1, [(LevelWarning, [])]) := by
  decide

/-- C8 (file rendering, defect of the code).  In style Detail, with console
and file sink on, an Error call from `main.go:42` writes
`ERROR|time [main:42] hello` to the console between the colour sequences,
and passes `ERROR|time hello` to the storage: the file record lacks the
caller segment, so it is not the console record without its colours. -/
theorem detail_file_record_omits_caller :
    ((newHandlerSync { sinkConfig with Style := StyleDetail, DisableSave := false }
          emptyWorld).Log 3 quietSite LevelError 0 ["hello\n"]).bind
        (fun h => .ok (stripColour 4 h.pusher.stdout, h.pusher.stored))
      = .ok ("ERROR|25.01.01-00:00:00.000 [main:42] hello\n".toList,
          "ERROR|25.01.01-00:00:00.000 hello\n".toList) := by
  decide

/-- C9 (fatal escalation, defect of the code).  A Fatal call made while a
panic with value `boom` is in flight launches `FatalHandling` once, and
the recovered value it receives is nil: `recover()` is called by `push`,
which is not a deferred function.  A Warning call launches nothing. -/
theorem fatal_handler_never_receives_panic :
    ((newHandlerSync sinkConfig emptyWorld).Log 0 { quietSite with panicking := some "boom" }
        LevelFatal 0 ["crashed\n"]).bind (fun h => .ok h.pusher.fatals) = .ok [none]
      ∧ ((newHandlerSync sinkConfig emptyWorld).Log 0 { quietSite with panicking := some "boom" }
        LevelWarning 0 ["crashed\n"]).bind (fun h => .ok h.pusher.fatals) = .ok [] := by
  decide

/-- C10 (Close is idempotent).  For every storage whose writer exists
exactly when its file does, and every pusher: `Close` returns a storage with
no writer and no file; a second `Close` returns that same state; at most one
file handle is released over both; `Write` and `Flush` after `Close` return
the state unchanged.  `Close` of the pusher returns a closed pusher (whose
storage, if the pusher was open, has no writer); a second `Close`, `Flush`
and `push` return that same state. -/
theorem close_is_idempotent (s : groStorage) (p : groPusher) (fuel : Nat) (b : Bytes)
    (panicking : Option String) (m : Nat) (hwf : s.out.isSome = s.file.isSome) :
    ∃ s1 p1, s.Close = .ok s1 ∧ s1.out = none ∧ s1.file = none
      ∧ s1.Close = .ok s1
      ∧ s1.world.released ≤ s.world.released + 1
      ∧ s1.Write fuel b = .ok s1 ∧ s1.Flush = .ok s1
      ∧ p.Close = .ok p1 ∧ p1.closed = true
      ∧ (p.closed = false → ∀ st1, p1.storage = some st1 → st1.out = none)
      ∧ p1.Close = .ok p1 ∧ p1.Flush = .ok p1 ∧ p1.push fuel panicking m = .ok p1 := by
  obtain ⟨s1, hs1, hout, hfile, hrel⟩ := groStorage.storage_Close_spec s
  obtain ⟨p1, hp1, hclosed, hst⟩ := groPusher.pusher_Close_spec p
  obtain ⟨hc, hf, hw⟩ := groStorage.inert_of_no_writer s1 hout fuel b
  refine ⟨s1, p1, hs1, hout, hfile hwf, hc, hrel, hw, hf, hp1, hclosed, hst, ?_, ?_, ?_⟩
  · simp [groPusher.Close, hclosed]
  · simp [groPusher.Flush, hclosed]
  · simp [groPusher.push, hclosed]

/-- Closing the storage and the pusher of a fresh file sink. -/
theorem close_is_idempotent_witness :
    (newStorage rotConfig emptyWorld).out.isSome = (newStorage rotConfig emptyWorld).file.isSome
      ∧ ∃ s1 p1, (newStorage rotConfig emptyWorld).Close = .ok s1 ∧ s1.out = none
        ∧ s1.file = none ∧ s1.Close = .ok s1
        ∧ s1.world.released ≤ (newStorage rotConfig emptyWorld).world.released + 1
        ∧ s1.Write 3 "abc".toList = .ok s1 ∧ s1.Flush = .ok s1
        ∧ (newPusher rotConfig emptyWorld).Close = .ok p1 ∧ p1.closed = true
        ∧ ((newPusher rotConfig emptyWorld).closed = false →
            ∀ st1, p1.storage = some st1 → st1.out = none)
        ∧ p1.Close = .ok p1 ∧ p1.Flush = .ok p1 ∧ p1.push 3 none 0 = .ok p1 :=
  ⟨by decide,
    close_is_idempotent (newStorage rotConfig emptyWorld) (newPusher rotConfig emptyWorld) 3
      "abc".toList none 0 (by decide)⟩

/-- C11 (a failed open disables the file sink).  Let `t` be the storage left
by an `open` that failed: the one of `newStorage`, or the one of a rotation
(`nextFile` returning the error).  Then `t` has no active file, `IsValid` is
false, `Error` reports the error, and every `Write`, every `Flush` and every
sequence of writes returns `t` itself, so this holds at every later query.
And for every open pusher with console output whose file sink is `t`, and
every message ready for `push`: `push` returns, the console has received the
record of the message (what it held before, followed by the record of the
specification), and `t` is still the sink. -/
theorem failed_open_disables_sink (config : Config) (w : World) (s t : groStorage)
    (hfail : (((groStorage.blank config w).retention.open false).2 = true ∧ t = newStorage config w)
      ∨ s.nextFile = .ok (t, true)) :
    t.file = none ∧ t.IsValid = false ∧ t.Error = true
      ∧ (∀ fuel b, t.Write fuel b = .ok t) ∧ t.Flush = .ok t
      ∧ (∀ fuel bs, t.writeAll fuel bs = .ok t)
      ∧ ∀ (p : groPusher) (fuel : Nat) (panicking : Option String) (m : Nat) (msg : groMsg),
          p.storage = some t → p.out = true → p.closed = false →
          p.msg (some m) = .ok msg → p.Ready msg →
          ∃ q1, p.push fuel panicking m = .ok q1
            ∧ q1.stdout = p.stdout ++ p.specRecord msg ∧ q1.storage = some t := by
  have hstate : t.out = none ∧ t.file = none ∧ t.err = true := by
    rcases hfail with ⟨h, rfl⟩ | h
    · exact newStorage_failed config w h
    · exact groStorage.nextFile_failed s t h
  obtain ⟨hout, hfile, herr⟩ := hstate
  refine ⟨hfile, by simp [groStorage.IsValid, hout], herr,
    fun fuel b => (groStorage.inert_of_no_writer t hout fuel b).2.2,
    (groStorage.inert_of_no_writer t hout 0 []).2.1,
    fun fuel bs => groStorage.writeAll_inert fuel t hout bs, ?_⟩
  intro p fuel panicking m msg hst hprint hopen hm hr
  exact groPusher.push_failed_sink fuel panicking p t m msg hout hst hprint hopen hm hr

/-- The storage constructed on a directory in which the first log file
cannot be created, and a Warning record pushed over it in style Brief: the
console receives the coloured tips and the text. -/
theorem failed_open_disables_sink_witness :
    ((((groStorage.blank rotConfig barredWorld).retention.open false).2 = true
        ∧ newStorage rotConfig barredWorld = newStorage rotConfig barredWorld)
      ∨ (newStorage rotConfig barredWorld).nextFile = .ok (newStorage rotConfig barredWorld, true))
    ∧ (newStorage rotConfig barredWorld).file = none
    ∧ (newStorage rotConfig barredWorld).IsValid = false
    ∧ (newStorage rotConfig barredWorld).Error = true
    ∧ (newStorage rotConfig barredWorld).Write 3 "abc".toList
        = .ok (newStorage rotConfig barredWorld)
    ∧ barredPusher.stdout
          ++ barredPusher.specRecord
              { level := LevelWarning, tips := some 0, stack := none, text := some 1 }
        = "\x1b[33;2mWARNG|25.01.01-00:00:00.000\x1b[0m hello\n".toList
    ∧ ∃ q1, barredPusher.push 3 none 0 = .ok q1
        ∧ q1.stdout = barredPusher.stdout
            ++ barredPusher.specRecord
                { level := LevelWarning, tips := some 0, stack := none, text := some 1 }
        ∧ q1.storage = some (newStorage rotConfig barredWorld) :=
  have h := failed_open_disables_sink rotConfig barredWorld (newStorage rotConfig barredWorld)
    (newStorage rotConfig barredWorld) (Or.inl ⟨by decide, rfl⟩)
  ⟨Or.inl ⟨by decide, rfl⟩, h.1, h.2.1, h.2.2.1, h.2.2.2.1 3 "abc".toList, by decide,
    h.2.2.2.2.2.2 barredPusher 3 none 0 _ (by decide) (by decide) (by decide) (by decide)
      barredPusher_ready⟩

/-- C12 (configuration defaulting).  For every configuration, whenever
`init` returns, the configuration it returns has every numeric field in its
domain; each of these fields has kept its input value where that was in the
domain and has the documented default elsewhere; and `init` of the result
returns again and changes none of these fields.  The method returns unless
the file name is empty and `os.Executable` fails, where it panics. -/
theorem init_establishes_domains (c : Config) (exe : Option String) :
    (∀ c1, c.init exe = .ok c1 →
        c1.InDomain ∧ c.Defaulted c1 ∧ ∃ c2, c1.init exe = .ok c2 ∧ c1.SameNumbers c2)
      ∧ (c.FileName ≠ "" ∨ exe.isSome = true → ∃ c1, c.init exe = .ok c1) := by
  refine ⟨?_, Config.init_total c exe⟩
  intro c1 h1
  obtain ⟨hd, hname⟩ := Config.init_ok c c1 exe h1
  have hagain : c1.FileName ≠ "" ∨ exe.isSome = true := by
    cases exe with
    | none => exact Or.inl (hname rfl)
    | some p => exact Or.inr rfl
  obtain ⟨c2, h2⟩ := Config.init_total c1 exe hagain
  exact ⟨hd.inDomain, hd, c2, h2, hd.inDomain.defaulted_same (Config.init_ok c1 c2 exe h2).1⟩

/-- The method `init` on a configuration with every numeric field outside its
domain and no name, the executable being `/usr/bin/app.exe`. -/
theorem init_establishes_domains_witness :
    brokenConfig.init (some "/usr/bin/app.exe") = .ok mendedConfig
      ∧ mendedConfig.InDomain ∧ brokenConfig.Defaulted mendedConfig
      ∧ ∃ c2, mendedConfig.init (some "/usr/bin/app.exe") = .ok c2
          ∧ mendedConfig.SameNumbers c2 :=
  ⟨by decide,
    (init_establishes_domains brokenConfig (some "/usr/bin/app.exe")).1 mendedConfig (by decide)⟩

set_option maxRecDepth 100000 in
/-- C13 (worker cap, defect of the code).  With `MaxAsynExec = 1` two
goroutines make one Trace call each.  When each has sent its message before
either loads `execCount`, both loads read 0, both goroutines add 1 and both
start a worker: `execCount` is 2 and two workers are alive under a cap of 1,
the handler being open.  And a goroutine whose Trace call passed the check of
`closed` before `Close` set the flag has started no worker when the flag is
set, and starts one at its next step: a worker is started on a closed
handler. -/
theorem worker_cap_exceeded_by_racing_producers :
    (capProgram.run 0 [0, 0, 1, 1, 0, 1, 0, 1, 0, 1]).bind (fun s =>
        .ok (s.handler.execCount, s.handler.config.MaxAsynExec, countWorkers s.threads,
          s.handler.closed))
      = .ok (2, 1, 2, false)
    ∧ (lateProgram.run 0 [0, 1, 0, 0, 0]).bind (fun s =>
        .ok (s.handler.closed, countWorkers s.threads)) = .ok (true, 0)
    ∧ (lateProgram.run 0 [0, 1, 0, 0, 0, 0]).bind (fun s =>
        .ok (s.handler.closed, countWorkers s.threads, s.handler.execCount)) = .ok (true, 1, 1) := by
  decide

set_option maxRecDepth 100000 in
/-- C14 (periodic flush, defect of the code).  The goroutine of `goFlash` is
one `select` without a loop.  On an asynchronous handler with the default
interval of three hours it waits, sends the nil message of `Flush` once and
returns; whatever the number of further steps it stays returned, the channel
holds that one nil message, and the handler is neither closed nor its timer
cancelled.  On a synchronous handler with an interval of one second the
goroutine calls `Flush` once and has returned after two steps; after any
number of further steps the count of its flushes is still 1 and nothing was
cancelled or closed. -/
theorem flush_timer_fires_only_once :
    flashProgram.threads = [.flusher .waiting] ∧ flashProgram.handler.msgs = []
    ∧ (∀ n, (flashProgram.run 0 ([0, 0, 0] ++ List.replicate n 0)).bind (fun s =>
        .ok (s.threads, s.handler.msgs, s.handler.closed, s.handler.flashCancelled))
        = .ok ([.flusher .exited], [none], false, false))
    ∧ flashTimer.pc = .waiting
    ∧ (∀ n, ((flashTimer.run (2 + n)).bind (fun t =>
        .ok (t.pc, t.flushes, t.cancelled, t.handler.pusher.closed)))
        = .ok (.exited, 1, false, false)) := by
  refine ⟨by decide, by decide, ?_, by decide, ?_⟩
  · intro n
    have hd : (flashProgram.run 0 [0, 0, 0]).bind (fun s =>
        .ok (s.threads, s.handler.msgs, s.handler.closed, s.handler.flashCancelled))
        = .ok ([.flusher .exited], [none], false, false) := by decide
    rw [Program.run_append]
    cases h : flashProgram.run 0 [0, 0, 0] with
    | ok s1 =>
      rw [h] at hd
      simp only [Outcome.bind, Outcome.ok.injEq, Prod.mk.injEq] at hd
      simp only [Outcome.bind, Program.flusher_exited_stays 0 n s1 hd.1]
      rw [hd.1, hd.2.1, hd.2.2.1, hd.2.2.2]
    | panicked => rw [h] at hd; cases hd
    | outOfFuel => rw [h] at hd; cases hd
  · intro n
    have hd : (flashTimer.run 2).bind (fun t =>
        .ok (t.pc, t.flushes, t.cancelled, t.handler.pusher.closed))
        = .ok (.exited, 1, false, false) := by decide
    rw [SyncTimer.run_add]
    cases h : flashTimer.run 2 with
    | ok s1 =>
      rw [h] at hd
      simp only [Outcome.bind, Outcome.ok.injEq, Prod.mk.injEq] at hd
      simp only [Outcome.bind, SyncTimer.exited_stays n s1 hd.1]
      rw [hd.1, hd.2.1, hd.2.2.1, hd.2.2.2]
    | panicked => rw [h] at hd; cases hd
    | outOfFuel => rw [h] at hd; cases hd

/-- C15 (file naming).  For every storage with a file index that is not
negative, the name `open` computes is the directory joined with the base name
of the specification: `FileName`, then `_`, the formatted start time, `_`
and the pid exactly when `EnableFileTime` is set, then the decimal index in
brackets exactly when the index is positive, then `.log`.  Two storages of
one configuration whose names agree have the same index. -/
theorem log_name_follows_template (s t : groStorage) (hs : 0 ≤ s.currFileNum)
    (ht : 0 ≤ t.currFileNum) (hc : t.config = s.config) :
    s.logName = filepathJoin s.config.FileDir (specLogBase s.config s.currFileNum)
      ∧ specLogBase s.config s.currFileNum
          = s.config.FileName
            ++ (if s.config.EnableFileTime then
                  "_" ++ s.config.startTime ++ "_" ++ toString s.config.pid
                else "")
            ++ (if s.currFileNum > 0 then "(" ++ toString s.currFileNum.toNat ++ ")" else "")
            ++ ".log"
      ∧ (t.logName = s.logName → t.currFileNum = s.currFileNum) := by
  refine ⟨groStorage.logName_eq s, rfl, ?_⟩
  intro h
  rw [groStorage.logName_eq, groStorage.logName_eq, hc] at h
  have h1 := filepathJoin_injective _ _ _ h
  have h2 := String.append_cancel_right _ _ _ h1
  have h3 := String.append_cancel_left _ _ _ h2
  exact seqSegment_injective _ _ ht hs h3

/-- The names of the two rotation files of `rotConfig`: the file of index 0
is `log/app.log`, and the file of index 1 has another name. -/
theorem log_name_follows_template_witness :
    (0 ≤ (newStorage rotConfig emptyWorld).currFileNum ∧ 0 ≤ (spinState 0 1 4).currFileNum
        ∧ (spinState 0 1 4).config = (newStorage rotConfig emptyWorld).config)
      ∧ (newStorage rotConfig emptyWorld).logName
          = filepathJoin (newStorage rotConfig emptyWorld).config.FileDir
              (specLogBase (newStorage rotConfig emptyWorld).config
                (newStorage rotConfig emptyWorld).currFileNum)
      ∧ (newStorage rotConfig emptyWorld).logName = "log/app.log"
      ∧ (spinState 0 1 4).logName = "log/app(1).log"
      ∧ ((spinState 0 1 4).logName = (newStorage rotConfig emptyWorld).logName →
          (spinState 0 1 4).currFileNum = (newStorage rotConfig emptyWorld).currFileNum) :=
  ⟨⟨by decide, by decide, by decide⟩,
    (log_name_follows_template (newStorage rotConfig emptyWorld) (spinState 0 1 4) (by decide)
      (by decide) (by decide)).1,
    by decide, by decide,
    (log_name_follows_template (newStorage rotConfig emptyWorld) (spinState 0 1 4) (by decide)
      (by decide) (by decide)).2.2⟩

/-- C16 (retention pattern, defect of the code).  The pattern of
`cleanExpireFiles` is the name, then at least one character, then `.log`:
for every name that stands for itself in a regular expression, the base name
`name.log` is not matched.  The name `app` is such a name, the file of index
0 of `rotConfig` is `log/app.log`, its base name `app.log` is not matched
while `app(1).log` is, and `cleanExpireFiles` with an expiry of one
nanosecond keeps `log/app.log` both long after its last modification and at
the time of it: that file is never subject to expiry. -/
theorem retention_pattern_skips_plain_name :
    (∀ name : String, plainName name = true → matchLogName name (name ++ ".log") = false)
      ∧ plainName "app" = true
      ∧ (newStorage rotConfig emptyWorld).logName = "log/app.log"
      ∧ baseName "log/app.log" = "app.log"
      ∧ matchLogName "app" "app.log" = false
      ∧ matchLogName "app" "app(1).log" = true
      ∧ (cleanExpireFiles (plainWorld 3600000000000) "log" "app" 1).files.map (fun e => e.path)
          = ["log/app.log"]
      ∧ (cleanExpireFiles (plainWorld 1000) "log" "app" 1).files.map (fun e => e.path)
          = ["log/app.log"] := by
  refine ⟨?_, by decide, by decide, by decide, by decide, by decide, by decide, by decide⟩
  intro name _
  have h : ¬ (name.toList.length + 1 + ".log".toList.length ≤ (name ++ ".log").toList.length) := by
    simp [String.toList]
  simp [matchLogName, h]

/-- The name `app` stands for itself, and `app.log` is not matched. -/
theorem retention_pattern_skips_plain_name_witness :
    plainName "app" = true ∧ matchLogName "app" ("app" ++ ".log") = false :=
  ⟨by decide, retention_pattern_skips_plain_name.1 "app" (by decide)⟩

/-- C17 (opening modes, defect of the code).  (1) The file that `newStorage`
opens has the flag `O_APPEND` alone, whose access mode is `O_RDONLY`: on a
directory whose log file holds `old`, `Write("new")` followed by `Close`
leaves the file holding `old`, nothing was appended.  (2) The file a
rotation opens is not truncated: when the file of index 1 already holds ten
bytes, `Write("abcd")` rotates to it, the accounted size is 10 and the file
still holds its ten bytes. -/
theorem first_open_is_read_only_and_rotation_keeps_content :
    (newStorage roomyConfig usedWorld).file.map (fun f => (f.flag, f.flag &&& 3))
        = some (O_APPEND, O_RDONLY)
    ∧ ((newStorage roomyConfig usedWorld).Write 3 "new".toList).bind
        (fun s => s.Close.bind (fun s1 => .ok (s1.world.files.map (fun e => e.data))))
        = .ok ["old".toList]
    ∧ ((newStorage rotConfig staleWorld).Write 3 "abcd".toList).bind
        (fun s => .ok (s.currFileNum, s.currFileSize,
          (s.world.lookup "log/app(1).log").map (fun e => e.data)))
        = .ok (1, 10, some "0123456789".toList) := by
  decide

set_option maxRecDepth 100000 in
/-- C18 (counterexample).  One goroutine makes one Trace call on a handler
with a cap of one worker.  The only worker pushes the message, polls the
empty channel 101 times and loads `execCount`, which is 1; its next three
steps decrement `execCount` to 0 and return, the handler being open: a sole
worker exits for idleness. -/
theorem sole_worker_exits_when_idle :
    (soloProgram.run 0 ([0, 0, 0, 0, 0] ++ [1, 1] ++ List.replicate 101 1)).bind (fun s =>
        .ok (s.threads.get? 1, s.handler.execCount, s.handler.msgs, s.handler.closed))
      = .ok (some (.worker .idleLoad 101 0), 1, [], false)
    ∧ (soloProgram.run 0 ([0, 0, 0, 0, 0] ++ [1, 1] ++ List.replicate 101 1 ++ [1, 1, 1])).bind
        (fun s => .ok (s.threads.get? 1, s.handler.execCount, s.handler.closed))
      = .ok (some (.worker .exited 101 0), 0, false) := by
  decide

/-- C18, amended: a worker decrements the live-worker count and exits for
idleness only when it has seen more than 100 consecutive empty polls and
`execCount > 0`; a sole worker does exit.  A worker of an open handler polls
an empty channel that nobody else touches.  After each of its first 100 polls
it is polling again, with the number of polls as its idle count.  When
`execCount` is positive, the 101st poll is followed by the load of
`execCount`, the decrement and the return: the worker has exited and
`execCount` is one less, also when it was 1.  When `execCount` is not
positive, the worker is polling again after the 101st poll and the load. -/
theorem idle_exit_needs_positive_count (fuel : Nat) (sys : Program) (tid : Nat) (retry : Int)
    (hth : sys.threads.get? tid = some (.worker .poll 0 retry))
    (hempty : sys.handler.msgs = []) (hopen : sys.handler.msgsClosed = false)
    (hlive : sys.handler.closed = false) :
    (∀ n : Nat, n < 100 → sys.run fuel (List.replicate (n + 1) tid)
        = .ok { sys with threads := sys.threads.set tid (.worker .poll (n + 1 : Nat) 0) })
    ∧ (sys.handler.execCount > 0 →
        sys.run fuel (List.replicate 104 tid)
          = .ok { sys with
              handler := { sys.handler with execCount := sys.handler.execCount - 1,
                                            stop := sys.handler.stop - 1 },
              threads := sys.threads.set tid (.worker .exited 101 0) })
    ∧ (sys.handler.execCount ≤ 0 →
        sys.run fuel (List.replicate 102 tid)
          = .ok { sys with threads := sys.threads.set tid (.worker .poll 101 0) }) := by
  have hpoll : ∀ n : Nat, n < 100 → sys.run fuel (List.replicate (n + 1) tid)
      = .ok { sys with threads := sys.threads.set tid (.worker .poll (n + 1 : Nat) 0) } := by
    intro n hn
    have := Program.poll_idle fuel tid n sys 0 retry hth hempty hopen (by push_cast; omega)
    simpa using this
  have h100 := hpoll 99 (by omega)
  -- the state after 100 empty polls
  have hth1 := get?_set_self sys.threads tid _ (.worker .poll ((99 + 1 : Nat) : Int) 0) hth
  have hst1 : stepThread fuel sys.handler (.worker .poll ((99 + 1 : Nat) : Int) 0)
      = .ok { handler := sys.handler, thread := .worker .idleLoad 101 0, spawned := [],
              sent := [] } := by
    simp only [stepThread, stepWorker, hempty, hopen, Bool.false_eq_true, if_false]
    norm_num
  have hs1 := Program.step_of fuel
    { sys with threads := sys.threads.set tid (.worker .poll ((99 + 1 : Nat) : Int) 0) } tid _ _ _
    hth1 hst1
  simp only [List.set_set] at hs1
  have hth2 := get?_set_self sys.threads tid _ (.worker .idleLoad 101 0) hth
  refine ⟨hpoll, ?_, ?_⟩
  · intro hpos
    have hst2 : stepThread fuel sys.handler (.worker .idleLoad 101 0)
        = .ok { handler := sys.handler, thread := .worker .idleAdd 101 0, spawned := [],
                sent := [] } := by
      simp only [stepThread, stepWorker, hpos, if_true]
    have hs2 := Program.step_of fuel
      { sys with threads := sys.threads.set tid (.worker .idleLoad 101 0) } tid _ _ _ hth2 hst2
    simp only [List.set_set] at hs2
    have hth3 := get?_set_self sys.threads tid _ (.worker .idleAdd 101 0) hth
    have hst3 : stepThread fuel sys.handler (.worker .idleAdd 101 0)
        = .ok { handler := { sys.handler with execCount := sys.handler.execCount - 1 },
                thread := .worker .closedCheck 101 0, spawned := [], sent := [] } := by
      simp only [stepThread, stepWorker]
    have hs3 := Program.step_of fuel
      { sys with threads := sys.threads.set tid (.worker .idleAdd 101 0) } tid _ _ _ hth3 hst3
    simp only [List.set_set] at hs3
    have hth4 := get?_set_self sys.threads tid _ (.worker .closedCheck 101 0) hth
    have hst4 : stepThread fuel { sys.handler with execCount := sys.handler.execCount - 1 }
        (.worker .closedCheck 101 0)
        = .ok { handler := { sys.handler with execCount := sys.handler.execCount - 1,
                                              stop := sys.handler.stop - 1 },
                thread := .worker .exited 101 0, spawned := [], sent := [] } := by
      simp only [stepThread, stepWorker, hlive, Bool.not_false, if_true]
    have hs4 := Program.step_of fuel
      { sys with handler := { sys.handler with execCount := sys.handler.execCount - 1 },
                 threads := sys.threads.set tid (.worker .closedCheck 101 0) } tid _ _ _ hth4 hst4
    simp only [List.set_set] at hs4
    have hsplit : List.replicate 104 tid = List.replicate (99 + 1) tid ++ [tid, tid, tid, tid] := by
      simp [List.replicate_add]
    rw [hsplit, Program.run_append, h100]
    show Program.run fuel _ [tid, tid, tid, tid] = _
    simp only [Program.run, hs1, hs2, hs3, hs4]
  · intro hneg
    have hneg' : ¬ sys.handler.execCount > 0 := by omega
    have hst2 : stepThread fuel sys.handler (.worker .idleLoad 101 0)
        = .ok { handler := sys.handler, thread := .worker .poll 101 0, spawned := [],
                sent := [] } := by
      simp only [stepThread, stepWorker, hneg', if_false]
    have hs2 := Program.step_of fuel
      { sys with threads := sys.threads.set tid (.worker .idleLoad 101 0) } tid _ _ _ hth2 hst2
    simp only [List.set_set] at hs2
    have hsplit : List.replicate 102 tid = List.replicate (99 + 1) tid ++ [tid, tid] := by
      simp [List.replicate_add]
    rw [hsplit, Program.run_append, h100]
    show Program.run fuel _ [tid, tid] = _
    simp only [Program.run, hs1, hs2]

/-- The only worker of an open handler with `execCount = 1`: after 101 empty
polls it leaves and `execCount` is 0. -/
theorem idle_exit_needs_positive_count_witness :
    (idleProgram.threads.get? 0 = some (.worker .poll 0 0) ∧ idleProgram.handler.msgs = []
        ∧ idleProgram.handler.msgsClosed = false ∧ idleProgram.handler.closed = false
        ∧ idleProgram.handler.execCount = 1)
      ∧ idleProgram.run 0 (List.replicate 104 0)
          = .ok { idleProgram with
              handler := { idleProgram.handler with
                execCount := idleProgram.handler.execCount - 1,
                stop := idleProgram.handler.stop - 1 },
              threads := idleProgram.threads.set 0 (.worker .exited 101 0) } :=
  ⟨⟨by decide, by decide, by decide, by decide, by decide⟩,
    (idle_exit_needs_positive_count 0 idleProgram 0 0 (by decide) (by decide) (by decide)
      (by decide)).2.1 (by decide)⟩

/-- C19 (totality of `Write`, defect of the code).  Both storages below have
an open file under `MaxFileSize = 4` and `MaxFileCount = 2`.  (1) The storage
reached by `Write("abcdefghij")` on an empty directory has wrapped its index;
from there `Write("ABCDEFGHIJ")` does not return, whatever the fuel: every
rotation reopens a full file without truncating it and the available space
is 0 for ever.  (2) When the current file holds ten bytes at construction,
the accounted size is 10, the available space is `4 - 10`, and `Write("a")`
panics at the slice `b[:available]` for every positive fuel. -/
theorem write_is_not_total :
    (newStorage rotConfig emptyWorld).Write 3 "abcdefghij".toList = .ok wrappedState
      ∧ wrappedState.out.isSome = true
      ∧ (wrappedState.config.MaxFileSize, wrappedState.config.MaxFileCount) = (4, 2)
      ∧ (∀ fuel, wrappedState.Write fuel "ABCDEFGHIJ".toList = .outOfFuel)
      ∧ (newStorage rotConfig oversizeWorld).out.isSome = true
      ∧ (newStorage rotConfig oversizeWorld).currFileSize = 10
      ∧ (newStorage rotConfig oversizeWorld).config.MaxFileSize
          - (newStorage rotConfig oversizeWorld).currFileSize = -6
      ∧ ∀ fuel, (newStorage rotConfig oversizeWorld).Write (fuel + 1) "a".toList = .panicked := by
  refine ⟨wrapped_reached, by decide, by decide, wrapped_spins, by decide, by decide, by decide,
    ?_⟩
  intro fuel
  have h1 : (newStorage rotConfig oversizeWorld).out.isNone = false := by decide
  have h2 : (newStorage rotConfig oversizeWorld).writeLoop (fuel + 1) "a".toList 1 = .panicked := by
    rw [groStorage.writeLoop]
    have ha : (newStorage rotConfig oversizeWorld).config.MaxFileSize
      - (newStorage rotConfig oversizeWorld).currFileSize = -6 := by decide
    simp only [ha]
    simp
  have hlen : (("a".toList.length : Nat) : Int) = 1 := by decide
  simp only [groStorage.Write, h1, Bool.false_eq_true, if_false, hlen, h2]

end Grolog
